import Mathlib

/-!
# brtoy: GPU resource management (gfx_utils)

A shallow embedding of `src/gfx/gfx_utils.cpp` and `src/gfx/include/brtoy/gfx_utils.h`:
the bump allocator `LinearAllocator` with `alignUp`, and the recycling pools
`CommandBufferPool` and `TexturePool`; of `MeshData`, `World` and
`DrawWorldPipeline::execute` of
`src/examples/gpu_driven_rendering/gpu_driven_rendering.cpp`; of `StackVector`
(`src/core/include/brtoy/container.h`); and of `operator-(V3f)` (`src/core/vec.cpp`).

Conventions of the embedding.
* `VkDeviceSize` is `uint64_t`; values are natural numbers and every machine
  operation is reduced modulo `2 ^ 64` explicitly (`add64`, `sub64`, `mul64`).
* Vulkan handles (`VkBuffer`, `VkFence`, ...) and `void *` are natural numbers,
  `VK_NULL_HANDLE` and `nullptr` being `0`.
* `std::vector` is a `List`; `push_back` appends at the end, `back` is the last
  element and `pop_back` drops it.
* A member function becomes a function from the object's state to its result
  and the new state.
* `x % 0` is undefined behaviour in C++ and a failed `BRTOY_ASSERT` calls
  `brtoy::debugBreak()`; both end the run with a `Fault`.
-/

namespace brtoy

/-! ## Machine arithmetic on `VkDeviceSize` -/

/-- `a + b` on `uint64_t`. -/
def add64 (a b : Nat) : Nat := (a + b) % 2 ^ 64

/-- `a - b` on `uint64_t` (wraps below zero). -/
def sub64 (a b : Nat) : Nat := (a % 2 ^ 64 + 2 ^ 64 - b % 2 ^ 64) % 2 ^ 64

/-- `a * b` on `uint64_t`. -/
def mul64 (a b : Nat) : Nat := (a * b) % 2 ^ 64

/-- Abnormal ends of a run: integer division by zero (undefined behaviour of
`x % alignment`), a failed `BRTOY_ASSERT`, which calls `brtoy::debugBreak()`
(declared in `brtoy.h`; the run stops at the breakpoint), and a write through a
pointer computed from a null mapped pointer. -/
inductive Fault where
  | divideByZero
  | assertFailed
  | nullPointer
  deriving DecidableEq, Repr

/-- Outcome of a run that may stop with a `Fault`. -/
inductive Run (α : Type) where
  | ok (value : α)
  | fault (f : Fault)
  deriving DecidableEq, Repr

/-! ## `alignUp` and `LinearAllocator` -/

/-- `VkDeviceSize alignUp(VkDeviceSize x, VkDeviceSize alignment)`, gfx_utils.cpp 215-222. -/
def alignUp (x alignment : Nat) : Run Nat :=
  if alignment = 0 then Run.fault Fault.divideByZero
  else
    let rem := x % alignment
    let result := if rem ≠ 0 then sub64 (add64 x alignment) rem else x
    if result % alignment = 0 then Run.ok result else Run.fault Fault.assertFailed

/-- `struct BufferSubAllocation`, gfx_utils.h 87-94. -/
structure BufferSubAllocation where
  buffer : Nat
  offset : Nat
  size : Nat
  mapped_ptr : Nat
  deriving DecidableEq, Repr

/-- The value-initialised handle `BufferSubAllocation result = {}`. -/
def BufferSubAllocation.empty : BufferSubAllocation :=
  { buffer := 0, offset := 0, size := 0, mapped_ptr := 0 }

/-- `struct LinearAllocator`, gfx_utils.h 100-124 (data members). -/
structure LinearAllocator where
  m_min_alignment : Nat
  m_buffer : Nat
  m_start : Nat
  m_end : Nat
  m_cur : Nat
  m_mapped_ptr : Nat
  deriving DecidableEq, Repr

namespace LinearAllocator

/-- `LinearAllocator() = default`: every member takes its default initialiser. -/
def mkDefault : LinearAllocator :=
  { m_min_alignment := 0, m_buffer := 0, m_start := 0, m_end := 0, m_cur := 0,
    m_mapped_ptr := 0 }

/-- `LinearAllocator(buffer, start_offset, cap, min_alignment, mapped_ptr)`, gfx_utils.h 109-112. -/
def mk5 (buffer start_offset cap min_alignment mapped_ptr : Nat) : LinearAllocator :=
  { m_min_alignment := min_alignment, m_buffer := buffer, m_start := start_offset,
    m_end := add64 start_offset cap, m_cur := start_offset, m_mapped_ptr := mapped_ptr }

/-- The constructor with the default argument `mapped_ptr = nullptr`. -/
def mk4 (buffer start_offset cap min_alignment : Nat) : LinearAllocator :=
  mk5 buffer start_offset cap min_alignment 0

/-- The alignment used by `allocateBytes`:
`alignment = alignment == 0 ? m_min_alignment : alignment`. -/
def effectiveAlignment (self : LinearAllocator) (alignment : Nat) : Nat :=
  if alignment = 0 then self.m_min_alignment else alignment

/-- `BufferSubAllocation LinearAllocator::allocateBytes(size, alignment)`,
gfx_utils.cpp 231-244. Returns the handle and the allocator afterwards. -/
def allocateBytes (self : LinearAllocator) (size alignment : Nat) :
    Run (BufferSubAllocation × LinearAllocator) :=
  let alignment := if alignment = 0 then self.m_min_alignment else alignment
  match alignUp self.m_cur alignment with
  | Run.fault f => Run.fault f
  | Run.ok offset =>
    let new_cur := add64 offset size
    if new_cur ≤ self.m_end then
      Run.ok ({ buffer := self.m_buffer, offset := offset, size := size,
                mapped_ptr := self.m_mapped_ptr },
              { self with m_cur := new_cur })
    else
      Run.ok (BufferSubAllocation.empty, self)

/-- The local `new_cur` of `allocateBytes` (gfx_utils.cpp 234-235). -/
def newCur (self : LinearAllocator) (size alignment : Nat) : Run Nat :=
  match alignUp self.m_cur (if alignment = 0 then self.m_min_alignment else alignment) with
  | Run.fault f => Run.fault f
  | Run.ok offset => Run.ok (add64 offset size)

/-- The call is successful when it takes the branch `new_cur <= m_end`
(gfx_utils.cpp 236); it fails when `new_cur > m_end`. -/
def succeeds (self : LinearAllocator) (size alignment : Nat) : Bool :=
  match self.newCur size alignment with
  | Run.fault _ => false
  | Run.ok new_cur => decide (new_cur ≤ self.m_end)

/-- `template <typename T> allocate(count)`, gfx_utils.h 119-121:
`allocateBytes(count * sizeof(T), alignof(T))`; `sizeof(T)` and `alignof(T)` are
passed as `sizeofT` and `alignofT`. -/
def allocate (self : LinearAllocator) (sizeofT alignofT count : Nat) :
    Run (BufferSubAllocation × LinearAllocator) :=
  self.allocateBytes (mul64 count sizeofT) alignofT

/-- `capacity()`, gfx_utils.h 122. -/
def capacity (self : LinearAllocator) : Nat := sub64 self.m_end self.m_start

/-- `void LinearAllocator::reset() { m_cur = m_start; }`, gfx_utils.cpp 246. -/
def reset (self : LinearAllocator) : LinearAllocator :=
  { self with m_cur := self.m_start }

/-- Every member holds a `uint64_t` value. -/
def is64 (self : LinearAllocator) : Prop :=
  self.m_min_alignment < 2 ^ 64 ∧ self.m_buffer < 2 ^ 64 ∧ self.m_start < 2 ^ 64 ∧
  self.m_end < 2 ^ 64 ∧ self.m_cur < 2 ^ 64 ∧ self.m_mapped_ptr < 2 ^ 64

/-- The allocator invariant `m_start <= m_cur <= m_end`. -/
def inv (self : LinearAllocator) : Prop :=
  self.m_start ≤ self.m_cur ∧ self.m_cur ≤ self.m_end

instance (self : LinearAllocator) : Decidable self.is64 := by
  unfold is64; infer_instance

instance (self : LinearAllocator) : Decidable self.inv := by
  unfold inv; infer_instance

end LinearAllocator

/-- The mathematically exact round-up of `x` to a multiple of `alignment`
(no reduction modulo `2 ^ 64`). -/
def alignUpExact (x alignment : Nat) : Nat :=
  if x % alignment = 0 then x else x + alignment - x % alignment

/-- The mathematically exact end `alignUp(m_cur, alignment) + size` of a request. -/
def LinearAllocator.exactEnd (self : LinearAllocator) (size alignment : Nat) : Nat :=
  alignUpExact self.m_cur (self.effectiveAlignment alignment) + size

/-- A request `(size, alignment)` passed to `allocateBytes`. -/
abbrev Request := Nat × Nat

/-- One entry of a trace of `allocateBytes` calls: the returned handle, whether
the call took the success branch, and the allocator after the call. -/
structure AllocEvent where
  result : BufferSubAllocation
  success : Bool
  after : LinearAllocator
  deriving DecidableEq, Repr

/-- Consecutive `allocateBytes` calls on one allocator, no `reset` in between. -/
def allocTrace (a : LinearAllocator) : List Request → Run (List AllocEvent)
  | [] => Run.ok []
  | req :: rest =>
    match a.allocateBytes req.1 req.2 with
    | Run.fault f => Run.fault f
    | Run.ok (r, a1) =>
      match allocTrace a1 rest with
      | Run.fault f => Run.fault f
      | Run.ok tr => Run.ok ({ result := r, success := a.succeeds req.1 req.2, after := a1 } :: tr)

/-- The requests fit within capacity: laid out one after the other from the
cursor, each rounded up exactly to its (non-zero) effective alignment, none ends
beyond `m_end`. -/
def fitsAll (a : LinearAllocator) : List Request → Bool
  | [] => true
  | req :: rest =>
    decide (a.effectiveAlignment req.2 ≠ 0) && decide (a.exactEnd req.1 req.2 ≤ a.m_end) &&
      fitsAll { a with m_cur := a.exactEnd req.1 req.2 } rest

/-- The allocator after a trace of calls that started from `a`. -/
def lastState (a : LinearAllocator) (tr : List AllocEvent) : LinearAllocator :=
  match tr.getLast? with
  | some e => e.after
  | none => a

/-- Offsets of the successful allocations of a trace, in call order. -/
def successOffsets (tr : List AllocEvent) : List Nat :=
  (tr.filter (fun e => e.success)).map (fun e => e.result.offset)

/-- Cursor values after each call of a trace, in call order. -/
def cursors (tr : List AllocEvent) : List Nat :=
  tr.map (fun e => e.after.m_cur)

/-! ## Vulkan calls issued by the pools -/

/-- `VK_SUCCESS`. -/
def VK_SUCCESS : Int := 0

/-- `VK_NOT_READY`. -/
def VK_NOT_READY : Int := 1

/-- `VK_COMMAND_BUFFER_RESET_RELEASE_RESOURCES_BIT`. -/
def VK_COMMAND_BUFFER_RESET_RELEASE_RESOURCES_BIT : Nat := 1

/-- The Vulkan / VMA calls made by the pool member functions, recorded in call
order. -/
inductive VkCall where
  | vkAllocateCommandBuffers (commandPool commandBufferCount : Nat)
  | vkResetCommandBuffer (cmd flags : Nat)
  | vmaCreateImage (width height : Nat)
  | vkCreateImageView (image : Nat)
  | vkCmdPipelineBarrier (cmd image : Nat)
  | vkDestroyImageView (view : Nat)
  | vmaDestroyImage (image memory : Nat)
  | vkWaitForFences (fences : List Nat)
  | vkDestroyCommandPool (commandPool : Nat)
  deriving DecidableEq, Repr

/-! ## `CommandBufferPool` -/

/-- `struct CommandBufferPool::CmdBufferAllocation`, gfx_utils.h 46-49. -/
structure CmdBufferAllocation where
  cmd_buffer : Nat
  fence : Nat
  deriving DecidableEq, Repr

/-- `struct CommandBufferPool`, gfx_utils.h 35-52 (`m_device` only parametrises
the Vulkan calls and is not represented). -/
structure CommandBufferPool where
  m_cmd_pool : Nat
  m_pending : List CmdBufferAllocation
  m_free : List Nat
  deriving DecidableEq, Repr

namespace CommandBufferPool

/-- The loop of `CommandBufferPool::sync`, gfx_utils.cpp 90-99. `done` are the
entries of `m_pending` before the iterator, the second list the entries from the
iterator on; `fenceStatus` is what `vkGetFenceStatus` reports during this call. -/
def syncLoop (fenceStatus : Nat → Int) (done : List CmdBufferAllocation) :
    List CmdBufferAllocation → List Nat → List VkCall →
    List CmdBufferAllocation × List Nat × List VkCall
  | [], free, calls => (done, free, calls)
  | it :: rest, free, calls =>
    if fenceStatus it.fence = VK_SUCCESS then
      syncLoop fenceStatus done rest (free ++ [it.cmd_buffer])
        (calls ++ [VkCall.vkResetCommandBuffer it.cmd_buffer
          VK_COMMAND_BUFFER_RESET_RELEASE_RESOURCES_BIT])
    else
      syncLoop fenceStatus (done ++ [it]) rest free calls

/-- `void CommandBufferPool::sync()`, gfx_utils.cpp 89-100. -/
def sync (self : CommandBufferPool) (fenceStatus : Nat → Int) :
    CommandBufferPool × List VkCall :=
  let r := syncLoop fenceStatus [] self.m_pending self.m_free []
  ({ self with m_pending := r.1, m_free := r.2.1 }, r.2.2)

/-- `VkCommandBuffer CommandBufferPool::acquire()`, gfx_utils.cpp 102-118.
`allocated` is the handle `vkAllocateCommandBuffers` stores in `result`
(`VK_NULL_HANDLE` when the call fails). -/
def acquire (self : CommandBufferPool) (allocated : Nat) :
    Nat × CommandBufferPool × List VkCall :=
  if h : self.m_free = [] then
    (allocated, self, [VkCall.vkAllocateCommandBuffers self.m_cmd_pool 1])
  else
    (self.m_free.getLast h, { self with m_free := self.m_free.dropLast }, [])

/-- `void CommandBufferPool::release(cmd, fence)`, gfx_utils.cpp 120-122. -/
def release (self : CommandBufferPool) (cmd fence : Nat) : CommandBufferPool :=
  { self with m_pending := self.m_pending ++ [{ cmd_buffer := cmd, fence := fence }] }

/-- The pool right after construction: both vectors empty. -/
def new (cmd_pool : Nat) : CommandBufferPool :=
  { m_cmd_pool := cmd_pool, m_pending := [], m_free := [] }

/-- `CommandBufferPool::~CommandBufferPool()`, gfx_utils.cpp 77-87: wait for the
fences of all pending entries, `sync()`, `BRTOY_ASSERT(m_pending.empty())`,
destroy the command pool. `fenceStatus` is what `vkGetFenceStatus` reports in
`sync()`, after `vkWaitForFences` has returned. -/
def destroy (self : CommandBufferPool) (fenceStatus : Nat → Int) :
    Run (CommandBufferPool × List VkCall) :=
  let fences := self.m_pending.map (fun alloc => alloc.fence)
  let r := self.sync fenceStatus
  if r.1.m_pending = [] then
    Run.ok (r.1, [VkCall.vkWaitForFences fences] ++ r.2 ++
      [VkCall.vkDestroyCommandPool self.m_cmd_pool])
  else
    Run.fault Fault.assertFailed

end CommandBufferPool

/-! ## `TexturePool` -/

/-- `struct V2u` (two `u32` components). -/
structure V2u where
  x : Nat
  y : Nat
  deriving DecidableEq, Repr

/-- `struct TexturePool::Texture`, gfx_utils.h 55-60. -/
structure Texture where
  dim : V2u
  memory : Nat
  image : Nat
  view : Nat
  deriving DecidableEq, Repr

/-- The value-initialised texture `Texture texture = {}`. -/
def Texture.null : Texture :=
  { dim := { x := 0, y := 0 }, memory := 0, image := 0, view := 0 }

/-- `struct TexturePool::TextureAllocation`, gfx_utils.h 79-82. -/
structure TextureAllocation where
  texture : Texture
  fence : Nat
  deriving DecidableEq, Repr

/-- `struct TexturePool`, gfx_utils.h 54-85 (the members that only parametrise
the Vulkan calls are not represented). -/
structure TexturePool where
  m_pending : List TextureAllocation
  m_free : List Texture
  deriving DecidableEq, Repr

/-- What the driver does when `TexturePool::acquire` creates an image:
the result of `vmaCreateImage` with the handles it stores in `texture.image`
and `texture.memory`, and the result of `vkCreateImageView` with the handle it
stores in `texture.view`. -/
structure ImageCreation where
  image_result : Int
  image : Nat
  memory : Nat
  view_result : Int
  view : Nat
  deriving DecidableEq, Repr

namespace TexturePool

/-- The loop of `TexturePool::sync`, gfx_utils.cpp 146-154. -/
def syncLoop (fenceStatus : Nat → Int) (done : List TextureAllocation) :
    List TextureAllocation → List Texture → List TextureAllocation × List Texture
  | [], free => (done, free)
  | it :: rest, free =>
    if fenceStatus it.fence = VK_SUCCESS then
      syncLoop fenceStatus done rest (free ++ [it.texture])
    else
      syncLoop fenceStatus (done ++ [it]) rest free

/-- `void TexturePool::sync()`, gfx_utils.cpp 145-155. -/
def sync (self : TexturePool) (fenceStatus : Nat → Int) : TexturePool :=
  let r := syncLoop fenceStatus [] self.m_pending self.m_free
  { self with m_pending := r.1, m_free := r.2 }

/-- `void TexturePool::free(Texture &texture)`, gfx_utils.cpp 207-211: the
texture afterwards and the calls made. -/
def free (texture : Texture) : Texture × List VkCall :=
  (Texture.null,
   [VkCall.vkDestroyImageView texture.view, VkCall.vmaDestroyImage texture.image texture.memory])

/-- The `while` loop of `TexturePool::acquire`, gfx_utils.cpp 159-166. The
second argument is `m_free` in reverse, so that its head is `m_free.back()`. -/
def acquireLoop (dim : V2u) : Texture → List Texture → List VkCall →
    Texture × List Texture × List VkCall
  | texture, [], calls => (texture, [], calls)
  | texture, back :: rest, calls =>
    if texture.image = 0 then
      if back.dim ≠ dim then
        acquireLoop dim (free back).1 rest (calls ++ (free back).2)
      else
        acquireLoop dim back rest calls
    else
      (texture, back :: rest, calls)

/-- `Texture TexturePool::acquire(VkCommandBuffer cmd, V2u dim)`,
gfx_utils.cpp 157-201. -/
def acquire (self : TexturePool) (cmd : Nat) (dim : V2u) (drv : ImageCreation) :
    Texture × TexturePool × List VkCall :=
  let r := acquireLoop dim Texture.null self.m_free.reverse []
  let texture := r.1
  let pool : TexturePool := { self with m_free := r.2.1.reverse }
  let calls := r.2.2
  if texture.image = 0 then
    let texture : Texture :=
      { texture with dim := dim, image := drv.image, memory := drv.memory }
    let calls := calls ++ [VkCall.vmaCreateImage dim.x dim.y]
    if drv.image_result = VK_SUCCESS then
      let texture : Texture := { texture with view := drv.view }
      let calls := calls ++ [VkCall.vkCreateImageView texture.image]
      if drv.view_result = VK_SUCCESS then
        (texture, pool, calls ++ [VkCall.vkCmdPipelineBarrier cmd texture.image])
      else
        (Texture.null, pool, calls ++ [VkCall.vmaDestroyImage texture.image texture.memory])
    else
      (texture, pool, calls)
  else
    (texture, pool, calls)

/-- `void TexturePool::release(cmd, texture, fence)`, gfx_utils.cpp 203-205. -/
def release (self : TexturePool) (_cmd : Nat) (texture : Texture) (fence : Nat) : TexturePool :=
  { self with m_pending := self.m_pending ++ [{ texture := texture, fence := fence }] }

/-- The pool right after construction: both vectors empty. -/
def new : TexturePool := { m_pending := [], m_free := [] }

/-- `TexturePool::~TexturePool()`, gfx_utils.cpp 132-143: wait for the fences of
all pending entries, `sync()`, `BRTOY_ASSERT(m_pending.empty())`, then `free`
every texture of `m_free`. `fenceStatus` is what `vkGetFenceStatus` reports in
`sync()`, after `vkWaitForFences` has returned. -/
def destroy (self : TexturePool) (fenceStatus : Nat → Int) : Run (TexturePool × List VkCall) :=
  let fences := self.m_pending.map (fun alloc => alloc.fence)
  let r := self.sync fenceStatus
  if r.m_pending = [] then
    Run.ok ({ r with m_free := r.m_free.map (fun texture => (free texture).1) },
      [VkCall.vkWaitForFences fences] ++ (r.m_free.map (fun texture => (free texture).2)).flatten)
  else
    Run.fault Fault.assertFailed

end TexturePool

/-! ## Callers of the pools

The pools are driven by a caller that acquires resources, releases them with a
fence and calls `sync`. The caller is described by the list of resources it
holds (acquired and not yet released) and by two assumptions: it releases only
what it holds, and a handle newly created by the driver differs from every
handle in the pool or held. -/

/-- One call on a `CommandBufferPool`. -/
inductive CmdPoolOp where
  | acquire (allocated : Nat)
  | release (cmd fence : Nat)
  | sync (fenceStatus : Nat → Int)

/-- A `CommandBufferPool` and the command buffers its caller holds. -/
structure CmdPoolClient where
  pool : CommandBufferPool
  held : List Nat

namespace CmdPoolClient

/-- The empty pool with a caller holding nothing. -/
def init (cmd_pool : Nat) : CmdPoolClient :=
  { pool := CommandBufferPool.new cmd_pool, held := [] }

/-- Every command buffer in `m_free`, in `m_pending` or held by the caller. -/
def known (s : CmdPoolClient) : List Nat :=
  s.pool.m_free ++ s.pool.m_pending.map (fun e => e.cmd_buffer) ++ s.held

/-- The assumptions on one call: a newly allocated command buffer is fresh, a
released command buffer is one the caller holds. -/
def admits (s : CmdPoolClient) : CmdPoolOp → Bool
  | CmdPoolOp.acquire allocated =>
    decide (s.pool.m_free = [] → allocated ≠ 0 → allocated ∉ s.known)
  | CmdPoolOp.release cmd _ => decide (cmd ∈ s.held)
  | CmdPoolOp.sync _ => true

/-- The effect of one call on the pool and on what the caller holds. -/
def step (s : CmdPoolClient) : CmdPoolOp → CmdPoolClient
  | CmdPoolOp.acquire allocated =>
    let r := s.pool.acquire allocated
    { pool := r.2.1, held := if r.1 = 0 then s.held else s.held ++ [r.1] }
  | CmdPoolOp.release cmd fence =>
    { pool := s.pool.release cmd fence, held := s.held.erase cmd }
  | CmdPoolOp.sync fenceStatus =>
    { pool := (s.pool.sync fenceStatus).1, held := s.held }

/-- The state after a sequence of calls. -/
def run (s : CmdPoolClient) : List CmdPoolOp → CmdPoolClient
  | [] => s
  | op :: ops => run (s.step op) ops

/-- Every call of the sequence meets the assumptions at the time it is made. -/
def admitsAll (s : CmdPoolClient) : List CmdPoolOp → Bool
  | [] => true
  | op :: ops => s.admits op && admitsAll (s.step op) ops

end CmdPoolClient

/-- One call on a `TexturePool`. -/
inductive TexPoolOp where
  | acquire (cmd : Nat) (dim : V2u) (drv : ImageCreation)
  | release (cmd : Nat) (texture : Texture) (fence : Nat)
  | sync (fenceStatus : Nat → Int)

/-- A `TexturePool` and the textures its caller holds. -/
structure TexPoolClient where
  pool : TexturePool
  held : List Texture

namespace TexPoolClient

/-- The empty pool with a caller holding nothing. -/
def init : TexPoolClient := { pool := TexturePool.new, held := [] }

/-- The image of every texture in `m_free`, in `m_pending` or held by the caller. -/
def known (s : TexPoolClient) : List Nat :=
  (s.pool.m_free ++ s.pool.m_pending.map (fun e => e.texture) ++ s.held).map
    (fun t => t.image)

/-- The assumptions on one call: when `acquire` creates an image, a successful
`vmaCreateImage` stores a non-null image that differs from every image left in
the pool or held, and a failed one stores a null image; a released texture is
one the caller holds. -/
def admits (s : TexPoolClient) : TexPoolOp → Bool
  | TexPoolOp.acquire _ dim drv =>
    let r := TexturePool.acquireLoop dim Texture.null s.pool.m_free.reverse []
    let left : TexPoolClient := { pool := { s.pool with m_free := r.2.1.reverse }, held := s.held }
    decide (r.1.image = 0 →
      (drv.image_result = VK_SUCCESS → drv.image ≠ 0 ∧ drv.image ∉ left.known) ∧
      (drv.image_result ≠ VK_SUCCESS → drv.image = 0))
  | TexPoolOp.release _ texture _ => decide (texture ∈ s.held)
  | TexPoolOp.sync _ => true

/-- The effect of one call on the pool and on what the caller holds. -/
def step (s : TexPoolClient) : TexPoolOp → TexPoolClient
  | TexPoolOp.acquire cmd dim drv =>
    let r := s.pool.acquire cmd dim drv
    { pool := r.2.1, held := if r.1.image = 0 then s.held else s.held ++ [r.1] }
  | TexPoolOp.release cmd texture fence =>
    { pool := s.pool.release cmd texture fence, held := s.held.erase texture }
  | TexPoolOp.sync fenceStatus =>
    { pool := s.pool.sync fenceStatus, held := s.held }

/-- The state after a sequence of calls. -/
def run (s : TexPoolClient) : List TexPoolOp → TexPoolClient
  | [] => s
  | op :: ops => run (s.step op) ops

/-- Every call of the sequence meets the assumptions at the time it is made. -/
def admitsAll (s : TexPoolClient) : List TexPoolOp → Bool
  | [] => true
  | op :: ops => s.admits op && admitsAll (s.step op) ops

end TexPoolClient

/-- Invariant of a pool with its caller: no command buffer occurs twice among
`m_free`, `m_pending` and the held ones, and none of them is `VK_NULL_HANDLE`. -/
def CmdPoolClient.wf (s : CmdPoolClient) : Prop :=
  (∀ c, List.count c s.known ≤ 1) ∧ List.count 0 s.known = 0

/-- Invariant of a pool with its caller: no image occurs twice among the
textures in `m_free`, in `m_pending` and the held ones, and none is null. -/
def TexPoolClient.wf (s : TexPoolClient) : Prop :=
  (∀ i, List.count i s.known ≤ 1) ∧ List.count 0 s.known = 0

/-! ## Byte memories

The contents of a buffer (or of its host mapping) are a function from byte
offsets to byte values. A pointer into a mapped buffer is represented by its
byte offset from the mapped base. -/

/-- A buffer's bytes, by byte offset. -/
abbrev Mem := Nat → Nat

/-- Store a `uint32_t` (little endian) at a byte offset. -/
def writeU32 (mem : Mem) (addr v : Nat) : Mem :=
  fun a => if addr ≤ a ∧ a < addr + 4 then (v / 256 ^ (a - addr)) % 256 else mem a

/-- Load a `uint32_t` (little endian) from a byte offset. -/
def readU32 (mem : Mem) (addr : Nat) : Nat :=
  mem addr % 256 + 256 * (mem (addr + 1) % 256) + 65536 * (mem (addr + 2) % 256)
    + 16777216 * (mem (addr + 3) % 256)

/-- `VkBufferCopy`. -/
structure VkBufferCopy where
  srcOffset : Nat
  dstOffset : Nat
  size : Nat
  deriving DecidableEq, Repr

/-- The effect of one copy region on the destination buffer. -/
def copyRegion (src dst : Mem) (r : VkBufferCopy) : Mem :=
  fun a => if r.dstOffset ≤ a ∧ a < r.dstOffset + r.size then src (r.srcOffset + (a - r.dstOffset))
    else dst a

/-- The effect of the regions of one `vkCmdCopyBuffer`, applied in order. -/
def copyRegions (src dst : Mem) (regions : List VkBufferCopy) : Mem :=
  regions.foldl (copyRegion src) dst

/-! ## Recorded commands -/

/-- `VkRect2D`. -/
structure VkRect2D where
  offset_x : Int
  offset_y : Int
  extent_width : Nat
  extent_height : Nat
  deriving DecidableEq, Repr

/-- `VkViewport`: six `float`, kept as their IEEE-754 binary32 bit patterns. -/
structure VkViewport where
  x : Nat
  y : Nat
  width : Nat
  height : Nat
  minDepth : Nat
  maxDepth : Nat
  deriving DecidableEq, Repr

/-- The position of the highest set bit of `n` (0 for `n < 2`), found in at most
`fuel` halvings. -/
def floorLog2 : Nat → Nat → Nat
  | 0, _ => 0
  | fuel + 1, n => if n < 2 then 0 else floorLog2 fuel (n / 2) + 1

/-- The binary32 bit pattern (sign bit clear) of the `float` nearest to the
integer `n <= 2 ^ 32`, ties to the even significand: what the conversion
`(float)n` yields under the default rounding mode. Integers up to `2 ^ 24` are
exact; above, the low bits are rounded away. -/
def floatBits (n : Nat) : Nat :=
  if n = 0 then 0
  else
    let e := floorLog2 33 n
    if e ≤ 23 then (e + 127) * 2 ^ 23 + (n * 2 ^ (23 - e) - 2 ^ 23)
    else
      let shift := e - 23
      let q := n / 2 ^ shift
      let r := n % 2 ^ shift
      let half := 2 ^ (shift - 1)
      let q1 := if half < r ∨ (r = half ∧ q % 2 = 1) then q + 1 else q
      (e + 127) * 2 ^ 23 + (q1 - 2 ^ 23)

/-- The cast `(float)` of a `uint32_t`, as a bit pattern. -/
def floatOfUInt32 (n : Nat) : Nat := floatBits n

/-- The cast `(float)` of an `int32_t`, as a bit pattern: the sign bit and the
pattern of the magnitude. -/
def floatOfInt32 (x : Int) : Nat :=
  if x < 0 then 2 ^ 31 + floatBits x.natAbs else floatBits x.natAbs

/-- `struct RenderTarget`, gpu_driven_rendering.cpp 200-205. -/
structure RenderTarget where
  color_view : Nat
  depth_view : Nat
  resolve_view : Nat
  area : VkRect2D
  deriving DecidableEq, Repr

/-- The commands recorded into a command buffer by `MeshData::update` and
`DrawWorldPipeline::execute`, with the arguments the claims refer to. -/
inductive GpuCmd where
  | vkCmdPipelineBarrier (srcStageMask dstStageMask srcAccessMask dstAccessMask : Nat)
  | vkCmdCopyBuffer (srcBuffer dstBuffer : Nat) (regions : List VkBufferCopy)
  | vkCmdFillBuffer (dstBuffer dstOffset size data : Nat)
  | vkCmdBindPipeline (pipelineBindPoint pipeline : Nat)
  | vkCmdBindDescriptorSets (pipelineBindPoint layout firstSet : Nat) (sets : List Nat)
  | vkCmdDispatch (groupCountX groupCountY groupCountZ : Nat)
  | vkCmdBeginRendering (color_view resolve_view depth_view : Nat) (renderArea : VkRect2D)
  | vkCmdSetViewport (firstViewport : Nat) (viewports : List VkViewport)
  | vkCmdSetScissor (area : VkRect2D)
  | vkCmdDrawIndirect (buffer offset drawCount stride : Nat)
  | vkCmdEndRendering
  deriving DecidableEq, Repr

/-- `VK_PIPELINE_STAGE_DRAW_INDIRECT_BIT`. -/
def VK_PIPELINE_STAGE_DRAW_INDIRECT_BIT : Nat := 0x2
/-- `VK_PIPELINE_STAGE_VERTEX_INPUT_BIT`. -/
def VK_PIPELINE_STAGE_VERTEX_INPUT_BIT : Nat := 0x4
/-- `VK_PIPELINE_STAGE_VERTEX_SHADER_BIT`. -/
def VK_PIPELINE_STAGE_VERTEX_SHADER_BIT : Nat := 0x8
/-- `VK_PIPELINE_STAGE_COMPUTE_SHADER_BIT`. -/
def VK_PIPELINE_STAGE_COMPUTE_SHADER_BIT : Nat := 0x800
/-- `VK_PIPELINE_STAGE_TRANSFER_BIT`. -/
def VK_PIPELINE_STAGE_TRANSFER_BIT : Nat := 0x1000
/-- `VK_ACCESS_NONE`. -/
def VK_ACCESS_NONE : Nat := 0
/-- `VK_ACCESS_INDIRECT_COMMAND_READ_BIT`. -/
def VK_ACCESS_INDIRECT_COMMAND_READ_BIT : Nat := 0x1
/-- `VK_ACCESS_SHADER_READ_BIT`. -/
def VK_ACCESS_SHADER_READ_BIT : Nat := 0x20
/-- `VK_ACCESS_SHADER_WRITE_BIT`. -/
def VK_ACCESS_SHADER_WRITE_BIT : Nat := 0x40
/-- `VK_ACCESS_TRANSFER_WRITE_BIT`. -/
def VK_ACCESS_TRANSFER_WRITE_BIT : Nat := 0x1000
/-- `VK_PIPELINE_BIND_POINT_GRAPHICS`. -/
def VK_PIPELINE_BIND_POINT_GRAPHICS : Nat := 0
/-- `VK_PIPELINE_BIND_POINT_COMPUTE`. -/
def VK_PIPELINE_BIND_POINT_COMPUTE : Nat := 1

/-! ## `MeshData` (gpu_driven_rendering.cpp) -/

/-- `struct MeshInfo`, gpu_driven_rendering.cpp 16-23: six `uint32_t`. -/
structure MeshInfo where
  index_data_ptr : Nat
  pos_data_ptr : Nat
  pos_data_stride : Nat
  attrib_data_ptr : Nat
  attrib_data_stride : Nat
  index_count : Nat
  deriving DecidableEq, Repr

/-- `sizeof(MeshInfo)`. -/
def sizeof_MeshInfo : Nat := 24

/-- `alignof(MeshInfo)`. -/
def alignof_MeshInfo : Nat := 4

/-- Store a `MeshInfo` at a byte offset, field by field in declaration order. -/
def writeMeshInfo (mem : Mem) (addr : Nat) (info : MeshInfo) : Mem :=
  writeU32 (writeU32 (writeU32 (writeU32 (writeU32 (writeU32 mem
    addr info.index_data_ptr)
    (addr + 4) info.pos_data_ptr)
    (addr + 8) info.pos_data_stride)
    (addr + 12) info.attrib_data_ptr)
    (addr + 16) info.attrib_data_stride)
    (addr + 20) info.index_count

/-- Load the `MeshInfo` stored at a byte offset. -/
def readMeshInfo (mem : Mem) (addr : Nat) : MeshInfo :=
  { index_data_ptr := readU32 mem addr,
    pos_data_ptr := readU32 mem (addr + 4),
    pos_data_stride := readU32 mem (addr + 8),
    attrib_data_ptr := readU32 mem (addr + 12),
    attrib_data_stride := readU32 mem (addr + 16),
    index_count := readU32 mem (addr + 20) }

/-- `struct MeshData::Creator`, gpu_driven_rendering.cpp 36-45. -/
structure Creator where
  position_size : Nat
  attrib_size : Nat
  index_count : Nat
  src_positions : BufferSubAllocation
  src_attribs : BufferSubAllocation
  src_indices : BufferSubAllocation
  deriving DecidableEq, Repr

/-- `struct MeshData`, gpu_driven_rendering.cpp 25-80 (the VMA handles that only
parametrise buffer creation and destruction are not represented). -/
structure MeshData where
  m_staging_buffer : Nat
  m_buffer : Nat
  m_staging : LinearAllocator
  m_positions : LinearAllocator
  m_attribs : LinearAllocator
  m_indices : LinearAllocator
  m_infos : LinearAllocator
  deriving DecidableEq, Repr

/-- What `MeshData::update` returns and does: the mesh handle, the object
afterwards, the `MeshInfo` it stores through `src_info.ptr()` (at byte offset
`info_offset` of the staging mapping), and the commands it records. -/
structure UpdateResult where
  handle : Nat
  self : MeshData
  info_offset : Nat
  info : MeshInfo
  cmds : List GpuCmd
  deriving DecidableEq, Repr

namespace MeshData

/-- `sizeof(Index)`, `Index = uint32_t`. -/
def sizeof_Index : Nat := 4
/-- `alignof(Index)`. -/
def alignof_Index : Nat := 4
/-- `StagingBufferSize`. -/
def StagingBufferSize : Nat := 8 * 1024 * 1024
/-- `PositionBufferSize`. -/
def PositionBufferSize : Nat := 16 * 1024 * 1024
/-- `AttribBufferSize`. -/
def AttribBufferSize : Nat := 16 * 1024 * 1024
/-- `IndexCountMax`. -/
def IndexCountMax : Nat := 1024 * 1024
/-- `IndexBufferSize = sizeof(Index) * IndexCountMax`. -/
def IndexBufferSize : Nat := sizeof_Index * IndexCountMax
/-- `InfoSize = sizeof(MeshInfo)`. -/
def InfoSize : Nat := sizeof_MeshInfo
/-- `MeshCountMax`. -/
def MeshCountMax : Nat := 1024
/-- `InfoBufferSize = InfoSize * MeshCountMax`. -/
def InfoBufferSize : Nat := InfoSize * MeshCountMax

/-- The object built by `MeshData::MeshData(VmaAllocator)`,
gpu_driven_rendering.cpp 102-125: `staging_buffer` and `mapped` are the buffer
stored by the first `vmaCreateBuffer` and `staging_info.pMappedData`; `buffer`
is what the second `vmaCreateBuffer` stores in `m_buffer`. -/
def constructed (staging_buffer mapped buffer : Nat) : MeshData :=
  { m_staging_buffer := staging_buffer,
    m_buffer := buffer,
    m_staging := LinearAllocator.mk5 staging_buffer 0 StagingBufferSize 4 mapped,
    m_positions := LinearAllocator.mk4 buffer 0 PositionBufferSize 4,
    m_attribs := LinearAllocator.mk4 buffer PositionBufferSize AttribBufferSize 4,
    m_indices :=
      LinearAllocator.mk4 buffer (add64 PositionBufferSize AttribBufferSize) IndexBufferSize 4,
    m_infos :=
      LinearAllocator.mk4 buffer
        (add64 (add64 PositionBufferSize AttribBufferSize) IndexBufferSize) InfoBufferSize 4 }

/-- `MeshData::MeshData(VmaAllocator)`, gpu_driven_rendering.cpp 84-126, with its
`BRTOY_ASSERT(result == VK_SUCCESS)` on the result of the first
`vmaCreateBuffer`. -/
def new (staging_result : Int) (staging_buffer mapped buffer : Nat) : Run MeshData :=
  if staging_result = VK_SUCCESS then Run.ok (constructed staging_buffer mapped buffer)
  else Run.fault Fault.assertFailed

/-- `MeshData::create<PosT, AttribT>(vertex_count, index_count)`,
gpu_driven_rendering.cpp 56-66; `sizeof` and `alignof` of the two types are
passed as arguments. -/
def create (self : MeshData) (sizeofPosT alignofPosT sizeofAttribT alignofAttribT : Nat)
    (vertex_count index_count : Nat) : Run (Creator × MeshData) :=
  match self.m_staging.allocate sizeofPosT alignofPosT vertex_count with
  | Run.fault f => Run.fault f
  | Run.ok (src_positions, s1) =>
    match s1.allocate sizeofAttribT alignofAttribT vertex_count with
    | Run.fault f => Run.fault f
    | Run.ok (src_attribs, s2) =>
      match s2.allocate sizeof_Index alignof_Index index_count with
      | Run.fault f => Run.fault f
      | Run.ok (src_indices, s3) =>
        Run.ok ({ position_size := sizeofPosT % 2 ^ 32,
                  attrib_size := sizeofAttribT % 2 ^ 32,
                  index_count := index_count,
                  src_positions := src_positions,
                  src_attribs := src_attribs,
                  src_indices := src_indices },
                { self with m_staging := s3 })

/-- `uint32_t MeshData::update(VkCommandBuffer cmd, const Creator &creator)`,
gpu_driven_rendering.cpp 133-175. The `MeshInfo` is written through
`src_info.ptr()`, that is `mapped_ptr + offset`; with a null `mapped_ptr` (the
handle of a failed allocation) the write ends the run. -/
def update (self : MeshData) (_cmd : Nat) (creator : Creator) : Run UpdateResult :=
  match self.m_positions.allocateBytes creator.src_positions.size 0 with
  | Run.fault f => Run.fault f
  | Run.ok (dst_positions, m_positions) =>
    match self.m_attribs.allocateBytes creator.src_attribs.size 0 with
    | Run.fault f => Run.fault f
    | Run.ok (dst_attribs, m_attribs) =>
      match self.m_indices.allocateBytes creator.src_indices.size 0 with
      | Run.fault f => Run.fault f
      | Run.ok (dst_indices, m_indices) =>
        match self.m_infos.allocate sizeof_MeshInfo alignof_MeshInfo 1 with
        | Run.fault f => Run.fault f
        | Run.ok (dst_info, m_infos) =>
          match self.m_staging.allocate sizeof_MeshInfo alignof_MeshInfo 1 with
          | Run.fault f => Run.fault f
          | Run.ok (src_info, m_staging) =>
            if src_info.mapped_ptr = 0 then Run.fault Fault.nullPointer
            else
              Run.ok
                { handle := dst_info.offset % 2 ^ 32,
                  self := { self with m_staging := m_staging, m_positions := m_positions,
                                      m_attribs := m_attribs, m_indices := m_indices,
                                      m_infos := m_infos },
                  info_offset := src_info.offset,
                  info :=
                    { index_data_ptr := dst_indices.offset % 2 ^ 32,
                      pos_data_ptr := dst_positions.offset % 2 ^ 32,
                      pos_data_stride := creator.position_size,
                      attrib_data_ptr := dst_attribs.offset % 2 ^ 32,
                      attrib_data_stride := creator.attrib_size,
                      index_count := creator.index_count },
                  cmds :=
                    [GpuCmd.vkCmdPipelineBarrier
                       (VK_PIPELINE_STAGE_VERTEX_INPUT_BIT ||| VK_PIPELINE_STAGE_VERTEX_SHADER_BIT)
                       VK_PIPELINE_STAGE_TRANSFER_BIT VK_ACCESS_NONE VK_ACCESS_TRANSFER_WRITE_BIT,
                     GpuCmd.vkCmdCopyBuffer self.m_staging_buffer self.m_buffer
                       [{ srcOffset := creator.src_positions.offset,
                          dstOffset := dst_positions.offset,
                          size := creator.src_positions.size },
                        { srcOffset := creator.src_attribs.offset,
                          dstOffset := dst_attribs.offset,
                          size := creator.src_attribs.size },
                        { srcOffset := creator.src_indices.offset,
                          dstOffset := dst_indices.offset,
                          size := creator.src_indices.size },
                        { srcOffset := src_info.offset,
                          dstOffset := dst_info.offset,
                          size := src_info.size }],
                     GpuCmd.vkCmdPipelineBarrier VK_PIPELINE_STAGE_TRANSFER_BIT
                       (VK_PIPELINE_STAGE_VERTEX_INPUT_BIT ||| VK_PIPELINE_STAGE_VERTEX_SHADER_BIT)
                       VK_ACCESS_TRANSFER_WRITE_BIT VK_ACCESS_SHADER_READ_BIT] }

/-- Every allocation of `create` takes its success branch. -/
def createSucceeds (self : MeshData) (sizeofPosT alignofPosT sizeofAttribT alignofAttribT : Nat)
    (vertex_count index_count : Nat) : Bool :=
  match self.m_staging.allocate sizeofPosT alignofPosT vertex_count with
  | Run.fault _ => false
  | Run.ok (_, s1) =>
    self.m_staging.succeeds (mul64 vertex_count sizeofPosT) alignofPosT &&
    match s1.allocate sizeofAttribT alignofAttribT vertex_count with
    | Run.fault _ => false
    | Run.ok (_, s2) =>
      s1.succeeds (mul64 vertex_count sizeofAttribT) alignofAttribT &&
      s2.succeeds (mul64 index_count sizeof_Index) alignof_Index

/-- Every allocation of `update` takes its success branch. -/
def updateSucceeds (self : MeshData) (creator : Creator) : Bool :=
  self.m_positions.succeeds creator.src_positions.size 0 &&
  self.m_attribs.succeeds creator.src_attribs.size 0 &&
  self.m_indices.succeeds creator.src_indices.size 0 &&
  self.m_infos.succeeds (mul64 1 sizeof_MeshInfo) alignof_MeshInfo &&
  self.m_staging.succeeds (mul64 1 sizeof_MeshInfo) alignof_MeshInfo

/-- The state of a `MeshData` built by its constructor and used through
`create` and `update`: every allocator has the region and alignment the
constructor gave it and satisfies `m_start <= m_cur <= m_end`, and the staging
buffer is mapped. -/
def wf (self : MeshData) : Prop :=
  self.m_staging.reset
      = LinearAllocator.mk5 self.m_staging_buffer 0 StagingBufferSize 4
          self.m_staging.m_mapped_ptr ∧
    self.m_staging.m_mapped_ptr ≠ 0 ∧ self.m_staging.inv ∧
  self.m_positions.reset = LinearAllocator.mk4 self.m_buffer 0 PositionBufferSize 4 ∧
    self.m_positions.inv ∧
  self.m_attribs.reset
      = LinearAllocator.mk4 self.m_buffer PositionBufferSize AttribBufferSize 4 ∧
    self.m_attribs.inv ∧
  self.m_indices.reset
      = LinearAllocator.mk4 self.m_buffer (add64 PositionBufferSize AttribBufferSize)
          IndexBufferSize 4 ∧
    self.m_indices.inv ∧
  self.m_infos.reset
      = LinearAllocator.mk4 self.m_buffer
          (add64 (add64 PositionBufferSize AttribBufferSize) IndexBufferSize) InfoBufferSize 4 ∧
    self.m_infos.inv

instance (self : MeshData) : Decidable self.wf := by
  unfold wf; infer_instance

end MeshData

/-- One call on a `MeshData`. -/
inductive MeshOp where
  | create (sizeofPosT alignofPosT sizeofAttribT alignofAttribT vertex_count index_count : Nat)
  | update (cmd : Nat) (creator : Creator)
  deriving DecidableEq, Repr

/-- A sequence of `create` and `update` calls on one `MeshData`: the handles
returned by the `update` calls, in call order, and the object afterwards. -/
def MeshData.runOps (self : MeshData) : List MeshOp → Run (List Nat × MeshData)
  | [] => Run.ok ([], self)
  | MeshOp.create sp ap sa aa v i :: ops =>
    match self.create sp ap sa aa v i with
    | Run.fault f => Run.fault f
    | Run.ok (_, md) => MeshData.runOps md ops
  | MeshOp.update cmd creator :: ops =>
    match self.update cmd creator with
    | Run.fault f => Run.fault f
    | Run.ok res =>
      match MeshData.runOps res.self ops with
      | Run.fault f => Run.fault f
      | Run.ok (handles, md) => Run.ok (res.handle :: handles, md)

/-! ### The meshes of `populateWorld`

`createTriangleGeo`, `createDiskGeo` and `createTetrahedron`
(gpu_driven_rendering.cpp 902-982) call `create<V3f, VertexNormal>` with
`sizeof = 12`, `alignof = 4` for both types, followed by `update`. The staging
buffer is taken to be buffer 7 mapped at 4096, the device buffer to be buffer 9. -/

/-- The `MeshData` of the example with the given allocator cursors. -/
def exampleMeshData (staging positions attribs indices infos : Nat) : MeshData :=
  { MeshData.constructed 7 4096 9 with
    m_staging := { (MeshData.constructed 7 4096 9).m_staging with m_cur := staging },
    m_positions := { (MeshData.constructed 7 4096 9).m_positions with m_cur := positions },
    m_attribs := { (MeshData.constructed 7 4096 9).m_attribs with m_cur := attribs },
    m_indices := { (MeshData.constructed 7 4096 9).m_indices with m_cur := indices },
    m_infos := { (MeshData.constructed 7 4096 9).m_infos with m_cur := infos } }

/-- The creator returned by `create<V3f, VertexNormal>(3, 3)` in
`createTriangleGeo`. -/
def triangleCreator : Creator :=
  { position_size := 12, attrib_size := 12, index_count := 3,
    src_positions := { buffer := 7, offset := 0, size := 36, mapped_ptr := 4096 },
    src_attribs := { buffer := 7, offset := 36, size := 36, mapped_ptr := 4096 },
    src_indices := { buffer := 7, offset := 72, size := 12, mapped_ptr := 4096 } }

/-- The creator returned by `create<V3f, VertexNormal>(41, 120)` in
`createDiskGeo`. -/
def diskCreator : Creator :=
  { position_size := 12, attrib_size := 12, index_count := 120,
    src_positions := { buffer := 7, offset := 108, size := 492, mapped_ptr := 4096 },
    src_attribs := { buffer := 7, offset := 600, size := 492, mapped_ptr := 4096 },
    src_indices := { buffer := 7, offset := 1092, size := 480, mapped_ptr := 4096 } }

/-- The creator returned by `create<V3f, VertexNormal>(12, 12)` in
`createTetrahedron`. -/
def tetrahedronCreator : Creator :=
  { position_size := 12, attrib_size := 12, index_count := 12,
    src_positions := { buffer := 7, offset := 1596, size := 144, mapped_ptr := 4096 },
    src_attribs := { buffer := 7, offset := 1740, size := 144, mapped_ptr := 4096 },
    src_indices := { buffer := 7, offset := 1884, size := 48, mapped_ptr := 4096 } }

/-- The `create` and `update` calls of `populateWorld`, in call order. -/
def populateWorldOps : List MeshOp :=
  [MeshOp.create 12 4 12 4 3 3, MeshOp.update 1 triangleCreator,
   MeshOp.create 12 4 12 4 41 120, MeshOp.update 1 diskCreator,
   MeshOp.create 12 4 12 4 12 12, MeshOp.update 1 tetrahedronCreator]

/-- The device buffer after the GPU has executed the recorded commands: every
`vkCmdCopyBuffer` from `srcBuffer` to `dstBuffer` copies its regions from the
source bytes `src`; the other commands leave the bytes unchanged. -/
def deviceAfter (srcBuffer dstBuffer : Nat) (src : Mem) (cmds : List GpuCmd) (device : Mem) :
    Mem :=
  cmds.foldl
    (fun mem c =>
      match c with
      | GpuCmd.vkCmdCopyBuffer s d regions =>
        if s = srcBuffer ∧ d = dstBuffer then copyRegions src mem regions else mem
      | _ => mem)
    device

/-! ## `World` -/

/-- `struct V4f`: four `float`, kept as their bit patterns (no floating-point
arithmetic is done on them by the modelled code). -/
structure V4f where
  x : Nat
  y : Nat
  z : Nat
  w : Nat
  deriving DecidableEq, Repr

/-- `struct M44f`: the four vectors `i, j, k, l`. -/
structure M44f where
  i : V4f
  j : V4f
  k : V4f
  l : V4f
  deriving DecidableEq, Repr

/-- `M44f transpose(const M44f &m)`, vec.cpp 84-88, a call of `mat4x4_transpose`
of linmath.h (not part of the sources): `N[i][j] = M[j][i]`. -/
def transpose (m : M44f) : M44f :=
  { i := { x := m.i.x, y := m.j.x, z := m.k.x, w := m.l.x },
    j := { x := m.i.y, y := m.j.y, z := m.k.y, w := m.l.y },
    k := { x := m.i.z, y := m.j.z, z := m.k.z, w := m.l.z },
    l := { x := m.i.w, y := m.j.w, z := m.k.w, w := m.l.w } }

/-- `struct Instance`, gpu_driven_rendering.cpp 177-181 (`pad` is never written
and is not represented). -/
structure Instance where
  transform : M44f
  mesh_info_ptr : Nat
  deriving DecidableEq, Repr

/-- `struct World`, gpu_driven_rendering.cpp 184-191 (without the reference
`m_mesh_data`). -/
structure World where
  m_view_proj : M44f
  m_instances : List Instance
  deriving DecidableEq, Repr

/-- `void World::addInstance(M44f transform, uint32_t mesh)`,
gpu_driven_rendering.cpp 193-198. -/
def World.addInstance (self : World) (transform : M44f) (mesh : Nat) : World :=
  { self with
    m_instances := self.m_instances ++
      [{ transform := transpose transform, mesh_info_ptr := mesh }] }

/-! ## `DrawWorldPipeline` -/

/-- `sizeof(Instance)`, fixed by `static_assert(sizeof(Instance) == 64 + 16)`. -/
def sizeof_Instance : Nat := 80
/-- `sizeof(WorldConstants)`: one `M44f`. -/
def sizeof_WorldConstants : Nat := 64
/-- `sizeof(VkDrawIndirectCommand)`: four `uint32_t`. -/
def sizeof_VkDrawIndirectCommand : Nat := 16
/-- `offsetof(VkDrawIndirectCommand, instanceCount)`: the second `uint32_t`. -/
def offsetof_instanceCount : Nat := 4
/-- `InstanceCountMax`, gpu_driven_rendering.cpp 274. -/
def InstanceCountMax : Nat := 1000000
/-- `InstancesBufferSize`, gpu_driven_rendering.cpp 275. -/
def InstancesBufferSize : Nat := sizeof_Instance * InstanceCountMax
/-- `VisibleInstancesBufferSize`, gpu_driven_rendering.cpp 276. -/
def VisibleInstancesBufferSize : Nat := 4 * InstanceCountMax
/-- `ConstantBufferSize`, gpu_driven_rendering.cpp 277. -/
def ConstantBufferSize : Nat := sizeof_WorldConstants
/-- `DrawCmdBufferSize`, gpu_driven_rendering.cpp 278. -/
def DrawCmdBufferSize : Nat := sizeof_VkDrawIndirectCommand

/-- `struct Buffer`, gpu_driven_rendering.cpp 211-215. -/
structure Buffer where
  handle : Nat
  mem : Nat
  deriving DecidableEq, Repr

/-- `struct DrawWorldPipeline::Frame`, gpu_driven_rendering.cpp 246-252. The
three pointers are byte offsets from the mapped base of the constants, the
instances and the readback buffer. -/
structure Frame where
  constants : Nat
  instances : Nat
  descriptor_set : Nat
  cull_descriptor_set : Nat
  draw_cmd_readback : Nat
  deriving DecidableEq, Repr

/-- `struct DrawWorldPipeline`, gpu_driven_rendering.cpp 223-260: the members
`execute` reads or writes. `m_frames` is `std::array<Frame, 3>`. -/
structure DrawWorldPipeline where
  m_cull_pipeline_layout : Nat
  m_cull_pipeline : Nat
  m_draw_pipeline_layout : Nat
  m_draw_pipeline : Nat
  m_mesh_data_descriptor_set : Nat
  m_draw_cmds : Buffer
  m_readback : Buffer
  m_frames : List Frame
  m_frame_index : Nat
  deriving DecidableEq, Repr

/-- What `DrawWorldPipeline::execute` returns and does: the returned instance
count, the object afterwards, the recorded commands, and the two host writes
(`frame.constants->view_proj` and the copy of the instances to
`frame.instances`), each with the byte offset it goes to. -/
structure ExecuteResult where
  ret : Nat
  self : DrawWorldPipeline
  cmds : List GpuCmd
  constants_offset : Nat
  view_proj : M44f
  instances_offset : Nat
  instances : List Instance
  deriving DecidableEq, Repr

namespace DrawWorldPipeline

/-- The frame slot setup of the constructor, gpu_driven_rendering.cpp 733-751,
for slot `i`; `descriptor_sets` are the sets returned by
`vkAllocateDescriptorSets`. -/
def frameSetup (alignedConstantBufferSize : Nat) (descriptor_sets : List Nat) (i : Nat) : Frame :=
  { constants := mul64 alignedConstantBufferSize i,
    instances := mul64 InstancesBufferSize i,
    draw_cmd_readback := mul64 DrawCmdBufferSize i,
    descriptor_set := descriptor_sets.getD (1 + i * 2 + 0) 0,
    cull_descriptor_set := descriptor_sets.getD (1 + i * 2 + 1) 0 }

/-- The loop `for (size_t i = 0; i < m_frames.size(); ++i)` of the constructor. -/
def setupFrames (alignedConstantBufferSize : Nat) (descriptor_sets : List Nat) : List Frame :=
  (List.range 3).map (frameSetup alignedConstantBufferSize descriptor_sets)

/-- `m_frames[i]`. -/
def frameAt (self : DrawWorldPipeline) (i : Nat) : Frame :=
  self.m_frames.getD i
    { constants := 0, instances := 0, descriptor_set := 0, cull_descriptor_set := 0,
      draw_cmd_readback := 0 }

/-- The local `buffer_index = m_frame_index % m_frames.size()` of `execute`,
the ring slot the call records against. -/
def buffer_index (self : DrawWorldPipeline) : Nat := self.m_frame_index % 3

/-- `uint32_t DrawWorldPipeline::execute(VkCommandBuffer cmd, const RenderTarget
&render_target)`, gpu_driven_rendering.cpp 790-896. `readback` are the bytes of
the mapped readback buffer when the function reads `instanceCount`. -/
def execute (self : DrawWorldPipeline) (world : World) (_cmd : Nat)
    (render_target : RenderTarget) (readback : Mem) : ExecuteResult :=
  let buffer_index := self.m_frame_index % 3
  let frame := self.frameAt buffer_index
  let thread_group_size := 256
  let thread_group_count :=
    (sub64 (add64 world.m_instances.length thread_group_size) 1 / thread_group_size) % 2 ^ 32
  let m_frame_index := (self.m_frame_index + 1) % 2 ^ 32
  { ret := readU32 readback
      ((self.frameAt (m_frame_index % 3)).draw_cmd_readback + offsetof_instanceCount),
    self := { self with m_frame_index := m_frame_index },
    cmds :=
      [GpuCmd.vkCmdFillBuffer self.m_draw_cmds.handle (mul64 buffer_index DrawCmdBufferSize)
         DrawCmdBufferSize 0,
       GpuCmd.vkCmdPipelineBarrier VK_PIPELINE_STAGE_TRANSFER_BIT
         VK_PIPELINE_STAGE_COMPUTE_SHADER_BIT VK_ACCESS_TRANSFER_WRITE_BIT
         (VK_ACCESS_SHADER_READ_BIT ||| VK_ACCESS_SHADER_WRITE_BIT),
       GpuCmd.vkCmdBindPipeline VK_PIPELINE_BIND_POINT_COMPUTE self.m_cull_pipeline,
       GpuCmd.vkCmdBindDescriptorSets VK_PIPELINE_BIND_POINT_COMPUTE self.m_cull_pipeline_layout 0
         [self.m_mesh_data_descriptor_set, frame.descriptor_set, frame.cull_descriptor_set],
       GpuCmd.vkCmdDispatch thread_group_count 1 1,
       GpuCmd.vkCmdPipelineBarrier VK_PIPELINE_STAGE_COMPUTE_SHADER_BIT
         (VK_PIPELINE_STAGE_DRAW_INDIRECT_BIT ||| VK_PIPELINE_STAGE_VERTEX_SHADER_BIT)
         VK_ACCESS_SHADER_WRITE_BIT
         (VK_ACCESS_INDIRECT_COMMAND_READ_BIT ||| VK_ACCESS_SHADER_READ_BIT),
       GpuCmd.vkCmdBindPipeline VK_PIPELINE_BIND_POINT_GRAPHICS self.m_draw_pipeline,
       GpuCmd.vkCmdBeginRendering render_target.color_view render_target.resolve_view
         render_target.depth_view render_target.area,
       GpuCmd.vkCmdSetViewport 0
         [{ x := floatOfInt32 render_target.area.offset_x,
            y := floatOfInt32 render_target.area.offset_y,
            width := floatOfUInt32 render_target.area.extent_width,
            height := floatOfUInt32 render_target.area.extent_height,
            minDepth := 0x00000000,
            maxDepth := 0x3F800000 }],
       GpuCmd.vkCmdSetScissor render_target.area,
       GpuCmd.vkCmdBindDescriptorSets VK_PIPELINE_BIND_POINT_GRAPHICS self.m_draw_pipeline_layout 0
         [self.m_mesh_data_descriptor_set, frame.descriptor_set],
       GpuCmd.vkCmdDrawIndirect self.m_draw_cmds.handle
         (mul64 buffer_index sizeof_VkDrawIndirectCommand) 1 sizeof_VkDrawIndirectCommand,
       GpuCmd.vkCmdEndRendering,
       GpuCmd.vkCmdCopyBuffer self.m_draw_cmds.handle self.m_readback.handle
         [{ srcOffset := mul64 buffer_index sizeof_VkDrawIndirectCommand,
            dstOffset := mul64 buffer_index sizeof_VkDrawIndirectCommand,
            size := sizeof_VkDrawIndirectCommand }]],
    constants_offset := frame.constants,
    view_proj := transpose world.m_view_proj,
    instances_offset := frame.instances,
    instances := world.m_instances }

/-- The pipeline after `n` calls of `execute` (the object afterwards does not
depend on the command buffer, the render target or the readback bytes). -/
def afterCalls (self : DrawWorldPipeline) (world : World) : Nat → DrawWorldPipeline
  | 0 => self
  | n + 1 =>
    (execute (afterCalls self world n) world 0
      { color_view := 0, depth_view := 0, resolve_view := 0,
        area := { offset_x := 0, offset_y := 0, extent_width := 0, extent_height := 0 } }
      (fun _ => 0)).self

end DrawWorldPipeline

/-- Modelled from the spec: what the GPU does, which the sources only record as
commands. When the GPU has executed the commands of one `execute` call, the
readback copy has stored the slot's indirect draw-command record, whose
`instanceCount` is the count `count` computed by that frame's Cull pass, at the
copy's destination in the readback buffer ("copy the slot's indirect
draw-command record into a CPU-mapped readback region at the same ring index").
Only the `instanceCount` word of the destination is modelled. -/
def gpuCompleteFrame (readbackBuffer count : Nat) (cmds : List GpuCmd) (readback : Mem) : Mem :=
  cmds.foldl
    (fun mem c =>
      match c with
      | GpuCmd.vkCmdCopyBuffer _ d regions =>
        if d = readbackBuffer then
          regions.foldl (fun m r => writeU32 m (r.dstOffset + offsetof_instanceCount) count) mem
        else mem
      | _ => mem)
    readback

/-- The frame loop with a GPU that completes every submitted frame before the
next `execute` call: frame `K` calls `execute`, which reads the readback bytes,
then the GPU executes the recorded commands with the count `counts[K]` computed
by its Cull pass. The result lists the values returned by `execute`. -/
def runFrames (world : World) (cmd : Nat) (render_target : RenderTarget) :
    DrawWorldPipeline → Mem → List Nat → List Nat
  | _, _, [] => []
  | p, readback, count :: counts =>
    (p.execute world cmd render_target readback).ret ::
      runFrames world cmd render_target (p.execute world cmd render_target readback).self
        (gpuCompleteFrame p.m_readback.handle count
          (p.execute world cmd render_target readback).cmds readback)
        counts

/-- The pipeline of the examples: handles 1 to 7, descriptor sets 10 to 16, an
aligned constant buffer size of 256, and the given frame counter. -/
def examplePipeline (frame_index : Nat) : DrawWorldPipeline :=
  { m_cull_pipeline_layout := 1, m_cull_pipeline := 2, m_draw_pipeline_layout := 3,
    m_draw_pipeline := 4, m_mesh_data_descriptor_set := 10,
    m_draw_cmds := { handle := 5, mem := 6 }, m_readback := { handle := 7, mem := 8 },
    m_frames := DrawWorldPipeline.setupFrames 256 [10, 11, 12, 13, 14, 15, 16],
    m_frame_index := frame_index }

/-- A world without instances and a zero view-projection. -/
def emptyWorld : World :=
  { m_view_proj := { i := { x := 0, y := 0, z := 0, w := 0 },
                     j := { x := 0, y := 0, z := 0, w := 0 },
                     k := { x := 0, y := 0, z := 0, w := 0 },
                     l := { x := 0, y := 0, z := 0, w := 0 } },
    m_instances := [] }

/-- A render target of 800 by 600 pixels. -/
def exampleRenderTarget : RenderTarget :=
  { color_view := 20, depth_view := 21, resolve_view := 22,
    area := { offset_x := 0, offset_y := 0, extent_width := 800, extent_height := 600 } }

/-! ## The Cull pass -/

/-- `VkDrawIndirectCommand`. -/
structure VkDrawIndirectCommand where
  vertexCount : Nat
  instanceCount : Nat
  firstVertex : Nat
  firstInstance : Nat
  deriving DecidableEq, Repr

/-- The GPU-side data of one ring slot written by the Cull pass: the slot's
indirect draw-command record and its visibility list. -/
structure CullState where
  draw_cmd : VkDrawIndirectCommand
  visible_instances : List Nat
  deriving DecidableEq, Repr

/-- Modelled from the spec: the Clear stage, "zero the slot's indirect
draw-command record" (the `vkCmdFillBuffer` of `execute`); the compute shader of
the Cull pass is not part of the sources. -/
def clearStage (s : CullState) : CullState :=
  { s with draw_cmd := { vertexCount := 0, instanceCount := 0, firstVertex := 0,
                         firstInstance := 0 } }

/-- Modelled from the spec: one thread of the Cull pass, for instance number
`t.1` with record `t.2`: "each thread tests its instance against the current
view-projection and, if visible, atomically appends its index to the slot's
visibility list and atomically increments the shared instance-count field of
the slot's indirect draw-command record". `visible` is the visibility predicate
for the fixed view-projection; `instanceCount` is a `uint32_t`. -/
def cullThread (visible : Instance → Bool) (s : CullState) (t : Nat × Instance) : CullState :=
  if visible t.2 then
    { draw_cmd := { s.draw_cmd with instanceCount := (s.draw_cmd.instanceCount + 1) % 2 ^ 32 },
      visible_instances := s.visible_instances ++ [t.1] }
  else s

/-- Modelled from the spec: one Cull pass, "one thread per instance, over the
full instance set". `schedule` is the order in which the threads' atomic steps
take effect. -/
def cullPass (visible : Instance → Bool) (schedule : List (Nat × Instance)) (s : CullState) :
    CullState :=
  schedule.foldl (cullThread visible) s

/-! ## Runs of `create` and `update` on a constructed `MeshData` -/

/-- What `create` and `update` never change in a `MeshData` built by its
constructor: buffer, region, alignment and mapping of the five allocators; and
every cursor is at or before the end of its region. -/
def MeshData.laidOut (self : MeshData) : Prop :=
  (self.m_staging.reset
      = LinearAllocator.mk5 self.m_staging_buffer 0 MeshData.StagingBufferSize 4
          self.m_staging.m_mapped_ptr ∧
    self.m_staging.m_cur ≤ self.m_staging.m_end) ∧
  (self.m_positions.reset = LinearAllocator.mk4 self.m_buffer 0 MeshData.PositionBufferSize 4 ∧
    self.m_positions.m_cur ≤ self.m_positions.m_end) ∧
  (self.m_attribs.reset
      = LinearAllocator.mk4 self.m_buffer MeshData.PositionBufferSize
          MeshData.AttribBufferSize 4 ∧
    self.m_attribs.m_cur ≤ self.m_attribs.m_end) ∧
  (self.m_indices.reset
      = LinearAllocator.mk4 self.m_buffer
          (add64 MeshData.PositionBufferSize MeshData.AttribBufferSize)
          MeshData.IndexBufferSize 4 ∧
    self.m_indices.m_cur ≤ self.m_indices.m_end) ∧
  (self.m_infos.reset
      = LinearAllocator.mk4 self.m_buffer
          (add64 (add64 MeshData.PositionBufferSize MeshData.AttribBufferSize)
            MeshData.IndexBufferSize) MeshData.InfoBufferSize 4 ∧
    self.m_infos.m_cur ≤ self.m_infos.m_end)

instance (self : MeshData) : Decidable self.laidOut := by
  unfold MeshData.laidOut; infer_instance

/-- The arguments of a `create<PosT, AttribT>(vertex_count, index_count)` call
have their types: the counts are `uint32_t`, and `sizeof` and `alignof` of the
two types fit in 32 bits (`create` stores `sizeof` in `uint32_t` fields). -/
def MeshOp.typed : MeshOp → Prop
  | MeshOp.create sizeofPosT alignofPosT sizeofAttribT alignofAttribT vertex_count index_count =>
    sizeofPosT < 2 ^ 32 ∧ alignofPosT < 2 ^ 32 ∧ sizeofAttribT < 2 ^ 32 ∧
      alignofAttribT < 2 ^ 32 ∧ vertex_count < 2 ^ 32 ∧ index_count < 2 ^ 32
  | MeshOp.update _ _ => True

instance (op : MeshOp) : Decidable op.typed := by
  cases op <;> unfold MeshOp.typed <;> infer_instance

/-- The staging bytes of the meshes committed by a run of calls:
`V * sizeof(PosT) + V * sizeof(AttribT) + 4 * I` for each `create` whose three
allocations succeed, and `sizeof(MeshInfo) = 24` for each `update` that returns
(it has written its record through the staging allocation). -/
def MeshData.stagedBytes (self : MeshData) : List MeshOp → Nat
  | [] => 0
  | MeshOp.create sp ap sa aa v i :: ops =>
    match self.create sp ap sa aa v i with
    | Run.fault _ => 0
    | Run.ok (_, md) =>
      (if self.createSucceeds sp ap sa aa v i then v * sp + v * sa + 4 * i else 0)
        + MeshData.stagedBytes md ops
  | MeshOp.update cmd creator :: ops =>
    match self.update cmd creator with
    | Run.fault _ => 0
    | Run.ok res => 24 + MeshData.stagedBytes res.self ops

/-! ## Sequences of requests without 64-bit overflow -/

/-- No call of the sequence that takes the success branch overflows 64 bits: its
exact end `alignUp(m_cur, alignment) + size`, computed without reduction, is
below `2 ^ 64`. The cursor of each call is the one left by the calls before it. -/
def LinearAllocator.noWrap (a : LinearAllocator) : List Request → Bool
  | [] => true
  | req :: rest =>
    (!a.succeeds req.1 req.2 || decide (a.exactEnd req.1 req.2 < 2 ^ 64)) &&
      match a.allocateBytes req.1 req.2 with
      | Run.fault _ => true
      | Run.ok (_, a1) => LinearAllocator.noWrap a1 rest

/-! ## `StackVector` (core/include/brtoy/container.h) -/

/-- `template <typename T, size_t N> class StackVector`, container.h 7-70:
`m_count` and `m_array`, the `std::array<T, N>` as a list of `N` elements. -/
structure StackVector (T : Type) (N : Nat) where
  m_count : Nat
  m_array : List T
  deriving DecidableEq, Repr

namespace StackVector

/-- `struct iterator`, container.h 14-24. `m_ary` is `&m_array` of the vector
the iterator was taken from; the iterators compared in a loop over one vector
hold the same pointer, so the defaulted `operator<=>` compares `m_cur`. -/
structure iterator where
  m_cur : Nat
  deriving DecidableEq, Repr

/-- `StackVector() = default`: `m_count = 0`, `m_array = {}` (every element
value-initialised, `default` standing for `T{}`). -/
def mkEmpty (T : Type) [Inhabited T] (N : Nat) : StackVector T N :=
  { m_count := 0, m_array := List.replicate N default }

/-- `constexpr size_t capacity() const { return Capacity; }`. -/
def capacity {T : Type} {N : Nat} (_self : StackVector T N) : Nat := N

/-- `size_t size() const { return m_count; }`. -/
def size {T : Type} {N : Nat} (self : StackVector T N) : Nat := self.m_count

/-- `void push_back(const value_type &elem)`, container.h 52-55 (and the rvalue
overload 47-50): `if (m_count < Capacity) m_array[m_count++] = elem;`. -/
def push_back {T : Type} {N : Nat} (self : StackVector T N) (elem : T) : StackVector T N :=
  if self.m_count < N then
    { m_count := self.m_count + 1, m_array := self.m_array.set self.m_count elem }
  else self

/-- `iterator begin() { return iterator{&m_array, 0}; }`. -/
def begin {T : Type} {N : Nat} (_self : StackVector T N) : iterator := { m_cur := 0 }

/-- `iterator end() { return iterator{&m_array, Capacity}; }`. -/
def «end» {T : Type} {N : Nat} (_self : StackVector T N) : iterator := { m_cur := N }

/-- `iterator &operator++() { ++m_cur; return *this; }`. -/
def iterator.next (it : iterator) : iterator := { m_cur := it.m_cur + 1 }

/-- `const T &operator*() const { return (*m_ary)[m_cur]; }`, on an iterator of
`self`. -/
def deref {T : Type} [Inhabited T] {N : Nat} (self : StackVector T N) (it : iterator) : T :=
  self.m_array.getD it.m_cur default

/-- The loop of `for (const T &x : v)`: while `it != end()`, visit `*it` and
`++it`. Returns the visited elements in order, `none` when `fuel` iterations do
not reach `end()`. -/
def rangeForLoop {T : Type} [Inhabited T] {N : Nat} (self : StackVector T N) :
    Nat → iterator → List T → Option (List T)
  | 0, _, _ => none
  | fuel + 1, it, visited =>
    if it ≠ self.«end» then rangeForLoop self fuel it.next (visited ++ [self.deref it])
    else some visited

/-- The range-for statement `for (const T &x : v)`, started at `begin()`, with
fuel for `Capacity + 1` evaluations of the loop condition. -/
def rangeFor {T : Type} [Inhabited T] {N : Nat} (self : StackVector T N) : Option (List T) :=
  self.rangeForLoop (N + 1) self.begin []

/-- A `StackVector` built by `push_back` of the elements of `xs` in order. -/
def pushAll {T : Type} [Inhabited T] (N : Nat) (xs : List T) : StackVector T N :=
  xs.foldl push_back (mkEmpty T N)

end StackVector

/-! ## `V3f` (core/vec.cpp) -/

/-- `struct V3f`, vec.h 26-33: three `float`, kept as their IEEE-754 binary32
bit patterns. -/
structure V3f where
  x : Nat
  y : Nat
  z : Nat
  deriving DecidableEq, Repr

/-- Unary minus on a `float` bit pattern: the sign bit (bit 31) is flipped. -/
def negFloat (a : Nat) : Nat := if a < 2 ^ 31 then a + 2 ^ 31 else a - 2 ^ 31

/-- `V3f operator-(V3f u)`, vec.cpp 22-27: `u.x = -u.x; u.y = -u.y; u.x = -u.z;
return u;`. -/
def V3f.operator_minus (u : V3f) : V3f :=
  let u1 := { u with x := negFloat u.x }
  let u2 := { u1 with y := negFloat u1.y }
  let u3 := { u2 with x := negFloat u2.z }
  u3

/-! ## Lemmas on `alignUp` -/

theorem alignUpExact_mod (x alignment : Nat) : alignUpExact x alignment % alignment = 0 := by
  unfold alignUpExact
  split
  · assumption
  · rcases Nat.eq_zero_or_pos alignment with h0 | hpos
    · subst h0; simp_all
    · have hlt : x % alignment < alignment := Nat.mod_lt _ hpos
      have hdm : alignment * (x / alignment) + x % alignment = x := Nat.div_add_mod x alignment
      have : x + alignment - x % alignment = alignment * (x / alignment + 1) := by
        rw [Nat.mul_add, Nat.mul_one]; omega
      rw [this, Nat.mul_mod_right]

theorem le_alignUpExact (x alignment : Nat) (h : alignment ≠ 0) :
    x ≤ alignUpExact x alignment := by
  unfold alignUpExact
  have hlt : x % alignment < alignment := Nat.mod_lt _ (Nat.pos_of_ne_zero h)
  split <;> omega

theorem alignUpExact_lt (x alignment : Nat) (h : alignment ≠ 0) :
    alignUpExact x alignment < x + alignment := by
  unfold alignUpExact
  have hlt : x % alignment < alignment := Nat.mod_lt _ (Nat.pos_of_ne_zero h)
  split <;> omega

/-- Without overflow the machine `alignUp` returns the exact round-up and its
assertion holds. -/
theorem alignUp_eq_exact (x alignment : Nat) (hx : x < 2 ^ 64) (ha : alignment < 2 ^ 64)
    (h0 : alignment ≠ 0) (hno : alignUpExact x alignment < 2 ^ 64) :
    alignUp x alignment = Run.ok (alignUpExact x alignment) := by
  have hmod := alignUpExact_mod x alignment
  have hlt : x % alignment < alignment := Nat.mod_lt _ (Nat.pos_of_ne_zero h0)
  unfold alignUp
  rw [if_neg h0]
  by_cases hr : x % alignment = 0
  · simp only [alignUpExact, hr, if_true] at hmod hno ⊢
    simp [hr]
  · have hex : alignUpExact x alignment = x + alignment - x % alignment := by
      simp [alignUpExact, hr]
    have hval : sub64 (add64 x alignment) (x % alignment) = x + alignment - x % alignment := by
      unfold sub64 add64
      rw [hex] at hno
      have h1 : (x + alignment) % 2 ^ 64 % 2 ^ 64 = (x + alignment) % 2 ^ 64 := Nat.mod_mod _ _
      have h2 : x % alignment % 2 ^ 64 = x % alignment := Nat.mod_eq_of_lt (by omega)
      rw [h1, h2]
      omega
    simp only [hr, ne_eq, not_false_eq_true, if_true, hval]
    rw [hex] at hmod
    simp [hmod, hex]

/-! ## Lemmas on `allocateBytes` -/

/-- The two ways `allocateBytes` returns. -/
theorem allocateBytes_cases (a : LinearAllocator) (size alignment : Nat)
    (r : BufferSubAllocation) (a1 : LinearAllocator)
    (h : a.allocateBytes size alignment = Run.ok (r, a1)) :
    ∃ offset, alignUp a.m_cur (a.effectiveAlignment alignment) = Run.ok offset ∧
      ((a.succeeds size alignment = true ∧ add64 offset size ≤ a.m_end ∧
          r = { buffer := a.m_buffer, offset := offset, size := size,
                mapped_ptr := a.m_mapped_ptr } ∧
          a1 = { a with m_cur := add64 offset size }) ∨
       (a.succeeds size alignment = false ∧ a.m_end < add64 offset size ∧
          r = BufferSubAllocation.empty ∧ a1 = a)) := by
  unfold LinearAllocator.allocateBytes at h
  unfold LinearAllocator.succeeds LinearAllocator.newCur LinearAllocator.effectiveAlignment
  cases hal : alignUp a.m_cur (if alignment = 0 then a.m_min_alignment else alignment) with
  | fault f => simp [hal] at h
  | ok offset =>
    refine ⟨offset, rfl, ?_⟩
    simp only [hal] at h
    by_cases hle : add64 offset size ≤ a.m_end
    · left
      simp only [hle, if_true, Run.ok.injEq, Prod.mk.injEq] at h
      exact ⟨by simp [hle], hle, h.1.symm, h.2.symm⟩
    · right
      simp only [hle, if_false, Run.ok.injEq, Prod.mk.injEq] at h
      exact ⟨by simp [hle], by omega, h.1.symm, h.2.symm⟩

/-- A result of `alignUp` is a multiple of the alignment (its assertion). -/
theorem alignUp_ok_mod (x alignment offset : Nat) (h : alignUp x alignment = Run.ok offset) :
    alignment ≠ 0 ∧ offset % alignment = 0 := by
  unfold alignUp at h
  by_cases h0 : alignment = 0
  · simp [h0] at h
  · rw [if_neg h0] at h
    refine ⟨h0, ?_⟩
    dsimp only at h
    generalize (if x % alignment ≠ 0 then sub64 (add64 x alignment) (x % alignment) else x)
      = result at h
    by_cases hm : result % alignment = 0
    · rw [if_pos hm] at h
      injection h with h
      rw [← h]; exact hm
    · rw [if_neg hm] at h
      cases h

/-- When the exact end of a request is below `2 ^ 64`, `alignUp` returns the
exact round-up of the cursor and `new_cur` is the exact end. -/
theorem alignUp_cur_of_exactEnd_lt (a : LinearAllocator) (size alignment : Nat)
    (h0 : a.effectiveAlignment alignment ≠ 0) (hno : a.exactEnd size alignment < 2 ^ 64) :
    alignUp a.m_cur (a.effectiveAlignment alignment)
        = Run.ok (alignUpExact a.m_cur (a.effectiveAlignment alignment)) ∧
      add64 (alignUpExact a.m_cur (a.effectiveAlignment alignment)) size
        = a.exactEnd size alignment := by
  unfold LinearAllocator.exactEnd at hno ⊢
  have hle := le_alignUpExact a.m_cur _ h0
  have hlt := alignUpExact_lt a.m_cur _ h0
  constructor
  · by_cases hr : a.m_cur % a.effectiveAlignment alignment = 0
    · have hex : alignUpExact a.m_cur (a.effectiveAlignment alignment) = a.m_cur := by
        simp [alignUpExact, hr]
      unfold alignUp
      simp [h0, hr, hex]
    · have hex : alignUpExact a.m_cur (a.effectiveAlignment alignment)
          = a.m_cur + a.effectiveAlignment alignment
              - a.m_cur % a.effectiveAlignment alignment := by
        simp [alignUpExact, hr]
      have hmod := alignUpExact_mod a.m_cur (a.effectiveAlignment alignment)
      have hml : a.m_cur % a.effectiveAlignment alignment ≤ a.m_cur := Nat.mod_le _ _
      have hval : sub64 (add64 a.m_cur (a.effectiveAlignment alignment))
            (a.m_cur % a.effectiveAlignment alignment)
          = a.m_cur + a.effectiveAlignment alignment
              - a.m_cur % a.effectiveAlignment alignment := by
        unfold sub64 add64
        have h1 : (a.m_cur + a.effectiveAlignment alignment) % 2 ^ 64 % 2 ^ 64
            = (a.m_cur + a.effectiveAlignment alignment) % 2 ^ 64 := Nat.mod_mod _ _
        have h2 : a.m_cur % a.effectiveAlignment alignment % 2 ^ 64
            = a.m_cur % a.effectiveAlignment alignment := Nat.mod_eq_of_lt (by omega)
        rw [h1, h2]
        omega
      unfold alignUp
      rw [if_neg h0]
      simp only [hr, ne_eq, not_false_eq_true, if_true, hval]
      rw [hex] at hmod
      simp [hmod, hex]
  · unfold add64
    exact Nat.mod_eq_of_lt hno

/-! ## Claims on `LinearAllocator` -/

/-- C1: for an allocator with `m_start <= m_cur <= m_end` and a request whose
exact end `alignUp(m_cur, alignment) + size` does not overflow 64 bits, a
successful `allocateBytes` returns a handle whose byte range lies inside the
region (`m_start <= offset`, `offset + size <= m_end`), whose size is the
requested size, and whose buffer and mapped pointer are the allocator's. -/
theorem allocateBytes_success_in_region (a : LinearAllocator) (size alignment : Nat)
    (r : BufferSubAllocation) (a1 : LinearAllocator)
    (hinv : a.inv) (hno : a.exactEnd size alignment < 2 ^ 64)
    (hret : a.allocateBytes size alignment = Run.ok (r, a1))
    (hsucc : a.succeeds size alignment = true) :
    a.m_start ≤ r.offset ∧ r.offset + r.size ≤ a.m_end ∧ r.size = size ∧
      r.buffer = a.m_buffer ∧ r.mapped_ptr = a.m_mapped_ptr := by
  obtain ⟨offset, hal, hc⟩ := allocateBytes_cases a size alignment r a1 hret
  have h0 := (alignUp_ok_mod _ _ _ hal).1
  obtain ⟨hex, hend⟩ := alignUp_cur_of_exactEnd_lt a size alignment h0 hno
  rw [hex] at hal
  simp only [Run.ok.injEq] at hal
  rcases hc with ⟨_, hle, hr, _⟩ | ⟨hf, _⟩
  · subst hr
    have hge := le_alignUpExact a.m_cur _ h0
    rw [← hal, hend] at hle
    unfold LinearAllocator.exactEnd at hle
    obtain ⟨hs, _⟩ := hinv
    refine ⟨?_, ?_, rfl, rfl, rfl⟩
    · show a.m_start ≤ offset
      omega
    · show offset + size ≤ a.m_end
      omega
  · rw [hsucc] at hf; cases hf

/-- Witness of C1: cursor 10 in the region `[0, 100)`, 20 bytes aligned to 8 are
issued at offset 16. -/
theorem allocateBytes_success_in_region_witness :
    (0 : Nat) ≤ (16 : Nat) ∧ 16 + 20 ≤ 100 ∧ (20 : Nat) = 20 ∧ (7 : Nat) = 7 ∧ (4096 : Nat) = 4096 :=
  allocateBytes_success_in_region
    { m_min_alignment := 4, m_buffer := 7, m_start := 0, m_end := 100, m_cur := 10,
      m_mapped_ptr := 4096 } 20 8
    { buffer := 7, offset := 16, size := 20, mapped_ptr := 4096 }
    { m_min_alignment := 4, m_buffer := 7, m_start := 0, m_end := 100, m_cur := 36,
      m_mapped_ptr := 4096 }
    (by decide) (by decide) (by decide) (by decide)

/-- C2 (evaluation at the failing input): on `LinearAllocator(1, 16, 84, 4)`
(region `[16, 100)`), `allocateBytes(2^64 - 8, 1)` has exact end
`16 + 2^64 - 8 > 100`, yet the machine sum wraps to `8 <= 100`: the call takes
the success branch, issues offset 16 with size `2^64 - 8` and moves the cursor
back to 8. -/
theorem allocateBytes_wraps_past_end :
    (LinearAllocator.mk4 1 16 84 4).exactEnd (2 ^ 64 - 8) 1
        > (LinearAllocator.mk4 1 16 84 4).m_end ∧
      (LinearAllocator.mk4 1 16 84 4).succeeds (2 ^ 64 - 8) 1 = true ∧
      (LinearAllocator.mk4 1 16 84 4).allocateBytes (2 ^ 64 - 8) 1
        = Run.ok ({ buffer := 1, offset := 16, size := 2 ^ 64 - 8, mapped_ptr := 0 },
                  { m_min_alignment := 4, m_buffer := 1, m_start := 16, m_end := 100,
                    m_cur := 8, m_mapped_ptr := 0 }) := by
  decide

/-- C3: when `allocateBytes` fails, that is when the computed new cursor is
greater than `m_end`, it returns the all-zero handle (null buffer, offset 0,
size 0, null mapped pointer) and the allocator is unchanged in every field. -/
theorem allocateBytes_failure_unchanged (a : LinearAllocator) (size alignment new_cur : Nat)
    (hcur : a.newCur size alignment = Run.ok new_cur) (hgt : new_cur > a.m_end) :
    a.allocateBytes size alignment
      = Run.ok ({ buffer := 0, offset := 0, size := 0, mapped_ptr := 0 }, a) := by
  unfold LinearAllocator.newCur at hcur
  unfold LinearAllocator.allocateBytes
  cases hal : alignUp a.m_cur (if alignment = 0 then a.m_min_alignment else alignment) with
  | fault f => simp [hal] at hcur
  | ok offset =>
    simp only [hal, Run.ok.injEq] at hcur
    subst hcur
    have : ¬ add64 offset size ≤ a.m_end := by omega
    simp [hal, this, BufferSubAllocation.empty]

/-- Witness of C3: a 100-byte region with 16 bytes used, request of 200 bytes. -/
theorem allocateBytes_failure_unchanged_witness :
    ({ m_min_alignment := 4, m_buffer := 1, m_start := 0, m_end := 100, m_cur := 16,
       m_mapped_ptr := 0 } : LinearAllocator).allocateBytes 200 8
      = Run.ok ({ buffer := 0, offset := 0, size := 0, mapped_ptr := 0 },
                { m_min_alignment := 4, m_buffer := 1, m_start := 0, m_end := 100, m_cur := 16,
                  m_mapped_ptr := 0 }) :=
  allocateBytes_failure_unchanged _ 200 8 216 (by decide) (by decide)

/-- C4: every successful `allocateBytes(size, alignment)` returns an offset that
is a multiple of the effective alignment: of `alignment` when it is non-zero, of
`m_min_alignment` when the argument is 0 (the default). `allocate<T>(count)`
calls it with `alignof(T)` and the size `count * sizeof(T)`. -/
theorem allocateBytes_offset_aligned (a : LinearAllocator) :
    (∀ size alignment r a1, a.allocateBytes size alignment = Run.ok (r, a1) →
        a.succeeds size alignment = true →
        (alignment ≠ 0 → r.offset % alignment = 0) ∧
        (alignment = 0 → r.offset % a.m_min_alignment = 0)) ∧
    (∀ sizeofT alignofT count r a1, a.allocate sizeofT alignofT count = Run.ok (r, a1) →
        a.succeeds (mul64 count sizeofT) alignofT = true → alignofT ≠ 0 →
        r.offset % alignofT = 0 ∧ r.size = mul64 count sizeofT ∧
        (count * sizeofT < 2 ^ 64 → r.size = count * sizeofT)) := by
  have key : ∀ size alignment r a1, a.allocateBytes size alignment = Run.ok (r, a1) →
      a.succeeds size alignment = true →
      r.offset % a.effectiveAlignment alignment = 0 ∧ r.size = size := by
    intro size alignment r a1 hret hsucc
    obtain ⟨offset, hal, hc⟩ := allocateBytes_cases a size alignment r a1 hret
    rcases hc with ⟨_, _, hr, _⟩ | ⟨hf, _⟩
    · subst hr
      exact ⟨(alignUp_ok_mod _ _ _ hal).2, rfl⟩
    · rw [hsucc] at hf; cases hf
  constructor
  · intro size alignment r a1 hret hsucc
    have h := (key size alignment r a1 hret hsucc).1
    unfold LinearAllocator.effectiveAlignment at h
    constructor
    · intro hne; rw [if_neg hne] at h; exact h
    · intro he; rw [if_pos he] at h; exact h
  · intro sizeofT alignofT count r a1 hret hsucc hne
    have h := key (mul64 count sizeofT) alignofT r a1 hret hsucc
    unfold LinearAllocator.effectiveAlignment at h
    rw [if_neg hne] at h
    refine ⟨h.1, h.2, ?_⟩
    intro hlt
    rw [h.2]
    exact Nat.mod_eq_of_lt hlt

/-- Witness of C4: at cursor 10 with `m_min_alignment = 4`, the default alignment
issues offset 12, and `allocate<T>(3)` with `sizeof(T) = 12`, `alignof(T) = 8`
issues offset 16 and 36 bytes. -/
theorem allocateBytes_offset_aligned_witness :
    ((0 : Nat) = 0 → 12 % 4 = 0) ∧ (16 % 8 = 0 ∧ (36 : Nat) = mul64 3 12) :=
  let a : LinearAllocator :=
    { m_min_alignment := 4, m_buffer := 7, m_start := 0, m_end := 100, m_cur := 10,
      m_mapped_ptr := 0 }
  let h := allocateBytes_offset_aligned a
  ⟨(h.1 20 0 { buffer := 7, offset := 12, size := 20, mapped_ptr := 0 }
      { a with m_cur := 32 } (by decide) (by decide)).2,
   let g := h.2 12 8 3 { buffer := 7, offset := 16, size := 36, mapped_ptr := 0 }
      { a with m_cur := 52 } (by decide) (by decide) (by decide)
   ⟨g.1, g.2.1⟩⟩

/-- A request that fits is served at the exact round-up of the cursor. -/
theorem allocateBytes_of_fits (a : LinearAllocator) (size alignment : Nat)
    (hend : a.m_end < 2 ^ 64) (h0 : a.effectiveAlignment alignment ≠ 0)
    (hfit : a.exactEnd size alignment ≤ a.m_end) :
    a.succeeds size alignment = true ∧
      a.allocateBytes size alignment
        = Run.ok ({ buffer := a.m_buffer,
                    offset := alignUpExact a.m_cur (a.effectiveAlignment alignment),
                    size := size, mapped_ptr := a.m_mapped_ptr },
                  { a with m_cur := a.exactEnd size alignment }) := by
  obtain ⟨hal, hadd⟩ := alignUp_cur_of_exactEnd_lt a size alignment h0 (by omega)
  unfold LinearAllocator.effectiveAlignment at hal hadd
  constructor
  · unfold LinearAllocator.succeeds LinearAllocator.newCur
    simp only [hal, hadd]
    simpa using hfit
  · unfold LinearAllocator.allocateBytes
    simp only [hal, hadd, hfit, if_true]
    rfl

/-- Strengthened form of the monotonicity of a fitting sequence: every issued
offset and every later cursor is at or above the starting cursor. -/
theorem allocTrace_of_fitsAll (reqs : List Request) :
    ∀ a : LinearAllocator, a.m_end < 2 ^ 64 → fitsAll a reqs = true →
      ∃ tr, allocTrace a reqs = Run.ok tr ∧ tr.length = reqs.length ∧
        (∀ e ∈ tr, e.success = true) ∧
        (∀ o ∈ successOffsets tr, a.m_cur ≤ o) ∧
        List.Pairwise (fun x y => x ≤ y) (a.m_cur :: cursors tr) ∧
        List.Pairwise (fun x y => x ≤ y) (successOffsets tr) := by
  induction reqs with
  | nil =>
    intro a _ _
    exact ⟨[], rfl, rfl, by simp, by simp [successOffsets], by simp [cursors],
      by simp [successOffsets]⟩
  | cons req rest ih =>
    intro a hend hfit
    simp only [fitsAll, Bool.and_eq_true, decide_eq_true_eq] at hfit
    obtain ⟨⟨h0, hle⟩, hrest⟩ := hfit
    obtain ⟨hsucc, hret⟩ := allocateBytes_of_fits a req.1 req.2 hend h0 hle
    obtain ⟨tr, htr, hlen, hall, hoff, hcur, hsorted⟩ :=
      ih { a with m_cur := a.exactEnd req.1 req.2 } hend hrest
    have hge : a.m_cur ≤ alignUpExact a.m_cur (a.effectiveAlignment req.2) :=
      le_alignUpExact _ _ h0
    have hge2 : alignUpExact a.m_cur (a.effectiveAlignment req.2) ≤ a.exactEnd req.1 req.2 := by
      unfold LinearAllocator.exactEnd; omega
    refine ⟨{ result := { buffer := a.m_buffer,
                          offset := alignUpExact a.m_cur (a.effectiveAlignment req.2),
                          size := req.1, mapped_ptr := a.m_mapped_ptr },
              success := true,
              after := { a with m_cur := a.exactEnd req.1 req.2 } } :: tr,
      ?_, ?_, ?_, ?_, ?_, ?_⟩
    · simp only [allocTrace, hret, htr, hsucc]
    · simp [hlen]
    · intro e he
      rcases List.mem_cons.1 he with rfl | he
      · rfl
      · exact hall e he
    · intro o ho
      simp only [successOffsets, List.filter_cons_of_pos, List.map_cons,
        List.mem_cons] at ho
      rcases ho with rfl | ho
      · exact hge
      · have := hoff o ho
        simp only at this
        omega
    · simp only [cursors, List.map_cons] at hcur ⊢
      have hhead := (List.pairwise_cons.1 hcur).1
      rw [List.pairwise_cons]
      refine ⟨?_, hcur⟩
      intro c hc
      rcases List.mem_cons.1 hc with rfl | hc
      · omega
      · have := hhead c hc
        omega
    · simp only [successOffsets, List.filter_cons_of_pos, List.map_cons]
      rw [List.pairwise_cons]
      refine ⟨?_, hsorted⟩
      intro o ho
      have := hoff o ho
      simp only at this
      omega

/-- C5: for a sequence of `allocateBytes` calls on one allocator, no `reset` in
between, whose requests together fit within capacity, every call succeeds, the
offsets of the successful allocations are non-decreasing in call order, and the
cursor `m_cur` never decreases. -/
theorem allocTrace_offsets_cursor_monotone (a : LinearAllocator) (reqs : List Request)
    (h64 : a.is64) (hfit : fitsAll a reqs = true) :
    ∃ tr, allocTrace a reqs = Run.ok tr ∧ tr.length = reqs.length ∧
      (∀ e ∈ tr, e.success = true) ∧
      List.Pairwise (fun x y => x ≤ y) (successOffsets tr) ∧
      List.Pairwise (fun x y => x ≤ y) (a.m_cur :: cursors tr) := by
  obtain ⟨tr, h1, h2, h3, _, h5, h6⟩ := allocTrace_of_fitsAll reqs a h64.2.2.2.1 hfit
  exact ⟨tr, h1, h2, h3, h6, h5⟩

/-- Witness of C5: three requests on a 100-byte region are issued at offsets
0, 16, 28 and move the cursor to 10, 26, 32. -/
theorem allocTrace_offsets_cursor_monotone_witness :
    ∃ tr, allocTrace (LinearAllocator.mk4 1 0 100 4) [(10, 0), (10, 16), (4, 0)] = Run.ok tr ∧
      tr.length = 3 ∧ (∀ e ∈ tr, e.success = true) ∧
      List.Pairwise (fun x y => x ≤ y) (successOffsets tr) ∧
      List.Pairwise (fun x y => x ≤ y) (0 :: cursors tr) :=
  allocTrace_offsets_cursor_monotone (LinearAllocator.mk4 1 0 100 4)
    [(10, 0), (10, 16), (4, 0)] (by decide) (by decide)

/-- C6 (counterexample): `LinearAllocator(1, 2^64 - 1, 2, 4)` computes
`m_end = (2^64 - 1 + 2) mod 2^64 = 1`, below `m_start = m_cur = 2^64 - 1`: the
predicate `m_start <= m_cur <= m_end` does not hold after construction. -/
theorem inv_fails_after_construction :
    ¬ (LinearAllocator.mk4 1 (2 ^ 64 - 1) 2 4).inv := by
  decide

/-- C6 (amended): `m_start <= m_cur <= m_end` holds after construction
`LinearAllocator(buffer, start_offset, cap, min_alignment, mapped_ptr)` whenever
`start_offset + cap` does not overflow 64 bits; it is preserved by `reset`, and
by `allocateBytes` and `allocate<T>`, whether the allocation succeeds or fails,
whenever the exact end `alignUp(m_cur, alignment) + size` of the request does not
overflow 64 bits. -/
theorem inv_preserved_without_overflow :
    (∀ buffer start_offset cap min_alignment mapped_ptr, start_offset + cap < 2 ^ 64 →
        (LinearAllocator.mk5 buffer start_offset cap min_alignment mapped_ptr).inv) ∧
    (∀ a : LinearAllocator, a.inv → a.reset.inv) ∧
    (∀ (a : LinearAllocator) size alignment r a1, a.inv →
        a.exactEnd size alignment < 2 ^ 64 →
        a.allocateBytes size alignment = Run.ok (r, a1) → a1.inv) ∧
    (∀ (a : LinearAllocator) sizeofT alignofT count r a1, a.inv →
        a.exactEnd (mul64 count sizeofT) alignofT < 2 ^ 64 →
        a.allocate sizeofT alignofT count = Run.ok (r, a1) → a1.inv) := by
  have halloc : ∀ (a : LinearAllocator) size alignment r a1, a.inv →
      a.exactEnd size alignment < 2 ^ 64 →
      a.allocateBytes size alignment = Run.ok (r, a1) → a1.inv := by
    intro a size alignment r a1 hinv hno hret
    obtain ⟨offset, hal, hc⟩ := allocateBytes_cases a size alignment r a1 hret
    have h0 := (alignUp_ok_mod _ _ _ hal).1
    obtain ⟨hex, hend⟩ := alignUp_cur_of_exactEnd_lt a size alignment h0 hno
    rw [hex] at hal
    injection hal with hal
    subst hal
    rcases hc with ⟨_, hle, _, ha1⟩ | ⟨_, _, _, ha1⟩
    · subst ha1
      have hge := le_alignUpExact a.m_cur _ h0
      rw [hend] at hle
      unfold LinearAllocator.inv at hinv
      show a.m_start ≤ add64 _ size ∧ add64 _ size ≤ a.m_end
      rw [hend]
      unfold LinearAllocator.exactEnd at hle ⊢
      omega
    · subst ha1; exact hinv
  refine ⟨?_, ?_, halloc, ?_⟩
  · intro buffer start_offset cap min_alignment mapped_ptr hno
    unfold LinearAllocator.inv LinearAllocator.mk5 add64
    rw [Nat.mod_eq_of_lt hno]
    exact ⟨le_refl _, Nat.le_add_right _ _⟩
  · intro a hinv
    unfold LinearAllocator.inv LinearAllocator.reset
    unfold LinearAllocator.inv at hinv
    exact ⟨le_refl _, le_trans hinv.1 hinv.2⟩
  · intro a sizeofT alignofT count r a1 hinv hno hret
    exact halloc a (mul64 count sizeofT) alignofT r a1 hinv hno hret

/-- Witness of C6 (amended): construction of the region `[16, 100)`, a successful
and a failed `allocateBytes`, an `allocate<T>(2)` with `sizeof(T) = 12`,
`alignof(T) = 4`, and `reset`. -/
theorem inv_preserved_without_overflow_witness :
    (LinearAllocator.mk5 1 16 84 4 0).inv ∧
    ({ LinearAllocator.mk5 1 16 84 4 0 with m_cur := 40 } : LinearAllocator).inv ∧
    (LinearAllocator.mk5 1 16 84 4 0).inv ∧
    ({ LinearAllocator.mk5 1 16 84 4 0 with m_cur := 64 } : LinearAllocator).inv ∧
    ({ LinearAllocator.mk5 1 16 84 4 0 with m_cur := 40 } : LinearAllocator).reset.inv :=
  let h := inv_preserved_without_overflow
  let a := LinearAllocator.mk5 1 16 84 4 0
  let b : LinearAllocator := { a with m_cur := 40 }
  ⟨h.1 1 16 84 4 0 (by decide),
   h.2.2.1 a 24 0 { buffer := 1, offset := 16, size := 24, mapped_ptr := 0 } b
     (by decide) (by decide) (by decide),
   h.2.2.1 a 200 0 BufferSubAllocation.empty a (by decide) (by decide) (by decide),
   h.2.2.2 b 12 4 2 { buffer := 1, offset := 40, size := 24, mapped_ptr := 0 }
     { a with m_cur := 64 } (by decide) (by decide) (by decide),
   h.2.1 b (by decide)⟩

/-- `allocateBytes` changes no member other than `m_cur`. -/
theorem allocateBytes_reset_eq (a : LinearAllocator) (size alignment : Nat)
    (r : BufferSubAllocation) (a1 : LinearAllocator)
    (h : a.allocateBytes size alignment = Run.ok (r, a1)) : a1.reset = a.reset := by
  obtain ⟨offset, _, hc⟩ := allocateBytes_cases a size alignment r a1 h
  rcases hc with ⟨_, _, _, ha1⟩ | ⟨_, _, _, ha1⟩ <;> subst ha1 <;> rfl

/-- After any trace of calls, `reset` gives the same allocator as `reset` on the
allocator the trace started from. -/
theorem lastState_reset_eq (reqs : List Request) :
    ∀ (a : LinearAllocator) (tr : List AllocEvent), allocTrace a reqs = Run.ok tr →
      (lastState a tr).reset = a.reset := by
  induction reqs with
  | nil =>
    intro a tr h
    simp only [allocTrace, Run.ok.injEq] at h
    subst h
    rfl
  | cons req rest ih =>
    intro a tr h
    simp only [allocTrace] at h
    cases hret : a.allocateBytes req.1 req.2 with
    | fault f => simp [hret] at h
    | ok p =>
      obtain ⟨r, a1⟩ := p
      simp only [hret] at h
      cases hrest : allocTrace a1 rest with
      | fault f => simp [hrest] at h
      | ok tr1 =>
        simp only [hrest, Run.ok.injEq] at h
        subst h
        have h1 := ih a1 tr1 hrest
        have h2 := allocateBytes_reset_eq a req.1 req.2 r a1 hret
        rw [← h2, ← h1]
        cases tr1 with
        | nil => rfl
        | cons e es =>
          simp only [lastState, List.getLast?_cons_cons]
          cases hl : (e :: es).getLast? with
          | none => simp at hl
          | some x => rfl

/-- C7: `reset()` sets `m_cur` to `m_start` and changes no other member; so after
any sequence of calls on a freshly constructed allocator followed by `reset()`,
every list of requests returns exactly the same sequence of results (handles,
success or failure, cursors) as on the freshly constructed allocator. -/
theorem reset_replays_fresh (buffer start_offset cap min_alignment mapped_ptr : Nat)
    (before reqs : List Request) (tr : List AllocEvent)
    (hrun : allocTrace (LinearAllocator.mk5 buffer start_offset cap min_alignment mapped_ptr)
      before = Run.ok tr) :
    (∀ a : LinearAllocator, a.reset.m_cur = a.m_start ∧
        a.reset.m_min_alignment = a.m_min_alignment ∧ a.reset.m_buffer = a.m_buffer ∧
        a.reset.m_start = a.m_start ∧ a.reset.m_end = a.m_end ∧
        a.reset.m_mapped_ptr = a.m_mapped_ptr) ∧
    allocTrace
        (lastState (LinearAllocator.mk5 buffer start_offset cap min_alignment mapped_ptr)
          tr).reset reqs
      = allocTrace (LinearAllocator.mk5 buffer start_offset cap min_alignment mapped_ptr)
          reqs := by
  constructor
  · intro a
    exact ⟨rfl, rfl, rfl, rfl, rfl, rfl⟩
  · rw [lastState_reset_eq before _ tr hrun]
    rfl

/-- Witness of C7: two allocations on the region `[16, 100)`, `reset`, then the
same two requests again. -/
theorem reset_replays_fresh_witness :
    allocTrace
        (lastState (LinearAllocator.mk5 1 16 84 4 0)
          [{ result := { buffer := 1, offset := 16, size := 10, mapped_ptr := 0 },
             success := true, after := { LinearAllocator.mk5 1 16 84 4 0 with m_cur := 26 } },
           { result := { buffer := 1, offset := 32, size := 8, mapped_ptr := 0 },
             success := true,
             after := { LinearAllocator.mk5 1 16 84 4 0 with m_cur := 40 } }]).reset
        [(10, 0), (8, 16)]
      = allocTrace (LinearAllocator.mk5 1 16 84 4 0) [(10, 0), (8, 16)] :=
  (reset_replays_fresh 1 16 84 4 0 [(10, 0), (8, 16)] [(10, 0), (8, 16)] _ (by decide)).2

/-! ## The recycling pools -/

theorem cmdPool_syncLoop_eq (fenceStatus : Nat → Int)
    (pending : List CmdBufferAllocation) :
    ∀ (done : List CmdBufferAllocation) (free : List Nat) (calls : List VkCall),
      CommandBufferPool.syncLoop fenceStatus done pending free calls
        = (done ++ pending.filter (fun e => !decide (fenceStatus e.fence = VK_SUCCESS)),
           free ++ (pending.filter (fun e => decide (fenceStatus e.fence = VK_SUCCESS))).map
             (fun e => e.cmd_buffer),
           calls ++ (pending.filter (fun e => decide (fenceStatus e.fence = VK_SUCCESS))).map
             (fun e => VkCall.vkResetCommandBuffer e.cmd_buffer
               VK_COMMAND_BUFFER_RESET_RELEASE_RESOURCES_BIT)) := by
  induction pending with
  | nil => intro done free calls; simp [CommandBufferPool.syncLoop]
  | cons it rest ih =>
    intro done free calls
    by_cases h : fenceStatus it.fence = VK_SUCCESS
    · simp [CommandBufferPool.syncLoop, h, ih]
    · simp [CommandBufferPool.syncLoop, h, ih]

theorem texPool_syncLoop_eq (fenceStatus : Nat → Int) (pending : List TextureAllocation) :
    ∀ (done : List TextureAllocation) (free : List Texture),
      TexturePool.syncLoop fenceStatus done pending free
        = (done ++ pending.filter (fun e => !decide (fenceStatus e.fence = VK_SUCCESS)),
           free ++ (pending.filter (fun e => decide (fenceStatus e.fence = VK_SUCCESS))).map
             (fun e => e.texture)) := by
  induction pending with
  | nil => intro done free; simp [TexturePool.syncLoop]
  | cons it rest ih =>
    intro done free
    by_cases h : fenceStatus it.fence = VK_SUCCESS
    · simp [TexturePool.syncLoop, h, ih]
    · simp [TexturePool.syncLoop, h, ih]

theorem length_filter_add_filter_not {α : Type} (p : α → Bool) (l : List α) :
    (l.filter p).length + (l.filter (fun e => !p e)).length = l.length := by
  induction l with
  | nil => rfl
  | cons x xs ih =>
    by_cases h : p x
    · simp [h]; omega
    · simp [h]; omega

/-- C9: `sync()` partitions the pending list by fence status. Afterwards
`m_pending` is exactly the previously pending entries whose fence is not
signaled, in their original order; `m_free` is the previous `m_free` followed by
the resources of the signaled entries in their original order; and
`|m_free| + |m_pending|` is unchanged. This holds for `CommandBufferPool` (which
also resets each recycled command buffer) and for `TexturePool`. -/
theorem sync_partitions_pending (fenceStatus : Nat → Int) :
    (∀ p : CommandBufferPool,
      (p.sync fenceStatus).1.m_pending
          = p.m_pending.filter (fun e => !decide (fenceStatus e.fence = VK_SUCCESS)) ∧
      (p.sync fenceStatus).1.m_free
          = p.m_free ++ (p.m_pending.filter
              (fun e => decide (fenceStatus e.fence = VK_SUCCESS))).map (fun e => e.cmd_buffer) ∧
      (p.sync fenceStatus).1.m_free.length + (p.sync fenceStatus).1.m_pending.length
          = p.m_free.length + p.m_pending.length ∧
      (p.sync fenceStatus).2
          = (p.m_pending.filter (fun e => decide (fenceStatus e.fence = VK_SUCCESS))).map
              (fun e => VkCall.vkResetCommandBuffer e.cmd_buffer
                VK_COMMAND_BUFFER_RESET_RELEASE_RESOURCES_BIT)) ∧
    (∀ p : TexturePool,
      (p.sync fenceStatus).m_pending
          = p.m_pending.filter (fun e => !decide (fenceStatus e.fence = VK_SUCCESS)) ∧
      (p.sync fenceStatus).m_free
          = p.m_free ++ (p.m_pending.filter
              (fun e => decide (fenceStatus e.fence = VK_SUCCESS))).map (fun e => e.texture) ∧
      (p.sync fenceStatus).m_free.length + (p.sync fenceStatus).m_pending.length
          = p.m_free.length + p.m_pending.length) := by
  constructor
  · intro p
    have hlen := length_filter_add_filter_not
      (fun e : CmdBufferAllocation => decide (fenceStatus e.fence = VK_SUCCESS)) p.m_pending
    simp only [CommandBufferPool.sync, cmdPool_syncLoop_eq, List.nil_append,
      List.length_append, List.length_map, true_and, and_true]
    rw [Nat.add_assoc, hlen]
  · intro p
    have hlen := length_filter_add_filter_not
      (fun e : TextureAllocation => decide (fenceStatus e.fence = VK_SUCCESS)) p.m_pending
    simp only [TexturePool.sync, texPool_syncLoop_eq, List.nil_append,
      List.length_append, List.length_map, true_and]
    rw [Nat.add_assoc, hlen]

/-- C10: `CommandBufferPool::acquire` prefers a free resource. When `m_free` is
non-empty it returns the last element of `m_free`, removes exactly that element
and makes no Vulkan call (creates nothing); when `m_free` is empty it allocates
exactly one new command buffer (one `vkAllocateCommandBuffers` call with
`commandBufferCount = 1`), returns it and leaves `m_free` empty; in both cases
`m_pending` is unchanged. -/
theorem acquire_prefers_free (p : CommandBufferPool) (allocated : Nat) :
    (p.m_free ≠ [] →
      p.m_free = (p.acquire allocated).2.1.m_free ++ [(p.acquire allocated).1] ∧
      p.m_free.getLast? = some (p.acquire allocated).1 ∧
      (p.acquire allocated).2.2 = []) ∧
    (p.m_free = [] →
      (p.acquire allocated).1 = allocated ∧ (p.acquire allocated).2.1.m_free = [] ∧
      (p.acquire allocated).2.2 = [VkCall.vkAllocateCommandBuffers p.m_cmd_pool 1]) ∧
    (p.acquire allocated).2.1.m_pending = p.m_pending ∧
    (p.acquire allocated).2.1.m_cmd_pool = p.m_cmd_pool := by
  by_cases h : p.m_free = []
  · simp [CommandBufferPool.acquire, h]
  · simp only [CommandBufferPool.acquire, h, dite_false, ne_eq, not_false_eq_true,
      true_implies, false_implies, and_true, true_and]
    exact ⟨(List.dropLast_append_getLast h).symm, List.getLast?_eq_getLast _ h⟩

/-- Witness of C10: with `m_free = [5, 9]` the call returns 9 and leaves `[5]`;
with `m_free = []` it returns the newly allocated handle 11. -/
theorem acquire_prefers_free_witness :
    ([5, 9] = [5] ++ [9] ∧ [5, 9].getLast? = some 9 ∧ ([] : List VkCall) = []) ∧
    ((11 : Nat) = 11 ∧ ([] : List Nat) = [] ∧
      [VkCall.vkAllocateCommandBuffers 3 1] = [VkCall.vkAllocateCommandBuffers 3 1]) :=
  ⟨(acquire_prefers_free
      { m_cmd_pool := 3, m_pending := [{ cmd_buffer := 7, fence := 2 }], m_free := [5, 9] }
      11).1 (by decide),
   (acquire_prefers_free
      { m_cmd_pool := 3, m_pending := [{ cmd_buffer := 7, fence := 2 }], m_free := [] }
      11).2.1 rfl⟩

/-! ## Recycling safety of `CommandBufferPool` -/

theorem count_map_filter_add {α β : Type} [DecidableEq β] (f : α → β) (p : α → Bool)
    (l : List α) (b : β) :
    List.count b ((l.filter p).map f) + List.count b ((l.filter (fun e => !p e)).map f)
      = List.count b (l.map f) := by
  have hp : ((l.filter p ++ l.filter (fun e => !p e)).map f).Perm (l.map f) :=
    (List.filter_append_perm p l).map f
  rw [← hp.count_eq b, List.map_append, List.count_append]

theorem count_map_erase {α β : Type} [DecidableEq α] [DecidableEq β] (f : α → β)
    (l : List α) (x : α) (hx : x ∈ l) (b : β) :
    List.count b ((l.erase x).map f) + List.count b [f x] = List.count b (l.map f) := by
  have hp : (l.map f).Perm ((x :: l.erase x).map f) := (List.perm_cons_erase hx).map f
  rw [hp.count_eq b]
  simp only [List.map_cons, List.count_cons, List.count_nil]
  omega

theorem count_erase_add {α : Type} [DecidableEq α] (l : List α) (x : α) (hx : x ∈ l)
    (b : α) : List.count b (l.erase x) + List.count b [x] = List.count b l := by
  rw [(List.perm_cons_erase hx).count_eq b]
  simp only [List.count_cons, List.count_nil]
  omega

theorem cmdClient_wf_init (cmd_pool : Nat) : (CmdPoolClient.init cmd_pool).wf := by
  constructor
  · intro c
    simp [CmdPoolClient.init, CmdPoolClient.known, CommandBufferPool.new]
  · simp [CmdPoolClient.init, CmdPoolClient.known, CommandBufferPool.new]

/-- In a well-formed state `acquire` does not return a pending command buffer. -/
theorem cmdClient_acquire_not_pending (s : CmdPoolClient) (allocated : Nat) (hwf : s.wf)
    (hadm : s.admits (CmdPoolOp.acquire allocated) = true) :
    (s.pool.acquire allocated).1 ∉ s.pool.m_pending.map (fun e => e.cmd_buffer) := by
  simp only [CmdPoolClient.admits, decide_eq_true_eq] at hadm
  intro hmem
  by_cases hfree : s.pool.m_free = []
  · simp only [CommandBufferPool.acquire, hfree, dite_true] at hmem
    have hpos : 0 < List.count allocated (s.pool.m_pending.map (fun e => e.cmd_buffer)) :=
      List.count_pos_iff.2 hmem
    by_cases h0 : allocated = 0
    · have hw := hwf.2
      simp only [CmdPoolClient.known, List.count_append] at hw
      rw [h0] at hpos
      omega
    · have hn := hadm hfree h0
      apply hn
      simp only [CmdPoolClient.known, List.mem_append]
      exact Or.inl (Or.inr hmem)
  · simp only [CommandBufferPool.acquire, hfree, dite_false] at hmem
    have hpos : 0 < List.count (s.pool.m_free.getLast hfree)
        (s.pool.m_pending.map (fun e => e.cmd_buffer)) := List.count_pos_iff.2 hmem
    have hpos2 : 0 < List.count (s.pool.m_free.getLast hfree) s.pool.m_free :=
      List.count_pos_iff.2 (List.getLast_mem hfree)
    have hw := hwf.1 (s.pool.m_free.getLast hfree)
    simp only [CmdPoolClient.known, List.count_append] at hw
    omega

/-- The counts of the known command buffers after `acquire`. -/
theorem cmdClient_count_acquire (s : CmdPoolClient) (allocated : Nat) (hwf : s.wf)
    (hadm : s.admits (CmdPoolOp.acquire allocated) = true) (c : Nat) :
    List.count c (s.step (CmdPoolOp.acquire allocated)).known ≤ 1 ∧
      List.count 0 (s.step (CmdPoolOp.acquire allocated)).known = 0 := by
  simp only [CmdPoolClient.admits, decide_eq_true_eq] at hadm
  have hw := hwf.1 c
  have hz := hwf.2
  by_cases hfree : s.pool.m_free = []
  · by_cases h0 : allocated = 0
    · simp only [CmdPoolClient.step, CommandBufferPool.acquire, hfree, h0, dite_true, if_true]
      simp only [CmdPoolClient.known, hfree] at hw hz ⊢
      exact ⟨hw, hz⟩
    · have hn := hadm hfree h0
      have hc0 : List.count allocated s.known = 0 := List.count_eq_zero.2 hn
      simp only [CmdPoolClient.known, List.count_append] at hw hz hc0
      simp only [CmdPoolClient.step, CommandBufferPool.acquire, hfree, dite_true, h0, if_false,
        CmdPoolClient.known, List.count_append, List.count_cons, List.count_nil, beq_iff_eq]
      by_cases hca : allocated = c
      · subst hca
        simp only [if_true]
        omega
      · simp only [hca, if_false]
        omega
  · have hmem : s.pool.m_free.getLast hfree ∈ s.known := by
      simp only [CmdPoolClient.known, List.mem_append]
      exact Or.inl (Or.inl (List.getLast_mem hfree))
    have hne : s.pool.m_free.getLast hfree ≠ 0 := by
      intro h0
      have hpos := List.count_pos_iff.2 hmem
      rw [h0] at hpos
      omega
    have hsplit : ∀ d, List.count d s.pool.m_free
        = List.count d s.pool.m_free.dropLast + List.count d [s.pool.m_free.getLast hfree] := by
      intro d
      conv_lhs => rw [← List.dropLast_append_getLast hfree]
      rw [List.count_append]
    have hc := hsplit c
    have h0 := hsplit 0
    simp only [CmdPoolClient.known, List.count_append] at hw hz
    simp only [CmdPoolClient.step, CommandBufferPool.acquire, hfree, dite_false, hne, if_false,
      CmdPoolClient.known, List.count_append]
    omega

/-- One admitted call keeps the state well formed. -/
theorem cmdClient_wf_step (s : CmdPoolClient) (op : CmdPoolOp) (hwf : s.wf)
    (hadm : s.admits op = true) : (s.step op).wf := by
  cases op with
  | acquire allocated =>
    exact ⟨fun c => (cmdClient_count_acquire s allocated hwf hadm c).1,
      (cmdClient_count_acquire s allocated hwf hadm 0).2⟩
  | release cmd fence =>
    simp only [CmdPoolClient.admits, decide_eq_true_eq] at hadm
    have key : ∀ c, List.count c (s.step (CmdPoolOp.release cmd fence)).known
        = List.count c s.known := by
      intro c
      have he := count_erase_add s.held cmd hadm c
      simp only [CmdPoolClient.step, CommandBufferPool.release, CmdPoolClient.known,
        List.count_append, List.map_append, List.map_cons, List.map_nil]
      omega
    exact ⟨fun c => by rw [key c]; exact hwf.1 c, by rw [key 0]; exact hwf.2⟩
  | sync fenceStatus =>
    have key : ∀ c, List.count c (s.step (CmdPoolOp.sync fenceStatus)).known
        = List.count c s.known := by
      intro c
      have hf := count_map_filter_add (fun e : CmdBufferAllocation => e.cmd_buffer)
        (fun e => decide (fenceStatus e.fence = VK_SUCCESS)) s.pool.m_pending c
      simp only [CmdPoolClient.step, CommandBufferPool.sync, cmdPool_syncLoop_eq,
        CmdPoolClient.known, List.count_append, List.nil_append]
      omega
    exact ⟨fun c => by rw [key c]; exact hwf.1 c, by rw [key 0]; exact hwf.2⟩

theorem cmdClient_wf_run (ops : List CmdPoolOp) :
    ∀ s : CmdPoolClient, s.wf → s.admitsAll ops = true → (s.run ops).wf := by
  induction ops with
  | nil => intro s hwf _; exact hwf
  | cons op ops ih =>
    intro s hwf hadm
    simp only [CmdPoolClient.admitsAll, Bool.and_eq_true] at hadm
    exact ih (s.step op) (cmdClient_wf_step s op hwf hadm.1) hadm.2

theorem cmdClient_run_append (xs ys : List CmdPoolOp) :
    ∀ s : CmdPoolClient, s.run (xs ++ ys) = (s.run xs).run ys := by
  induction xs with
  | nil => intro s; rfl
  | cons x xs ih => intro s; exact ih (s.step x)

theorem cmdClient_admitsAll_append (xs ys : List CmdPoolOp) :
    ∀ s : CmdPoolClient, s.admitsAll (xs ++ ys) = true →
      s.admitsAll xs = true ∧ (s.run xs).admitsAll ys = true := by
  induction xs with
  | nil => intro s h; exact ⟨rfl, h⟩
  | cons x xs ih =>
    intro s h
    simp only [List.cons_append, CmdPoolClient.admitsAll, Bool.and_eq_true] at h ⊢
    obtain ⟨h1, h2⟩ := ih (s.step x) h.2
    exact ⟨⟨h.1, h1⟩, h2⟩

/-- A pending entry stays pending as long as no `sync` sees its fence signaled. -/
theorem cmdClient_pending_stays (c f : Nat) (ops : List CmdPoolOp) :
    ∀ s : CmdPoolClient,
      ({ cmd_buffer := c, fence := f } : CmdBufferAllocation) ∈ s.pool.m_pending →
      (∀ st, CmdPoolOp.sync st ∈ ops → st f ≠ VK_SUCCESS) →
      ({ cmd_buffer := c, fence := f } : CmdBufferAllocation) ∈ (s.run ops).pool.m_pending := by
  induction ops with
  | nil => intro s h _; exact h
  | cons op ops ih =>
    intro s h hns
    apply ih (s.step op)
    · cases op with
      | acquire allocated =>
        by_cases hfree : s.pool.m_free = []
        · simpa [CmdPoolClient.step, CommandBufferPool.acquire, hfree] using h
        · simpa [CmdPoolClient.step, CommandBufferPool.acquire, hfree] using h
      | release cmd fence =>
        simp only [CmdPoolClient.step, CommandBufferPool.release, List.mem_append]
        exact Or.inl h
      | sync fenceStatus =>
        have hne := hns fenceStatus (List.mem_cons_self _ _)
        simp only [CmdPoolClient.step, CommandBufferPool.sync, cmdPool_syncLoop_eq,
          List.nil_append, List.mem_filter]
        exact ⟨h, by simpa using hne⟩
    · intro st hst
      exact hns st (List.mem_cons_of_mem _ hst)

/-! ## Recycling safety of `TexturePool` -/

/-- What the pop loop of `TexturePool::acquire` returns: started with a non-null
texture it does nothing; started with a null one it either empties the list and
ends with a null image, or stops at a texture of the list with a non-null image,
leaving the entries behind it. -/
theorem texLoop_spec (dim : V2u) (l : List Texture) :
    ∀ (t : Texture) (calls : List VkCall),
      (t.image ≠ 0 → (TexturePool.acquireLoop dim t l calls).1 = t ∧
        (TexturePool.acquireLoop dim t l calls).2.1 = l) ∧
      (t.image = 0 →
        ((TexturePool.acquireLoop dim t l calls).1.image = 0 ∧
          (TexturePool.acquireLoop dim t l calls).2.1 = []) ∨
        ((TexturePool.acquireLoop dim t l calls).1.image ≠ 0 ∧
          ∃ dropped, l = dropped ++ (TexturePool.acquireLoop dim t l calls).1 ::
            (TexturePool.acquireLoop dim t l calls).2.1)) := by
  induction l with
  | nil =>
    intro t calls
    exact ⟨fun _ => by simp [TexturePool.acquireLoop],
      fun h => Or.inl (by simpa [TexturePool.acquireLoop] using h)⟩
  | cons back rest ih =>
    intro t calls
    constructor
    · intro hne
      simp [TexturePool.acquireLoop, hne]
    · intro h0
      by_cases hdim : back.dim = dim
      · simp only [TexturePool.acquireLoop, h0, if_true, hdim, ne_eq, not_true_eq_false,
          if_false]
        by_cases hb : back.image = 0
        · rcases (ih back calls).2 hb with h | ⟨hne, dropped, hd⟩
          · exact Or.inl h
          · exact Or.inr ⟨hne, back :: dropped, by rw [List.cons_append, ← hd]⟩
        · obtain ⟨h1, h2⟩ := (ih back calls).1 hb
          refine Or.inr ⟨by rw [h1]; exact hb, [], ?_⟩
          rw [h1, h2]; rfl
      · simp only [TexturePool.acquireLoop, h0, if_true, ne_eq, hdim, not_false_eq_true]
        rcases (ih (TexturePool.free back).1 (calls ++ (TexturePool.free back).2)).2 rfl with
          h | ⟨hne, dropped, hd⟩
        · exact Or.inl h
        · exact Or.inr ⟨hne, back :: dropped, by rw [List.cons_append, ← hd]⟩

/-- The ways `TexturePool::acquire` returns. `m_pending` is unchanged; either a
free texture with a non-null image is reused and `m_free` keeps a part of its
entries, or `m_free` is emptied and the result is a newly created texture, the
null texture (view creation failed), or carries the image stored by a failed
`vmaCreateImage`. -/
theorem texAcquire_cases (p : TexturePool) (cmd : Nat) (dim : V2u) (drv : ImageCreation) :
    (p.acquire cmd dim drv).2.1.m_pending = p.m_pending ∧
    (p.acquire cmd dim drv).2.1.m_free
      = (TexturePool.acquireLoop dim Texture.null p.m_free.reverse []).2.1.reverse ∧
    (((TexturePool.acquireLoop dim Texture.null p.m_free.reverse []).1.image ≠ 0 ∧
        (p.acquire cmd dim drv).1
          = (TexturePool.acquireLoop dim Texture.null p.m_free.reverse []).1) ∨
      ((TexturePool.acquireLoop dim Texture.null p.m_free.reverse []).1.image = 0 ∧
        drv.image_result = VK_SUCCESS ∧ (p.acquire cmd dim drv).1.image = drv.image) ∨
      ((TexturePool.acquireLoop dim Texture.null p.m_free.reverse []).1.image = 0 ∧
        (p.acquire cmd dim drv).1.image = 0) ∨
      ((TexturePool.acquireLoop dim Texture.null p.m_free.reverse []).1.image = 0 ∧
        drv.image_result ≠ VK_SUCCESS ∧ (p.acquire cmd dim drv).1.image = drv.image)) := by
  by_cases h1 : (TexturePool.acquireLoop dim Texture.null p.m_free.reverse []).1.image = 0
  · by_cases h2 : drv.image_result = VK_SUCCESS
    · by_cases h3 : drv.view_result = VK_SUCCESS
      · simp [TexturePool.acquire, h1, h2, h3]
      · have hn : Texture.null.image = 0 := rfl
        simp [TexturePool.acquire, h1, h2, h3, hn]
    · simp [TexturePool.acquire, h1, h2]
  · simp [TexturePool.acquire, h1]

/-- Counting images: the entries left in `m_free` by the pop loop, together with
the reused texture, are among the entries of `m_free`. -/
theorem texLoop_count (dim : V2u) (free : List Texture) (i : Nat)
    (hne : (TexturePool.acquireLoop dim Texture.null free.reverse []).1.image ≠ 0) :
    List.count i ((TexturePool.acquireLoop dim Texture.null free.reverse []).2.1.reverse.map
        (fun t => t.image))
      + List.count i [(TexturePool.acquireLoop dim Texture.null free.reverse []).1.image]
      ≤ List.count i (free.map (fun t => t.image)) := by
  rcases (texLoop_spec dim free.reverse Texture.null []).2 rfl with ⟨h0, _⟩ | ⟨_, dropped, hd⟩
  · exact absurd h0 hne
  · have hp1 : (free.map (fun t => t.image)).Perm (free.reverse.map (fun t => t.image)) :=
      (List.reverse_perm free).symm.map _
    have hp2 := (List.reverse_perm
      (TexturePool.acquireLoop dim Texture.null free.reverse []).2.1).map (fun t => t.image)
    rw [hp1.count_eq i, hp2.count_eq i]
    conv_rhs => rw [hd]
    simp only [List.map_append, List.map_cons, List.count_append, List.count_cons, List.count_nil]
    omega

theorem texLoop_count_le (dim : V2u) (free : List Texture) (i : Nat) :
    List.count i ((TexturePool.acquireLoop dim Texture.null free.reverse []).2.1.reverse.map
        (fun t => t.image))
      ≤ List.count i (free.map (fun t => t.image)) := by
  by_cases hne : (TexturePool.acquireLoop dim Texture.null free.reverse []).1.image = 0
  · rcases (texLoop_spec dim free.reverse Texture.null []).2 rfl with ⟨_, he⟩ | ⟨h1, _⟩
    · rw [he]; simp
    · exact absurd hne h1
  · have := texLoop_count dim free i hne
    omega

theorem texClient_wf_init : TexPoolClient.init.wf := by
  constructor
  · intro i
    simp [TexPoolClient.init, TexPoolClient.known, TexturePool.new]
  · simp [TexPoolClient.init, TexPoolClient.known, TexturePool.new]

/-- The known images after `acquire`: those left in `m_free`, the pending ones,
the held ones, and the image of the returned texture unless it is null. -/
theorem texClient_known_acquire (s : TexPoolClient) (cmd : Nat) (dim : V2u)
    (drv : ImageCreation) (j : Nat) :
    List.count j (s.step (TexPoolOp.acquire cmd dim drv)).known
      = List.count j
          ((TexturePool.acquireLoop dim Texture.null s.pool.m_free.reverse []).2.1.reverse.map
            (fun t => t.image))
        + List.count j ((s.pool.m_pending.map (fun e => e.texture)).map (fun t => t.image))
        + List.count j (s.held.map (fun t => t.image))
        + (if (s.pool.acquire cmd dim drv).1.image = 0 then 0
            else List.count j [(s.pool.acquire cmd dim drv).1.image]) := by
  obtain ⟨hp, hf, _⟩ := texAcquire_cases s.pool cmd dim drv
  simp only [TexPoolClient.step, TexPoolClient.known, hp, hf, List.map_append, List.count_append]
  split
  · rfl
  · simp only [List.map_append, List.count_append, List.map_cons, List.map_nil]
    omega

/-- What the assumption on `acquire` gives when an image is created. -/
theorem texClient_admits_acquire (s : TexPoolClient) (cmd : Nat) (dim : V2u)
    (drv : ImageCreation) (hadm : s.admits (TexPoolOp.acquire cmd dim drv) = true)
    (h0 : (TexturePool.acquireLoop dim Texture.null s.pool.m_free.reverse []).1.image = 0) :
    (drv.image_result = VK_SUCCESS → drv.image ≠ 0 ∧
      List.count drv.image
          ((TexturePool.acquireLoop dim Texture.null s.pool.m_free.reverse []).2.1.reverse.map
            (fun t => t.image))
        + List.count drv.image
            ((s.pool.m_pending.map (fun e => e.texture)).map (fun t => t.image))
        + List.count drv.image (s.held.map (fun t => t.image)) = 0) ∧
    (drv.image_result ≠ VK_SUCCESS → drv.image = 0) := by
  simp only [TexPoolClient.admits, decide_eq_true_eq] at hadm
  obtain ⟨h1, h2⟩ := hadm h0
  refine ⟨fun hs => ?_, h2⟩
  obtain ⟨hne, hnot⟩ := h1 hs
  refine ⟨hne, ?_⟩
  have := List.count_eq_zero.2 hnot
  simpa only [TexPoolClient.known, List.map_append, List.count_append] using this

theorem texClient_count_acquire (s : TexPoolClient) (cmd : Nat) (dim : V2u)
    (drv : ImageCreation) (hwf : s.wf)
    (hadm : s.admits (TexPoolOp.acquire cmd dim drv) = true) (i : Nat) :
    List.count i (s.step (TexPoolOp.acquire cmd dim drv)).known ≤ 1 ∧
      List.count 0 (s.step (TexPoolOp.acquire cmd dim drv)).known = 0 := by
  obtain ⟨_, _, hc⟩ := texAcquire_cases s.pool cmd dim drv
  have hw := hwf.1 i
  have hz := hwf.2
  have hle_i := texLoop_count_le dim s.pool.m_free i
  have hle_0 := texLoop_count_le dim s.pool.m_free 0
  simp only [TexPoolClient.known, List.map_append, List.count_append] at hw hz
  rw [texClient_known_acquire s cmd dim drv i, texClient_known_acquire s cmd dim drv 0]
  rcases hc with ⟨hne, hres⟩ | ⟨h0, hs, hres⟩ | ⟨h0, hres⟩ | ⟨h0, hs, hres⟩
  · have hci := texLoop_count dim s.pool.m_free i hne
    have hc0 := texLoop_count dim s.pool.m_free 0 hne
    simp only [hres, if_neg hne]
    omega
  · obtain ⟨hdne, hfresh⟩ := (texClient_admits_acquire s cmd dim drv hadm h0).1 hs
    simp only [hres, if_neg hdne]
    have hz0 : List.count 0 [drv.image] = 0 := by
      simp only [List.count_cons, List.count_nil, beq_iff_eq, hdne, if_false]
    rw [hz0]
    refine ⟨?_, by omega⟩
    by_cases hi : drv.image = i
    · subst hi
      simp only [List.count_cons, List.count_nil, beq_self_eq_true, if_true]
      omega
    · simp only [List.count_cons, List.count_nil, beq_iff_eq, hi, if_false]
      omega
  · simp only [hres, eq_self_iff_true, if_true]
    omega
  · have hd0 := (texClient_admits_acquire s cmd dim drv hadm h0).2 hs
    simp only [hres, hd0, eq_self_iff_true, if_true]
    omega

/-- One admitted call keeps the state well formed. -/
theorem texClient_wf_step (s : TexPoolClient) (op : TexPoolOp) (hwf : s.wf)
    (hadm : s.admits op = true) : (s.step op).wf := by
  cases op with
  | acquire cmd dim drv =>
    exact ⟨fun i => (texClient_count_acquire s cmd dim drv hwf hadm i).1,
      (texClient_count_acquire s cmd dim drv hwf hadm 0).2⟩
  | release cmd texture fence =>
    simp only [TexPoolClient.admits, decide_eq_true_eq] at hadm
    have key : ∀ i, List.count i (s.step (TexPoolOp.release cmd texture fence)).known
        = List.count i s.known := by
      intro i
      have he := count_map_erase (fun t : Texture => t.image) s.held texture hadm i
      simp only [TexPoolClient.step, TexturePool.release, TexPoolClient.known,
        List.count_append, List.map_append, List.map_cons, List.map_nil]
      omega
    exact ⟨fun i => by rw [key i]; exact hwf.1 i, by rw [key 0]; exact hwf.2⟩
  | sync fenceStatus =>
    have key : ∀ i, List.count i (s.step (TexPoolOp.sync fenceStatus)).known
        = List.count i s.known := by
      intro i
      have hf := count_map_filter_add (fun e : TextureAllocation => e.texture.image)
        (fun e => decide (fenceStatus e.fence = VK_SUCCESS)) s.pool.m_pending i
      simp only [TexPoolClient.step, TexturePool.sync, texPool_syncLoop_eq,
        TexPoolClient.known, List.count_append, List.nil_append, List.map_append,
        List.map_map] at hf ⊢
      simp only [Function.comp_def] at hf ⊢
      omega
    exact ⟨fun i => by rw [key i]; exact hwf.1 i, by rw [key 0]; exact hwf.2⟩

theorem texClient_wf_run (ops : List TexPoolOp) :
    ∀ s : TexPoolClient, s.wf → s.admitsAll ops = true → (s.run ops).wf := by
  induction ops with
  | nil => intro s hwf _; exact hwf
  | cons op ops ih =>
    intro s hwf hadm
    simp only [TexPoolClient.admitsAll, Bool.and_eq_true] at hadm
    exact ih (s.step op) (texClient_wf_step s op hwf hadm.1) hadm.2

theorem texClient_run_append (xs ys : List TexPoolOp) :
    ∀ s : TexPoolClient, s.run (xs ++ ys) = (s.run xs).run ys := by
  induction xs with
  | nil => intro s; rfl
  | cons x xs ih => intro s; exact ih (s.step x)

theorem texClient_admitsAll_append (xs ys : List TexPoolOp) :
    ∀ s : TexPoolClient, s.admitsAll (xs ++ ys) = true →
      s.admitsAll xs = true ∧ (s.run xs).admitsAll ys = true := by
  induction xs with
  | nil => intro s h; exact ⟨rfl, h⟩
  | cons x xs ih =>
    intro s h
    simp only [List.cons_append, TexPoolClient.admitsAll, Bool.and_eq_true] at h ⊢
    obtain ⟨h1, h2⟩ := ih (s.step x) h.2
    exact ⟨⟨h.1, h1⟩, h2⟩

/-- A pending entry stays pending as long as no `sync` sees its fence signaled. -/
theorem texClient_pending_stays (t : Texture) (f : Nat) (ops : List TexPoolOp) :
    ∀ s : TexPoolClient,
      ({ texture := t, fence := f } : TextureAllocation) ∈ s.pool.m_pending →
      (∀ st, TexPoolOp.sync st ∈ ops → st f ≠ VK_SUCCESS) →
      ({ texture := t, fence := f } : TextureAllocation) ∈ (s.run ops).pool.m_pending := by
  induction ops with
  | nil => intro s h _; exact h
  | cons op ops ih =>
    intro s h hns
    apply ih (s.step op)
    · cases op with
      | acquire cmd dim drv =>
        simp only [TexPoolClient.step, (texAcquire_cases s.pool cmd dim drv).1]
        exact h
      | release cmd texture fence =>
        simp only [TexPoolClient.step, TexturePool.release, List.mem_append]
        exact Or.inl h
      | sync fenceStatus =>
        have hne := hns fenceStatus (List.mem_cons_self _ _)
        simp only [TexPoolClient.step, TexturePool.sync, texPool_syncLoop_eq,
          List.nil_append, List.mem_filter]
        exact ⟨h, by simpa using hne⟩
    · intro st hst
      exact hns st (List.mem_cons_of_mem _ hst)

/-- In a well-formed state the image of the texture returned by `acquire` is the
image of no pending texture. -/
theorem texClient_acquire_not_pending (s : TexPoolClient) (cmd : Nat) (dim : V2u)
    (drv : ImageCreation) (hwf : s.wf)
    (hadm : s.admits (TexPoolOp.acquire cmd dim drv) = true) :
    (s.pool.acquire cmd dim drv).1.image
      ∉ (s.pool.m_pending.map (fun e => e.texture)).map (fun t => t.image) := by
  intro hmem
  have hpos := List.count_pos_iff.2 hmem
  obtain ⟨_, _, hc⟩ := texAcquire_cases s.pool cmd dim drv
  have hw := hwf.1 (s.pool.acquire cmd dim drv).1.image
  have hz := hwf.2
  simp only [TexPoolClient.known, List.map_append, List.count_append] at hw hz
  rcases hc with ⟨hne, hres⟩ | ⟨h0, hs, hres⟩ | ⟨h0, hres⟩ | ⟨h0, hs, hres⟩
  · have hci := texLoop_count dim s.pool.m_free (s.pool.acquire cmd dim drv).1.image hne
    rw [hres] at hci hpos hw
    simp only [List.count_cons, List.count_nil, beq_self_eq_true, if_true] at hci
    omega
  · obtain ⟨_, hfresh⟩ := (texClient_admits_acquire s cmd dim drv hadm h0).1 hs
    rw [hres] at hpos
    omega
  · rw [hres] at hpos
    omega
  · have hd0 := (texClient_admits_acquire s cmd dim drv hadm h0).2 hs
    rw [hres, hd0] at hpos
    omega

/-- C8: for every sequence of `acquire` / `release` / `sync` calls on a
`CommandBufferPool`, and likewise on a `TexturePool`, starting from an empty
pool, in which each release is of a resource the caller holds and newly created
resources are fresh: `acquire` never returns a resource that is in `m_pending`;
and when an `acquire` returns a resource that was released earlier with fence
`f`, a `sync()` call in between saw `f` signaled. -/
theorem acquire_never_returns_pending :
    (∀ (cmd_pool : Nat) (ops : List CmdPoolOp) (allocated : Nat),
      (CmdPoolClient.init cmd_pool).admitsAll (ops ++ [CmdPoolOp.acquire allocated]) = true →
      (((CmdPoolClient.init cmd_pool).run ops).pool.acquire allocated).1
        ∉ ((CmdPoolClient.init cmd_pool).run ops).pool.m_pending.map (fun e => e.cmd_buffer)) ∧
    (∀ (cmd_pool : Nat) (before mid : List CmdPoolOp) (c f allocated : Nat),
      (CmdPoolClient.init cmd_pool).admitsAll
          (before ++ CmdPoolOp.release c f :: (mid ++ [CmdPoolOp.acquire allocated])) = true →
      (((CmdPoolClient.init cmd_pool).run
          (before ++ CmdPoolOp.release c f :: mid)).pool.acquire allocated).1 = c →
      ∃ st, CmdPoolOp.sync st ∈ mid ∧ st f = VK_SUCCESS) ∧
    (∀ (ops : List TexPoolOp) (cmd : Nat) (dim : V2u) (drv : ImageCreation),
      TexPoolClient.init.admitsAll (ops ++ [TexPoolOp.acquire cmd dim drv]) = true →
      ((TexPoolClient.init.run ops).pool.acquire cmd dim drv).1
          ∉ (TexPoolClient.init.run ops).pool.m_pending.map (fun e => e.texture) ∧
        ((TexPoolClient.init.run ops).pool.acquire cmd dim drv).1.image
          ∉ (TexPoolClient.init.run ops).pool.m_pending.map (fun e => e.texture.image)) ∧
    (∀ (before mid : List TexPoolOp) (cmd1 : Nat) (t : Texture) (f cmd : Nat) (dim : V2u)
        (drv : ImageCreation),
      TexPoolClient.init.admitsAll
          (before ++ TexPoolOp.release cmd1 t f :: (mid ++ [TexPoolOp.acquire cmd dim drv]))
        = true →
      ((TexPoolClient.init.run
          (before ++ TexPoolOp.release cmd1 t f :: mid)).pool.acquire cmd dim drv).1 = t →
      ∃ st, TexPoolOp.sync st ∈ mid ∧ st f = VK_SUCCESS) := by
  refine ⟨?_, ?_, ?_, ?_⟩
  · intro cmd_pool ops allocated hadm
    obtain ⟨h1, h2⟩ := cmdClient_admitsAll_append ops _ _ hadm
    have hwf := cmdClient_wf_run ops _ (cmdClient_wf_init cmd_pool) h1
    simp only [CmdPoolClient.admitsAll, Bool.and_true] at h2
    exact cmdClient_acquire_not_pending _ allocated hwf h2
  · intro cmd_pool before mid c f allocated hadm hres
    by_contra hno
    have hns : ∀ st, CmdPoolOp.sync st ∈ mid → st f ≠ VK_SUCCESS := by
      intro st hst heq
      exact hno ⟨st, hst, heq⟩
    have hsplit : before ++ CmdPoolOp.release c f :: (mid ++ [CmdPoolOp.acquire allocated])
        = (before ++ CmdPoolOp.release c f :: mid) ++ [CmdPoolOp.acquire allocated] := by
      simp
    rw [hsplit] at hadm
    obtain ⟨h1, h2⟩ := cmdClient_admitsAll_append _ _ _ hadm
    have hwf := cmdClient_wf_run _ _ (cmdClient_wf_init cmd_pool) h1
    simp only [CmdPoolClient.admitsAll, Bool.and_true] at h2
    have hnp := cmdClient_acquire_not_pending _ allocated hwf h2
    apply hnp
    rw [hres]
    have hrun : (CmdPoolClient.init cmd_pool).run (before ++ CmdPoolOp.release c f :: mid)
        = ((((CmdPoolClient.init cmd_pool).run before).step (CmdPoolOp.release c f)).run mid) := by
      rw [cmdClient_run_append]; rfl
    rw [hrun]
    have hin := cmdClient_pending_stays c f mid
      (((CmdPoolClient.init cmd_pool).run before).step (CmdPoolOp.release c f))
      (by simp [CmdPoolClient.step, CommandBufferPool.release]) hns
    exact List.mem_map.2 ⟨_, hin, rfl⟩
  · intro ops cmd dim drv hadm
    obtain ⟨h1, h2⟩ := texClient_admitsAll_append ops _ _ hadm
    have hwf := texClient_wf_run ops _ texClient_wf_init h1
    simp only [TexPoolClient.admitsAll, Bool.and_true] at h2
    have hnp := texClient_acquire_not_pending _ cmd dim drv hwf h2
    rw [List.map_map] at hnp
    refine ⟨?_, hnp⟩
    intro hmem
    apply hnp
    obtain ⟨e, he, heq⟩ := List.mem_map.1 hmem
    exact List.mem_map.2 ⟨e, he, by simp only [Function.comp_apply, heq]⟩
  · intro before mid cmd1 t f cmd dim drv hadm hres
    by_contra hno
    have hns : ∀ st, TexPoolOp.sync st ∈ mid → st f ≠ VK_SUCCESS := by
      intro st hst heq
      exact hno ⟨st, hst, heq⟩
    have hsplit : before ++ TexPoolOp.release cmd1 t f :: (mid ++ [TexPoolOp.acquire cmd dim drv])
        = (before ++ TexPoolOp.release cmd1 t f :: mid) ++ [TexPoolOp.acquire cmd dim drv] := by
      simp
    rw [hsplit] at hadm
    obtain ⟨h1, h2⟩ := texClient_admitsAll_append _ _ _ hadm
    have hwf := texClient_wf_run _ _ texClient_wf_init h1
    simp only [TexPoolClient.admitsAll, Bool.and_true] at h2
    have hnp := texClient_acquire_not_pending _ cmd dim drv hwf h2
    apply hnp
    rw [hres]
    have hrun : TexPoolClient.init.run (before ++ TexPoolOp.release cmd1 t f :: mid)
        = (((TexPoolClient.init.run before).step (TexPoolOp.release cmd1 t f)).run mid) := by
      rw [texClient_run_append]; rfl
    rw [hrun]
    have hin := texClient_pending_stays t f mid
      ((TexPoolClient.init.run before).step (TexPoolOp.release cmd1 t f))
      (by simp [TexPoolClient.step, TexturePool.release]) hns
    rw [List.map_map]
    exact List.mem_map.2 ⟨_, hin, rfl⟩

/-- Witness of C8. Command buffers: after `acquire` (5 is created) and
`release(5, fence 9)`, an `acquire` creates 6 rather than returning the pending
5; once a `sync` has seen fence 9 signaled, `acquire` returns 5 again. Textures:
the same run with a 4x4 texture of image 20. -/
theorem acquire_never_returns_pending_witness :
    ((((CmdPoolClient.init 1).run
          [CmdPoolOp.acquire 5, CmdPoolOp.release 5 9]).pool.acquire 6).1
        ∉ ((CmdPoolClient.init 1).run
            [CmdPoolOp.acquire 5, CmdPoolOp.release 5 9]).pool.m_pending.map
              (fun e => e.cmd_buffer)) ∧
    (∃ st, CmdPoolOp.sync st ∈ [CmdPoolOp.sync (fun _ => VK_SUCCESS)] ∧ st 9 = VK_SUCCESS) ∧
    (((TexPoolClient.init.run
          [TexPoolOp.acquire 1 { x := 4, y := 4 }
             { image_result := 0, image := 20, memory := 21, view_result := 0, view := 22 },
           TexPoolOp.release 1
             { dim := { x := 4, y := 4 }, memory := 21, image := 20, view := 22 } 9]).pool.acquire
          1 { x := 4, y := 4 }
          { image_result := 0, image := 30, memory := 31, view_result := 0, view := 32 }).1.image
        ∉ (TexPoolClient.init.run
          [TexPoolOp.acquire 1 { x := 4, y := 4 }
             { image_result := 0, image := 20, memory := 21, view_result := 0, view := 22 },
           TexPoolOp.release 1
             { dim := { x := 4, y := 4 }, memory := 21, image := 20, view := 22 }
             9]).pool.m_pending.map (fun e => e.texture.image)) ∧
    (∃ st, TexPoolOp.sync st ∈ [TexPoolOp.sync (fun _ => VK_SUCCESS)] ∧ st 9 = VK_SUCCESS) :=
  ⟨acquire_never_returns_pending.1 1 [CmdPoolOp.acquire 5, CmdPoolOp.release 5 9] 6
     (by decide),
   acquire_never_returns_pending.2.1 1 [CmdPoolOp.acquire 5]
     [CmdPoolOp.sync (fun _ => VK_SUCCESS)] 5 9 6 (by decide) (by decide),
   (acquire_never_returns_pending.2.2.1
     [TexPoolOp.acquire 1 { x := 4, y := 4 }
        { image_result := 0, image := 20, memory := 21, view_result := 0, view := 22 },
      TexPoolOp.release 1
        { dim := { x := 4, y := 4 }, memory := 21, image := 20, view := 22 } 9]
     1 { x := 4, y := 4 }
     { image_result := 0, image := 30, memory := 31, view_result := 0, view := 32 }
     (by decide)).2,
   acquire_never_returns_pending.2.2.2
     [TexPoolOp.acquire 1 { x := 4, y := 4 }
        { image_result := 0, image := 20, memory := 21, view_result := 0, view := 22 }]
     [TexPoolOp.sync (fun _ => VK_SUCCESS)] 1
     { dim := { x := 4, y := 4 }, memory := 21, image := 20, view := 22 } 9 1
     { x := 4, y := 4 }
     { image_result := 0, image := 30, memory := 31, view_result := 0, view := 32 }
     (by decide) (by decide)⟩

/-! ## Destruction of the pools -/

theorem filter_not_eq_nil_of_all {α : Type} (p : α → Bool) (l : List α)
    (h : ∀ e ∈ l, p e = true) : l.filter (fun e => !p e) = [] := by
  rw [List.filter_eq_nil_iff]
  intro e he
  simp [h e he]

/-- C11: if every fence recorded in `m_pending` reports signaled when queried,
then after `sync()` `m_pending` is empty, so the `BRTOY_ASSERT(m_pending.empty())`
that follows the wait and `sync()` in the destructors of `CommandBufferPool` and
`TexturePool` holds and both destructors run to their end. -/
theorem sync_empties_pending_when_all_signaled (fenceStatus : Nat → Int) :
    (∀ p : CommandBufferPool, (∀ e ∈ p.m_pending, fenceStatus e.fence = VK_SUCCESS) →
      (p.sync fenceStatus).1.m_pending = [] ∧
      p.destroy fenceStatus
        = Run.ok ((p.sync fenceStatus).1,
            [VkCall.vkWaitForFences (p.m_pending.map (fun alloc => alloc.fence))] ++
              (p.sync fenceStatus).2 ++ [VkCall.vkDestroyCommandPool p.m_cmd_pool])) ∧
    (∀ p : TexturePool, (∀ e ∈ p.m_pending, fenceStatus e.fence = VK_SUCCESS) →
      (p.sync fenceStatus).m_pending = [] ∧
      ∃ res, p.destroy fenceStatus = Run.ok res ∧ res.1.m_pending = []) := by
  constructor
  · intro p h
    have hempty : (p.sync fenceStatus).1.m_pending = [] := by
      simp only [CommandBufferPool.sync, cmdPool_syncLoop_eq, List.nil_append]
      exact filter_not_eq_nil_of_all _ _ (fun e he => by simpa using h e he)
    refine ⟨hempty, ?_⟩
    unfold CommandBufferPool.destroy
    simp only [hempty, if_true]
  · intro p h
    have hempty : (p.sync fenceStatus).m_pending = [] := by
      simp only [TexturePool.sync, texPool_syncLoop_eq, List.nil_append]
      exact filter_not_eq_nil_of_all _ _ (fun e he => by simpa using h e he)
    refine ⟨hempty, ?_⟩
    unfold TexturePool.destroy
    simp only [hempty, if_true]
    exact ⟨_, rfl, rfl⟩

/-- Witness of C11: a command-buffer pool with two pending entries and a texture
pool with one, every fence signaled. -/
theorem sync_empties_pending_when_all_signaled_witness :
    ((CommandBufferPool.sync
        { m_cmd_pool := 3,
          m_pending := [{ cmd_buffer := 7, fence := 2 }, { cmd_buffer := 8, fence := 4 }],
          m_free := [5] }
        (fun _ => VK_SUCCESS)).1.m_pending = []) ∧
    ((TexturePool.sync
        { m_pending := [{ texture := { dim := { x := 4, y := 4 }, memory := 21, image := 20,
                                       view := 22 },
                          fence := 2 }],
          m_free := [] }
        (fun _ => VK_SUCCESS)).m_pending = []) :=
  ⟨((sync_empties_pending_when_all_signaled (fun _ => VK_SUCCESS)).1
      { m_cmd_pool := 3,
        m_pending := [{ cmd_buffer := 7, fence := 2 }, { cmd_buffer := 8, fence := 4 }],
        m_free := [5] }
      (by decide)).1,
   ((sync_empties_pending_when_all_signaled (fun _ => VK_SUCCESS)).2
      { m_pending := [{ texture := { dim := { x := 4, y := 4 }, memory := 21, image := 20,
                                     view := 22 },
                        fence := 2 }],
        m_free := [] }
      (by decide)).1⟩

/-! ## Dimension check of `TexturePool::acquire` -/

/-- The pop loop does nothing when it starts with a non-null image. -/
theorem texLoop_nonnull (dim : V2u) (t : Texture) (l : List Texture) (calls : List VkCall)
    (h : t.image ≠ 0) : TexturePool.acquireLoop dim t l calls = (t, l, calls) := by
  cases l with
  | nil => rfl
  | cons back rest => simp [TexturePool.acquireLoop, h]

/-- The textures popped by the loop of `acquire`, in pop order: they are the front
of the reversed `m_free`; the calls made are the `free` calls of those whose
`dim` differs; a result with a non-null image is a popped texture of the
requested `dim`. -/
theorem texLoop_popped (dim : V2u) (l : List Texture) :
    ∀ (t : Texture) (calls : List VkCall), t.image = 0 →
      ∃ popped : List Texture,
        l = popped ++ (TexturePool.acquireLoop dim t l calls).2.1 ∧
        (TexturePool.acquireLoop dim t l calls).2.2
          = calls ++ ((popped.filter (fun x => decide (x.dim ≠ dim))).map
              (fun x => (TexturePool.free x).2)).flatten ∧
        ((TexturePool.acquireLoop dim t l calls).1.image ≠ 0 →
          (TexturePool.acquireLoop dim t l calls).1 ∈ popped ∧
          (TexturePool.acquireLoop dim t l calls).1.dim = dim) := by
  induction l with
  | nil =>
    intro t calls h0
    refine ⟨[], by simp [TexturePool.acquireLoop], by simp [TexturePool.acquireLoop], ?_⟩
    intro hne
    simp [TexturePool.acquireLoop, h0] at hne
  | cons back rest ih =>
    intro t calls h0
    by_cases hdim : back.dim = dim
    · by_cases hb : back.image = 0
      · obtain ⟨popped, h1, h2, h3⟩ := ih back calls hb
        have hloop : TexturePool.acquireLoop dim t (back :: rest) calls
            = TexturePool.acquireLoop dim back rest calls := by
          simp [TexturePool.acquireLoop, h0, hdim]
        rw [hloop]
        refine ⟨back :: popped, by rw [List.cons_append, ← h1], ?_, ?_⟩
        · rw [h2]; simp [hdim]
        · intro hne
          exact ⟨List.mem_cons_of_mem _ (h3 hne).1, (h3 hne).2⟩
      · have hloop : TexturePool.acquireLoop dim t (back :: rest) calls = (back, rest, calls) := by
          simp [TexturePool.acquireLoop, h0, hdim, texLoop_nonnull dim back rest calls hb]
        rw [hloop]
        exact ⟨[back], rfl, by simp [hdim], fun _ => ⟨List.mem_singleton.2 rfl, hdim⟩⟩
    · obtain ⟨popped, h1, h2, h3⟩ :=
        ih (TexturePool.free back).1 (calls ++ (TexturePool.free back).2) rfl
      have hloop : TexturePool.acquireLoop dim t (back :: rest) calls
          = TexturePool.acquireLoop dim (TexturePool.free back).1 rest
              (calls ++ (TexturePool.free back).2) := by
        simp [TexturePool.acquireLoop, h0, hdim]
      rw [hloop]
      refine ⟨back :: popped, by rw [List.cons_append, ← h1], ?_, ?_⟩
      · rw [h2]; simp [hdim]
      · intro hne
        exact ⟨List.mem_cons_of_mem _ (h3 hne).1, (h3 hne).2⟩

/-- C12: `TexturePool::acquire(cmd, D)` never returns a texture with a non-null
image whose recorded `dim` differs from `D`. The textures it pops (`popped`, in
pop order) are removed from the back of `m_free`; each popped texture whose
`dim` is not `D` is destroyed through `free()` (its `vkDestroyImageView` and
`vmaDestroyImage` calls open the call log); and when no popped texture matches,
a new image of dimensions `D` is created (`vmaCreateImage` with extent `D`,
returned with `dim = D` when image and view creation succeed). -/
theorem acquire_returns_requested_dim (p : TexturePool) (cmd : Nat) (dim : V2u)
    (drv : ImageCreation) :
    ((p.acquire cmd dim drv).1.image ≠ 0 → (p.acquire cmd dim drv).1.dim = dim) ∧
    ∃ popped : List Texture,
      p.m_free = (p.acquire cmd dim drv).2.1.m_free ++ popped.reverse ∧
      (∃ rest, (p.acquire cmd dim drv).2.2
        = ((popped.filter (fun t => decide (t.dim ≠ dim))).map
            (fun t => [VkCall.vkDestroyImageView t.view,
                       VkCall.vmaDestroyImage t.image t.memory])).flatten ++ rest) ∧
      ((∀ t ∈ popped, t.dim ≠ dim ∨ t.image = 0) →
        VkCall.vmaCreateImage dim.x dim.y ∈ (p.acquire cmd dim drv).2.2 ∧
        (drv.image_result = VK_SUCCESS → drv.view_result = VK_SUCCESS →
          (p.acquire cmd dim drv).1
            = { dim := dim, memory := drv.memory, image := drv.image, view := drv.view })) := by
  obtain ⟨popped, h1, h2, h3⟩ := texLoop_popped dim p.m_free.reverse Texture.null [] rfl
  have hfree : p.m_free
      = (TexturePool.acquireLoop dim Texture.null p.m_free.reverse []).2.1.reverse
          ++ popped.reverse := by
    have := congrArg List.reverse h1
    rw [List.reverse_reverse, List.reverse_append] at this
    exact this
  rw [List.nil_append] at h2
  have hfc : (fun t : Texture => (TexturePool.free t).2)
      = (fun t : Texture => [VkCall.vkDestroyImageView t.view,
                              VkCall.vmaDestroyImage t.image t.memory]) := rfl
  rw [hfc] at h2
  by_cases hL : (TexturePool.acquireLoop dim Texture.null p.m_free.reverse []).1.image = 0
  · have hnomatch_res : ∀ x, (p.acquire cmd dim drv).1 = x → x.image ≠ 0 → x.dim = dim := by
      intro x hx hne
      subst hx
      by_cases h2s : drv.image_result = VK_SUCCESS
      · by_cases h3s : drv.view_result = VK_SUCCESS
        · simp [TexturePool.acquire, hL, h2s, h3s]
        · have hn : Texture.null.image = 0 := rfl
          simp [TexturePool.acquire, hL, h2s, h3s, hn] at hne
      · simp [TexturePool.acquire, hL, h2s]
    refine ⟨fun hne => hnomatch_res _ rfl hne, popped, ?_, ?_, ?_⟩
    · have hp := (texAcquire_cases p cmd dim drv).2.1
      rw [hp]; exact hfree
    · by_cases h2s : drv.image_result = VK_SUCCESS
      · by_cases h3s : drv.view_result = VK_SUCCESS
        · refine ⟨[VkCall.vmaCreateImage dim.x dim.y, VkCall.vkCreateImageView drv.image,
            VkCall.vkCmdPipelineBarrier cmd drv.image], ?_⟩
          simp [TexturePool.acquire, hL, h2s, h3s, h2]
        · refine ⟨[VkCall.vmaCreateImage dim.x dim.y, VkCall.vkCreateImageView drv.image,
            VkCall.vmaDestroyImage drv.image drv.memory], ?_⟩
          simp [TexturePool.acquire, hL, h2s, h3s, h2]
      · refine ⟨[VkCall.vmaCreateImage dim.x dim.y], ?_⟩
        simp [TexturePool.acquire, hL, h2s, h2]
    · intro _
      constructor
      · by_cases h2s : drv.image_result = VK_SUCCESS
        · by_cases h3s : drv.view_result = VK_SUCCESS
          · simp [TexturePool.acquire, hL, h2s, h3s]
          · simp [TexturePool.acquire, hL, h2s, h3s]
        · simp [TexturePool.acquire, hL, h2s]
      · intro h2s h3s
        simp [TexturePool.acquire, hL, h2s, h3s]
  · obtain ⟨hmem, hd⟩ := h3 hL
    have hres : (p.acquire cmd dim drv).1
        = (TexturePool.acquireLoop dim Texture.null p.m_free.reverse []).1 := by
      simp [TexturePool.acquire, hL]
    have hcalls : (p.acquire cmd dim drv).2.2
        = (TexturePool.acquireLoop dim Texture.null p.m_free.reverse []).2.2 := by
      simp [TexturePool.acquire, hL]
    refine ⟨fun _ => by rw [hres]; exact hd, popped, ?_, ⟨[], ?_⟩, ?_⟩
    · have hp := (texAcquire_cases p cmd dim drv).2.1
      rw [hp]; exact hfree
    · rw [hcalls, h2, List.append_nil]
    · intro hno
      rcases hno _ hmem with hx | hx
      · exact absurd hd hx
      · exact absurd hx hL

/-- Witness of C12: `m_free` holds a 1x1, a 4x4 and a 2x2 texture and a 4x4
texture is requested: the 2x2 texture is popped and destroyed, the 4x4 one is
returned, the 1x1 one stays; with only the 1x1 texture free, it is destroyed and
a 4x4 image is created. -/
theorem acquire_returns_requested_dim_witness :
    ((TexturePool.acquire
        { m_pending := [],
          m_free := [{ dim := { x := 1, y := 1 }, memory := 1, image := 2, view := 3 },
                     { dim := { x := 4, y := 4 }, memory := 4, image := 5, view := 6 },
                     { dim := { x := 2, y := 2 }, memory := 7, image := 8, view := 9 }] }
        1 { x := 4, y := 4 }
        { image_result := 0, image := 30, memory := 31, view_result := 0, view := 32 }).1.dim
      = { x := 4, y := 4 }) ∧
    ((TexturePool.acquire
        { m_pending := [],
          m_free := [{ dim := { x := 1, y := 1 }, memory := 1, image := 2, view := 3 }] }
        1 { x := 4, y := 4 }
        { image_result := 0, image := 30, memory := 31, view_result := 0, view := 32 }).1.dim
      = { x := 4, y := 4 }) :=
  ⟨(acquire_returns_requested_dim
      { m_pending := [],
        m_free := [{ dim := { x := 1, y := 1 }, memory := 1, image := 2, view := 3 },
                   { dim := { x := 4, y := 4 }, memory := 4, image := 5, view := 6 },
                   { dim := { x := 2, y := 2 }, memory := 7, image := 8, view := 9 }] }
      1 { x := 4, y := 4 }
      { image_result := 0, image := 30, memory := 31, view_result := 0, view := 32 }).1
      (by decide),
   (acquire_returns_requested_dim
      { m_pending := [],
        m_free := [{ dim := { x := 1, y := 1 }, memory := 1, image := 2, view := 3 }] }
      1 { x := 4, y := 4 }
      { image_result := 0, image := 30, memory := 31, view_result := 0, view := 32 }).1
      (by decide)⟩

/-! ## Byte memories -/

theorem readU32_writeU32_same (mem : Mem) (addr v : Nat) (hv : v < 2 ^ 32) :
    readU32 (writeU32 mem addr v) addr = v := by
  unfold readU32 writeU32
  have h0 : addr ≤ addr ∧ addr < addr + 4 := ⟨le_refl _, by omega⟩
  have h1 : addr ≤ addr + 1 ∧ addr + 1 < addr + 4 := ⟨by omega, by omega⟩
  have h2 : addr ≤ addr + 2 ∧ addr + 2 < addr + 4 := ⟨by omega, by omega⟩
  have h3 : addr ≤ addr + 3 ∧ addr + 3 < addr + 4 := ⟨by omega, by omega⟩
  have e0 : addr - addr = 0 := by omega
  have e1 : addr + 1 - addr = 1 := by omega
  have e2 : addr + 2 - addr = 2 := by omega
  have e3 : addr + 3 - addr = 3 := by omega
  simp only [h0, h1, h2, h3, and_self, if_true, e0, e1, e2, e3, Nat.mod_mod]
  norm_num
  omega

theorem readU32_writeU32_other (mem : Mem) (addr v other : Nat)
    (h : other + 4 ≤ addr ∨ addr + 4 ≤ other) :
    readU32 (writeU32 mem addr v) other = readU32 mem other := by
  unfold readU32 writeU32
  have h0 : ¬ (addr ≤ other ∧ other < addr + 4) := by omega
  have h1 : ¬ (addr ≤ other + 1 ∧ other + 1 < addr + 4) := by omega
  have h2 : ¬ (addr ≤ other + 2 ∧ other + 2 < addr + 4) := by omega
  have h3 : ¬ (addr ≤ other + 3 ∧ other + 3 < addr + 4) := by omega
  simp only [h0, h1, h2, h3, if_false]

/-- Reading back a stored `MeshInfo` gives the stored fields. -/
theorem readMeshInfo_writeMeshInfo (mem : Mem) (addr : Nat) (info : MeshInfo)
    (h1 : info.index_data_ptr < 2 ^ 32) (h2 : info.pos_data_ptr < 2 ^ 32)
    (h3 : info.pos_data_stride < 2 ^ 32) (h4 : info.attrib_data_ptr < 2 ^ 32)
    (h5 : info.attrib_data_stride < 2 ^ 32) (h6 : info.index_count < 2 ^ 32) :
    readMeshInfo (writeMeshInfo mem addr info) addr = info := by
  unfold readMeshInfo writeMeshInfo
  have o : ∀ (m : Mem) (a v b : Nat), b + 4 ≤ a ∨ a + 4 ≤ b →
      readU32 (writeU32 m a v) b = readU32 m b := readU32_writeU32_other
  rw [o _ _ _ addr (by omega), o _ _ _ addr (by omega), o _ _ _ addr (by omega),
    o _ _ _ addr (by omega), o _ _ _ addr (by omega), readU32_writeU32_same _ _ _ h1,
    o _ _ _ (addr + 4) (by omega), o _ _ _ (addr + 4) (by omega),
    o _ _ _ (addr + 4) (by omega), o _ _ _ (addr + 4) (by omega),
    readU32_writeU32_same _ _ _ h2,
    o _ _ _ (addr + 8) (by omega), o _ _ _ (addr + 8) (by omega),
    o _ _ _ (addr + 8) (by omega), readU32_writeU32_same _ _ _ h3,
    o _ _ _ (addr + 12) (by omega), o _ _ _ (addr + 12) (by omega),
    readU32_writeU32_same _ _ _ h4,
    o _ _ _ (addr + 16) (by omega), readU32_writeU32_same _ _ _ h5,
    readU32_writeU32_same _ _ _ h6]

/-- `readMeshInfo` looks at the 24 bytes from its offset only. -/
theorem readMeshInfo_congr (m1 m2 : Mem) (a b : Nat)
    (h : ∀ k, k < 24 → m1 (a + k) = m2 (b + k)) : readMeshInfo m1 a = readMeshInfo m2 b := by
  unfold readMeshInfo readU32
  have e := h 0 (by omega)
  simp only [Nat.add_zero] at e
  simp only [Nat.add_assoc, e, h 1 (by omega), h 2 (by omega), h 3 (by omega), h 4 (by omega),
    h 5 (by omega), h 6 (by omega), h 7 (by omega), h 8 (by omega), h 9 (by omega),
    h 10 (by omega), h 11 (by omega), h 12 (by omega), h 13 (by omega), h 14 (by omega),
    h 15 (by omega), h 16 (by omega), h 17 (by omega), h 18 (by omega), h 19 (by omega),
    h 20 (by omega), h 21 (by omega), h 22 (by omega), h 23 (by omega)]

/-- Inside the destination range of the last region of a copy, the destination
holds the source bytes of that region. -/
theorem copyRegions_last (src dst : Mem) (regions : List VkBufferCopy) (r : VkBufferCopy)
    (a : Nat) (h : r.dstOffset ≤ a ∧ a < r.dstOffset + r.size) :
    copyRegions src dst (regions ++ [r]) a = src (r.srcOffset + (a - r.dstOffset)) := by
  unfold copyRegions
  rw [List.foldl_append]
  simp only [List.foldl_cons, List.foldl_nil, copyRegion, h, and_self, if_true]

/-! ## `MeshData` -/

/-- A call that takes the success branch returns the allocator's buffer and
mapped pointer, the aligned cursor as offset, and moves the cursor to the end of
the issued range. -/
theorem allocateBytes_of_succeeds (a : LinearAllocator) (size alignment : Nat)
    (h : a.succeeds size alignment = true) :
    ∃ offset, alignUp a.m_cur (a.effectiveAlignment alignment) = Run.ok offset ∧
      add64 offset size ≤ a.m_end ∧
      a.allocateBytes size alignment
        = Run.ok ({ buffer := a.m_buffer, offset := offset, size := size,
                    mapped_ptr := a.m_mapped_ptr },
                  { a with m_cur := add64 offset size }) := by
  unfold LinearAllocator.succeeds LinearAllocator.newCur at h
  unfold LinearAllocator.allocateBytes LinearAllocator.effectiveAlignment
  cases hal : alignUp a.m_cur (if alignment = 0 then a.m_min_alignment else alignment) with
  | fault f => simp [hal] at h
  | ok offset =>
    simp only [hal, decide_eq_true_eq] at h
    exact ⟨offset, rfl, h, by simp [hal, h]⟩

/-- On an allocator whose region ends at or below `2 ^ 32`, with effective
alignment 4 and a size of at most `(2 ^ 32 - 1) ^ 2`, a successful call issues the exact round-up
of the cursor and the range lies inside the region, without any wrap. -/
theorem allocateBytes_small (a : LinearAllocator) (size alignment : Nat)
    (hinv : a.inv) (hend : a.m_end ≤ 2 ^ 32) (hal : a.effectiveAlignment alignment = 4)
    (hsize : size ≤ 2 ^ 64 - 2 ^ 33 + 1) (h : a.succeeds size alignment = true) :
    a.allocateBytes size alignment
        = Run.ok ({ buffer := a.m_buffer, offset := alignUpExact a.m_cur 4, size := size,
                    mapped_ptr := a.m_mapped_ptr },
                  { a with m_cur := alignUpExact a.m_cur 4 + size }) ∧
      a.m_cur ≤ alignUpExact a.m_cur 4 ∧ alignUpExact a.m_cur 4 < a.m_cur + 4 ∧
      alignUpExact a.m_cur 4 + size ≤ a.m_end := by
  have hge := le_alignUpExact a.m_cur 4 (by omega)
  have hlt := alignUpExact_lt a.m_cur 4 (by omega)
  have hcur : a.m_cur ≤ a.m_end := hinv.2
  have hno : a.exactEnd size alignment < 2 ^ 64 := by
    unfold LinearAllocator.exactEnd
    rw [hal]
    omega
  obtain ⟨hex, hadd⟩ := alignUp_cur_of_exactEnd_lt a size alignment (by rw [hal]; omega) hno
  obtain ⟨offset, ho, hle, hret⟩ := allocateBytes_of_succeeds a size alignment h
  rw [hex] at ho
  injection ho with ho
  subst ho
  rw [hadd] at hle hret
  unfold LinearAllocator.exactEnd at hle hret
  rw [hal] at hle hret
  exact ⟨hret, hge, hlt, hle⟩

/-- `update` when all five allocations succeed and the staging buffer is mapped:
the offsets issued by the five allocators determine the result. -/
theorem update_of_succeeds (md : MeshData) (cmd : Nat) (creator : Creator)
    (hs : md.updateSucceeds creator = true) (hmap : md.m_staging.m_mapped_ptr ≠ 0) :
    ∃ op oa oi oinfo osrc,
      md.m_positions.allocateBytes creator.src_positions.size 0
        = Run.ok ({ buffer := md.m_positions.m_buffer, offset := op,
                    size := creator.src_positions.size,
                    mapped_ptr := md.m_positions.m_mapped_ptr },
                  { md.m_positions with m_cur := add64 op creator.src_positions.size }) ∧
      md.m_attribs.allocateBytes creator.src_attribs.size 0
        = Run.ok ({ buffer := md.m_attribs.m_buffer, offset := oa,
                    size := creator.src_attribs.size,
                    mapped_ptr := md.m_attribs.m_mapped_ptr },
                  { md.m_attribs with m_cur := add64 oa creator.src_attribs.size }) ∧
      md.m_indices.allocateBytes creator.src_indices.size 0
        = Run.ok ({ buffer := md.m_indices.m_buffer, offset := oi,
                    size := creator.src_indices.size,
                    mapped_ptr := md.m_indices.m_mapped_ptr },
                  { md.m_indices with m_cur := add64 oi creator.src_indices.size }) ∧
      md.m_infos.allocateBytes sizeof_MeshInfo alignof_MeshInfo
        = Run.ok ({ buffer := md.m_infos.m_buffer, offset := oinfo, size := sizeof_MeshInfo,
                    mapped_ptr := md.m_infos.m_mapped_ptr },
                  { md.m_infos with m_cur := add64 oinfo sizeof_MeshInfo }) ∧
      md.m_staging.allocateBytes sizeof_MeshInfo alignof_MeshInfo
        = Run.ok ({ buffer := md.m_staging.m_buffer, offset := osrc, size := sizeof_MeshInfo,
                    mapped_ptr := md.m_staging.m_mapped_ptr },
                  { md.m_staging with m_cur := add64 osrc sizeof_MeshInfo }) ∧
      md.update cmd creator
        = Run.ok
            { handle := oinfo % 2 ^ 32,
              self := { md with
                        m_staging := { md.m_staging with m_cur := add64 osrc sizeof_MeshInfo },
                        m_positions :=
                          { md.m_positions with m_cur := add64 op creator.src_positions.size },
                        m_attribs :=
                          { md.m_attribs with m_cur := add64 oa creator.src_attribs.size },
                        m_indices :=
                          { md.m_indices with m_cur := add64 oi creator.src_indices.size },
                        m_infos := { md.m_infos with m_cur := add64 oinfo sizeof_MeshInfo } },
              info_offset := osrc,
              info := { index_data_ptr := oi % 2 ^ 32, pos_data_ptr := op % 2 ^ 32,
                        pos_data_stride := creator.position_size,
                        attrib_data_ptr := oa % 2 ^ 32,
                        attrib_data_stride := creator.attrib_size,
                        index_count := creator.index_count },
              cmds :=
                [GpuCmd.vkCmdPipelineBarrier
                   (VK_PIPELINE_STAGE_VERTEX_INPUT_BIT ||| VK_PIPELINE_STAGE_VERTEX_SHADER_BIT)
                   VK_PIPELINE_STAGE_TRANSFER_BIT VK_ACCESS_NONE VK_ACCESS_TRANSFER_WRITE_BIT,
                 GpuCmd.vkCmdCopyBuffer md.m_staging_buffer md.m_buffer
                   [{ srcOffset := creator.src_positions.offset, dstOffset := op,
                      size := creator.src_positions.size },
                    { srcOffset := creator.src_attribs.offset, dstOffset := oa,
                      size := creator.src_attribs.size },
                    { srcOffset := creator.src_indices.offset, dstOffset := oi,
                      size := creator.src_indices.size },
                    { srcOffset := osrc, dstOffset := oinfo, size := sizeof_MeshInfo }],
                 GpuCmd.vkCmdPipelineBarrier VK_PIPELINE_STAGE_TRANSFER_BIT
                   (VK_PIPELINE_STAGE_VERTEX_INPUT_BIT ||| VK_PIPELINE_STAGE_VERTEX_SHADER_BIT)
                   VK_ACCESS_TRANSFER_WRITE_BIT VK_ACCESS_SHADER_READ_BIT] } := by
  simp only [MeshData.updateSucceeds, Bool.and_eq_true] at hs
  obtain ⟨⟨⟨⟨h1, h2⟩, h3⟩, h4⟩, h5⟩ := hs
  have e24 : mul64 1 sizeof_MeshInfo = sizeof_MeshInfo := by decide
  rw [e24] at h4 h5
  obtain ⟨op, _, _, r1⟩ := allocateBytes_of_succeeds _ _ _ h1
  obtain ⟨oa, _, _, r2⟩ := allocateBytes_of_succeeds _ _ _ h2
  obtain ⟨oi, _, _, r3⟩ := allocateBytes_of_succeeds _ _ _ h3
  obtain ⟨oinfo, _, _, r4⟩ := allocateBytes_of_succeeds _ _ _ h4
  obtain ⟨osrc, _, _, r5⟩ := allocateBytes_of_succeeds _ _ _ h5
  refine ⟨op, oa, oi, oinfo, osrc, r1, r2, r3, r4, r5, ?_⟩
  unfold MeshData.update LinearAllocator.allocate
  simp only [r1, r2, r3, e24, r4, r5, hmap, if_false]

/-- What `create` returns: the element sizes and the index count are recorded in
the creator, the three staging handles have the sizes `count * sizeof(T)`
(modulo `2 ^ 64`) or are empty, and only the cursor of `m_staging` changes. -/
theorem create_inv (md : MeshData) (sP aP sA aA V I : Nat) (creator : Creator) (md1 : MeshData)
    (hc : md.create sP aP sA aA V I = Run.ok (creator, md1)) :
    creator.position_size = sP % 2 ^ 32 ∧ creator.attrib_size = sA % 2 ^ 32 ∧
    creator.index_count = I ∧
    (creator.src_positions.size = mul64 V sP ∨ creator.src_positions.size = 0) ∧
    (creator.src_attribs.size = mul64 V sA ∨ creator.src_attribs.size = 0) ∧
    (creator.src_indices.size = mul64 I 4 ∨ creator.src_indices.size = 0) ∧
    md1.m_staging.reset = md.m_staging.reset ∧
    md1 = { md with m_staging := md1.m_staging } := by
  unfold MeshData.create LinearAllocator.allocate at hc
  cases h1 : md.m_staging.allocateBytes (mul64 V sP) aP with
  | fault f => simp [h1] at hc
  | ok p1 =>
    obtain ⟨r1, s1⟩ := p1
    simp only [h1] at hc
    cases h2 : s1.allocateBytes (mul64 V sA) aA with
    | fault f => simp [h2] at hc
    | ok p2 =>
      obtain ⟨r2, s2⟩ := p2
      simp only [h2] at hc
      cases h3 : s2.allocateBytes (mul64 I MeshData.sizeof_Index) MeshData.alignof_Index with
      | fault f => simp [h3] at hc
      | ok p3 =>
        obtain ⟨r3, s3⟩ := p3
        simp only [h3, Run.ok.injEq, Prod.mk.injEq] at hc
        obtain ⟨hcr, hmd⟩ := hc
        subst hcr
        subst hmd
        have size_of : ∀ (a : LinearAllocator) (size al : Nat) (r : BufferSubAllocation)
            (a1 : LinearAllocator), a.allocateBytes size al = Run.ok (r, a1) →
            (r.size = size ∨ r.size = 0) := by
          intro a size al r a1 h
          obtain ⟨_, _, hcase⟩ := allocateBytes_cases a size al r a1 h
          rcases hcase with ⟨_, _, hr, _⟩ | ⟨_, _, hr, _⟩
          · left; rw [hr]
          · right; rw [hr]; rfl
        refine ⟨rfl, rfl, rfl, size_of _ _ _ _ _ h1, size_of _ _ _ _ _ h2,
          size_of _ _ _ _ _ h3, ?_, rfl⟩
        show s3.reset = md.m_staging.reset
        rw [allocateBytes_reset_eq _ _ _ _ _ h3, allocateBytes_reset_eq _ _ _ _ _ h2,
          allocateBytes_reset_eq _ _ _ _ _ h1]

/-- C18: when all allocations succeed (and the staging buffer is mapped),
`update` allocates for positions, attributes and indices a device-local
sub-allocation of exactly the byte length of the corresponding staging
sub-allocation, from `m_positions`, `m_attribs` and `m_indices` respectively,
plus one 24-byte sub-allocation from `m_infos` (and one from `m_staging` for the
record), and records a single copy of four regions, the i-th being (staging
offset, device-local offset, byte length of the staging sub-allocation). -/
theorem update_allocates_and_records_copy (md : MeshData) (cmd : Nat) (creator : Creator)
    (hs : md.updateSucceeds creator = true) (hmap : md.m_staging.m_mapped_ptr ≠ 0) :
    ∃ (res : UpdateResult) (dst_positions dst_attribs dst_indices dst_info src_info :
        BufferSubAllocation),
      md.update cmd creator = Run.ok res ∧
      md.m_positions.allocateBytes creator.src_positions.size 0
        = Run.ok (dst_positions, res.self.m_positions) ∧
      md.m_attribs.allocateBytes creator.src_attribs.size 0
        = Run.ok (dst_attribs, res.self.m_attribs) ∧
      md.m_indices.allocateBytes creator.src_indices.size 0
        = Run.ok (dst_indices, res.self.m_indices) ∧
      md.m_infos.allocate sizeof_MeshInfo alignof_MeshInfo 1
        = Run.ok (dst_info, res.self.m_infos) ∧
      md.m_staging.allocate sizeof_MeshInfo alignof_MeshInfo 1
        = Run.ok (src_info, res.self.m_staging) ∧
      dst_positions.size = creator.src_positions.size ∧
      dst_attribs.size = creator.src_attribs.size ∧
      dst_indices.size = creator.src_indices.size ∧
      dst_info.size = 24 ∧ src_info.size = 24 ∧
      res.cmds =
        [GpuCmd.vkCmdPipelineBarrier
           (VK_PIPELINE_STAGE_VERTEX_INPUT_BIT ||| VK_PIPELINE_STAGE_VERTEX_SHADER_BIT)
           VK_PIPELINE_STAGE_TRANSFER_BIT VK_ACCESS_NONE VK_ACCESS_TRANSFER_WRITE_BIT,
         GpuCmd.vkCmdCopyBuffer md.m_staging_buffer md.m_buffer
           [{ srcOffset := creator.src_positions.offset, dstOffset := dst_positions.offset,
              size := creator.src_positions.size },
            { srcOffset := creator.src_attribs.offset, dstOffset := dst_attribs.offset,
              size := creator.src_attribs.size },
            { srcOffset := creator.src_indices.offset, dstOffset := dst_indices.offset,
              size := creator.src_indices.size },
            { srcOffset := src_info.offset, dstOffset := dst_info.offset,
              size := src_info.size }],
         GpuCmd.vkCmdPipelineBarrier VK_PIPELINE_STAGE_TRANSFER_BIT
           (VK_PIPELINE_STAGE_VERTEX_INPUT_BIT ||| VK_PIPELINE_STAGE_VERTEX_SHADER_BIT)
           VK_ACCESS_TRANSFER_WRITE_BIT VK_ACCESS_SHADER_READ_BIT] := by
  obtain ⟨op, oa, oi, oinfo, osrc, r1, r2, r3, r4, r5, hu⟩ :=
    update_of_succeeds md cmd creator hs hmap
  have e24 : mul64 1 sizeof_MeshInfo = sizeof_MeshInfo := by decide
  refine ⟨_,
    { buffer := md.m_positions.m_buffer, offset := op, size := creator.src_positions.size,
      mapped_ptr := md.m_positions.m_mapped_ptr },
    { buffer := md.m_attribs.m_buffer, offset := oa, size := creator.src_attribs.size,
      mapped_ptr := md.m_attribs.m_mapped_ptr },
    { buffer := md.m_indices.m_buffer, offset := oi, size := creator.src_indices.size,
      mapped_ptr := md.m_indices.m_mapped_ptr },
    { buffer := md.m_infos.m_buffer, offset := oinfo, size := sizeof_MeshInfo,
      mapped_ptr := md.m_infos.m_mapped_ptr },
    { buffer := md.m_staging.m_buffer, offset := osrc, size := sizeof_MeshInfo,
      mapped_ptr := md.m_staging.m_mapped_ptr },
    hu, r1, r2, r3, ?_, ?_, rfl, rfl, rfl, rfl, rfl, rfl⟩
  · unfold LinearAllocator.allocate
    rw [e24]; exact r4
  · unfold LinearAllocator.allocate
    rw [e24]; exact r5

/-- Witness of C18: `update` for the triangle of `populateWorld`, after its
`create<V3f, VertexNormal>(3, 3)` has moved the staging cursor to 84. -/
theorem update_allocates_and_records_copy_witness :
    (exampleMeshData 84 0 16777216 33554432 37748736).updateSucceeds triangleCreator = true ∧
    ∃ res, (exampleMeshData 84 0 16777216 33554432 37748736).update 1 triangleCreator
      = Run.ok res :=
  ⟨by decide,
   let ⟨res, _, _, _, _, _, hu, _⟩ :=
     update_allocates_and_records_copy (exampleMeshData 84 0 16777216 33554432 37748736) 1
       triangleCreator (by decide) (by decide)
   ⟨res, hu⟩⟩

/-- The regions and alignments of the allocators of a well-formed `MeshData`. -/
theorem meshData_wf_fields (md : MeshData) (hwf : md.wf) :
    (md.m_staging.m_min_alignment = 4 ∧ md.m_staging.m_end = 8388608 ∧
      md.m_staging.m_mapped_ptr ≠ 0 ∧ md.m_staging.inv) ∧
    (md.m_positions.m_min_alignment = 4 ∧ md.m_positions.m_start = 0 ∧
      md.m_positions.m_end = 16777216 ∧ md.m_positions.inv) ∧
    (md.m_attribs.m_min_alignment = 4 ∧ md.m_attribs.m_start = 16777216 ∧
      md.m_attribs.m_end = 33554432 ∧ md.m_attribs.inv) ∧
    (md.m_indices.m_min_alignment = 4 ∧ md.m_indices.m_start = 33554432 ∧
      md.m_indices.m_end = 37748736 ∧ md.m_indices.inv) ∧
    (md.m_infos.m_min_alignment = 4 ∧ md.m_infos.m_start = 37748736 ∧
      md.m_infos.m_end = 37773312 ∧ md.m_infos.inv) := by
  obtain ⟨h1, hm, i1, h2, i2, h3, i3, h4, i4, h5, i5⟩ := hwf
  have f1 := congrArg LinearAllocator.m_min_alignment h1
  have f2 := congrArg LinearAllocator.m_end h1
  have g1 := congrArg LinearAllocator.m_min_alignment h2
  have g2 := congrArg LinearAllocator.m_start h2
  have g3 := congrArg LinearAllocator.m_end h2
  have k1 := congrArg LinearAllocator.m_min_alignment h3
  have k2 := congrArg LinearAllocator.m_start h3
  have k3 := congrArg LinearAllocator.m_end h3
  have l1 := congrArg LinearAllocator.m_min_alignment h4
  have l2 := congrArg LinearAllocator.m_start h4
  have l3 := congrArg LinearAllocator.m_end h4
  have n1 := congrArg LinearAllocator.m_min_alignment h5
  have n2 := congrArg LinearAllocator.m_start h5
  have n3 := congrArg LinearAllocator.m_end h5
  exact ⟨⟨f1, f2, hm, i1⟩, ⟨g1, g2, g3, i2⟩, ⟨k1, k2, k3, i3⟩, ⟨l1, l2, l3, i4⟩,
    ⟨n1, n2, n3, i5⟩⟩

/-- The size of a staging handle made by `create` from 32-bit counts and element
sizes is at most `(2 ^ 32 - 1) ^ 2`. -/
theorem creator_size_bound (count size sz : Nat) (hc : count < 2 ^ 32) (hs : size < 2 ^ 32)
    (h : sz = mul64 count size ∨ sz = 0) : sz ≤ 2 ^ 64 - 2 ^ 33 + 1 := by
  rcases h with h | h
  · have h1 : count * size ≤ (2 ^ 32 - 1) * (2 ^ 32 - 1) :=
      Nat.mul_le_mul (by omega) (by omega)
    have h2 : mul64 count size ≤ count * size := Nat.mod_le _ _
    rw [h]
    norm_num at h1 ⊢
    omega
  · rw [h]; norm_num

/-- The offset issued by a successful allocation on a well-formed device-local
allocator: the exact round-up of the cursor, inside the region. -/
theorem device_alloc_offset (a : LinearAllocator) (size alignment offset : Nat)
    (a1 : LinearAllocator) (hinv : a.inv) (hend : a.m_end ≤ 2 ^ 32)
    (hal : a.effectiveAlignment alignment = 4) (hsize : size ≤ 2 ^ 64 - 2 ^ 33 + 1)
    (hs : a.succeeds size alignment = true)
    (hret : a.allocateBytes size alignment
      = Run.ok ({ buffer := a.m_buffer, offset := offset, size := size,
                  mapped_ptr := a.m_mapped_ptr }, a1)) :
    a.m_start ≤ offset ∧ offset + size ≤ a.m_end := by
  obtain ⟨hret2, hge, _, hle⟩ := allocateBytes_small a size alignment hinv hend hal hsize hs
  rw [hret2] at hret
  injection hret with hret
  injection hret with h1 _
  injection h1 with _ ho _ _
  rw [← ho]
  exact ⟨le_trans hinv.1 hge, hle⟩

/-- C16: mesh commit round trip. After `create<PosT, AttribT>(V, I)` followed by
`update(cmd, creator)` with every allocation succeeding, applying the recorded
copy regions (positions, attributes, indices, record) to the device buffer
leaves at the returned handle a `MeshInfo` with `pos_data_stride = sizeof(PosT)`,
`attrib_data_stride = sizeof(AttribT)`, `index_count = I`, and with
`index_data_ptr`, `pos_data_ptr`, `attrib_data_ptr` equal to the destination
offsets of the index, position and attribute regions; the returned handle is
the destination offset of the record's region. The four destination ranges
follow each other without overlap. -/
theorem mesh_commit_round_trip (md : MeshData) (staging device : Mem)
    (cmd sP aP sA aA V I : Nat) (creator : Creator) (md1 : MeshData)
    (hwf : md.wf) (hsP : sP < 2 ^ 32) (hsA : sA < 2 ^ 32) (hV : V < 2 ^ 32) (hI : I < 2 ^ 32)
    (hc : md.create sP aP sA aA V I = Run.ok (creator, md1))
    (hus : md1.updateSucceeds creator = true) :
    ∃ (res : UpdateResult) (r1 r2 r3 r4 : VkBufferCopy),
      md1.update cmd creator = Run.ok res ∧
      res.cmds =
        [GpuCmd.vkCmdPipelineBarrier
           (VK_PIPELINE_STAGE_VERTEX_INPUT_BIT ||| VK_PIPELINE_STAGE_VERTEX_SHADER_BIT)
           VK_PIPELINE_STAGE_TRANSFER_BIT VK_ACCESS_NONE VK_ACCESS_TRANSFER_WRITE_BIT,
         GpuCmd.vkCmdCopyBuffer md.m_staging_buffer md.m_buffer [r1, r2, r3, r4],
         GpuCmd.vkCmdPipelineBarrier VK_PIPELINE_STAGE_TRANSFER_BIT
           (VK_PIPELINE_STAGE_VERTEX_INPUT_BIT ||| VK_PIPELINE_STAGE_VERTEX_SHADER_BIT)
           VK_ACCESS_TRANSFER_WRITE_BIT VK_ACCESS_SHADER_READ_BIT] ∧
      (r1.srcOffset = creator.src_positions.offset ∧ r1.size = creator.src_positions.size) ∧
      (r2.srcOffset = creator.src_attribs.offset ∧ r2.size = creator.src_attribs.size) ∧
      (r3.srcOffset = creator.src_indices.offset ∧ r3.size = creator.src_indices.size) ∧
      (r4.srcOffset = res.info_offset ∧ r4.size = 24) ∧
      res.handle = r4.dstOffset ∧
      readMeshInfo
          (deviceAfter md.m_staging_buffer md.m_buffer
            (writeMeshInfo staging res.info_offset res.info) res.cmds device)
          res.handle
        = { index_data_ptr := r3.dstOffset, pos_data_ptr := r1.dstOffset,
            pos_data_stride := sP, attrib_data_ptr := r2.dstOffset,
            attrib_data_stride := sA, index_count := I } ∧
      r1.dstOffset + r1.size ≤ r2.dstOffset ∧ r2.dstOffset + r2.size ≤ r3.dstOffset ∧
      r3.dstOffset + r3.size ≤ r4.dstOffset := by
  obtain ⟨⟨_, _, hmap, _⟩, ⟨p1, p2, p3, p4⟩, ⟨a1, a2, a3, a4⟩, ⟨i1, i2, i3, i4⟩,
    ⟨n1, n2, n3, n4⟩⟩ := meshData_wf_fields md hwf
  obtain ⟨c1, c2, c3, z1, z2, z3, hres, hmd1⟩ := create_inv md sP aP sA aA V I creator md1 hc
  have hp : md1.m_positions = md.m_positions := by rw [hmd1]
  have ha : md1.m_attribs = md.m_attribs := by rw [hmd1]
  have hi : md1.m_indices = md.m_indices := by rw [hmd1]
  have hn : md1.m_infos = md.m_infos := by rw [hmd1]
  have hsb : md1.m_staging_buffer = md.m_staging_buffer := by rw [hmd1]
  have hb : md1.m_buffer = md.m_buffer := by rw [hmd1]
  have hmap1 : md1.m_staging.m_mapped_ptr ≠ 0 := by
    have := congrArg LinearAllocator.m_mapped_ptr hres
    simp only [LinearAllocator.reset] at this
    rw [this]; exact hmap
  obtain ⟨op, oa, oi, oinfo, osrc, r1, r2, r3, r4, _, hu⟩ :=
    update_of_succeeds md1 cmd creator hus hmap1
  have hus2 := hus
  simp only [MeshData.updateSucceeds, Bool.and_eq_true] at hus2
  obtain ⟨⟨⟨⟨s1, s2⟩, s3⟩, s4⟩, _⟩ := hus2
  have e24 : mul64 1 sizeof_MeshInfo = sizeof_MeshInfo := by decide
  rw [e24] at s4
  rw [hp] at r1 s1
  rw [ha] at r2 s2
  rw [hi] at r3 s3
  rw [hn] at r4 s4
  have bz1 := creator_size_bound V sP _ hV hsP z1
  have bz2 := creator_size_bound V sA _ hV hsA z2
  have bz3 := creator_size_bound I 4 _ hI (by norm_num) z3
  have ea : ∀ a : LinearAllocator, a.m_min_alignment = 4 → a.effectiveAlignment 0 = 4 := by
    intro a h; simp [LinearAllocator.effectiveAlignment, h]
  obtain ⟨d1, d2⟩ := device_alloc_offset md.m_positions _ 0 op _ p4 (by rw [p3]; norm_num)
    (ea _ p1) bz1 s1 r1
  obtain ⟨d3, d4⟩ := device_alloc_offset md.m_attribs _ 0 oa _ a4 (by rw [a3]; norm_num)
    (ea _ a1) bz2 s2 r2
  obtain ⟨d5, d6⟩ := device_alloc_offset md.m_indices _ 0 oi _ i4 (by rw [i3]; norm_num)
    (ea _ i1) bz3 s3 r3
  obtain ⟨d7, d8⟩ := device_alloc_offset md.m_infos sizeof_MeshInfo alignof_MeshInfo oinfo _ n4
    (by rw [n3]; norm_num) (by simp [LinearAllocator.effectiveAlignment, alignof_MeshInfo])
    (by norm_num [sizeof_MeshInfo]) s4 r4
  rw [p2, p3] at *
  rw [a2, a3] at *
  rw [i2, i3] at *
  rw [n2, n3] at *
  have e24' : sizeof_MeshInfo = 24 := rfl
  rw [e24'] at d8
  have lop : op % 2 ^ 32 = op := Nat.mod_eq_of_lt (by omega)
  have loa : oa % 2 ^ 32 = oa := Nat.mod_eq_of_lt (by omega)
  have loi : oi % 2 ^ 32 = oi := Nat.mod_eq_of_lt (by omega)
  have lon : oinfo % 2 ^ 32 = oinfo := Nat.mod_eq_of_lt (by omega)
  rw [hsb, hb] at hu
  refine ⟨_, { srcOffset := creator.src_positions.offset, dstOffset := op,
               size := creator.src_positions.size },
    { srcOffset := creator.src_attribs.offset, dstOffset := oa,
      size := creator.src_attribs.size },
    { srcOffset := creator.src_indices.offset, dstOffset := oi,
      size := creator.src_indices.size },
    { srcOffset := osrc, dstOffset := oinfo, size := sizeof_MeshInfo },
    hu, rfl, ⟨rfl, rfl⟩, ⟨rfl, rfl⟩, ⟨rfl, rfl⟩, ⟨rfl, rfl⟩, lon, ?_, d2.trans d3 |>.trans
      (le_refl _), ?_, ?_⟩
  · show readMeshInfo _ (oinfo % 2 ^ 32) = _
    rw [lon]
    have hdev : ∀ k, k < 24 →
        deviceAfter md.m_staging_buffer md.m_buffer
            (writeMeshInfo staging osrc
              { index_data_ptr := oi % 2 ^ 32, pos_data_ptr := op % 2 ^ 32,
                pos_data_stride := creator.position_size, attrib_data_ptr := oa % 2 ^ 32,
                attrib_data_stride := creator.attrib_size,
                index_count := creator.index_count })
            [GpuCmd.vkCmdPipelineBarrier
               (VK_PIPELINE_STAGE_VERTEX_INPUT_BIT ||| VK_PIPELINE_STAGE_VERTEX_SHADER_BIT)
               VK_PIPELINE_STAGE_TRANSFER_BIT VK_ACCESS_NONE VK_ACCESS_TRANSFER_WRITE_BIT,
             GpuCmd.vkCmdCopyBuffer md.m_staging_buffer md.m_buffer
               ([{ srcOffset := creator.src_positions.offset, dstOffset := op,
                   size := creator.src_positions.size },
                 { srcOffset := creator.src_attribs.offset, dstOffset := oa,
                   size := creator.src_attribs.size },
                 { srcOffset := creator.src_indices.offset, dstOffset := oi,
                   size := creator.src_indices.size }] ++
                [{ srcOffset := osrc, dstOffset := oinfo, size := sizeof_MeshInfo }]),
             GpuCmd.vkCmdPipelineBarrier VK_PIPELINE_STAGE_TRANSFER_BIT
               (VK_PIPELINE_STAGE_VERTEX_INPUT_BIT ||| VK_PIPELINE_STAGE_VERTEX_SHADER_BIT)
               VK_ACCESS_TRANSFER_WRITE_BIT VK_ACCESS_SHADER_READ_BIT]
            device (oinfo + k)
          = writeMeshInfo staging osrc
              { index_data_ptr := oi % 2 ^ 32, pos_data_ptr := op % 2 ^ 32,
                pos_data_stride := creator.position_size, attrib_data_ptr := oa % 2 ^ 32,
                attrib_data_stride := creator.attrib_size,
                index_count := creator.index_count } (osrc + k) := by
      intro k hk
      simp only [deviceAfter, List.foldl_cons, List.foldl_nil, and_self, if_true]
      rw [copyRegions_last _ _ _ _ _ ⟨by simp, by simp [sizeof_MeshInfo]; omega⟩]
      simp
    refine (readMeshInfo_congr _ _ oinfo osrc hdev).trans ?_
    rw [readMeshInfo_writeMeshInfo _ _ _ (Nat.mod_lt _ (by norm_num))
      (Nat.mod_lt _ (by norm_num)) (by rw [c1]; exact Nat.mod_lt _ (by norm_num))
      (Nat.mod_lt _ (by norm_num)) (by rw [c2]; exact Nat.mod_lt _ (by norm_num))
      (by rw [c3]; exact hI)]
    rw [loi, lop, loa, c1, c2, c3, Nat.mod_eq_of_lt hsP, Nat.mod_eq_of_lt hsA]
  · show oa + creator.src_attribs.size ≤ oi
    omega
  · show oi + creator.src_indices.size ≤ oinfo
    omega

/-- Witness of C16: the triangle of `populateWorld` on the freshly constructed
`MeshData`: the record read back at the handle has strides 12 and 12 and index
count 3. -/
theorem mesh_commit_round_trip_witness :
    (MeshData.constructed 7 4096 9).wf ∧
    (MeshData.constructed 7 4096 9).create 12 4 12 4 3 3
      = Run.ok (triangleCreator, exampleMeshData 84 0 16777216 33554432 37748736) ∧
    ∃ res, (exampleMeshData 84 0 16777216 33554432 37748736).update 1 triangleCreator
        = Run.ok res ∧
      (readMeshInfo
        (deviceAfter 7 9 (writeMeshInfo (fun _ => 0) res.info_offset res.info) res.cmds
          (fun _ => 0)) res.handle).index_count = 3 :=
  ⟨by decide, by decide,
   let ⟨res, _, _, _, _, hu, _, _, _, _, _, _, hread, _⟩ :=
     mesh_commit_round_trip (MeshData.constructed 7 4096 9) (fun _ => 0) (fun _ => 0)
       1 12 4 12 4 3 3 triangleCreator (exampleMeshData 84 0 16777216 33554432 37748736)
       (by decide) (by decide) (by decide) (by decide) (by decide) (by decide) (by decide)
   ⟨res, hu, congrArg MeshInfo.index_count hread⟩⟩

/-- The handle returned by `update` is the (truncated) offset issued by
`m_infos.allocate<MeshInfo>()`, and `m_infos` afterwards is the allocator after
that allocation. -/
theorem update_handle (md : MeshData) (cmd : Nat) (creator : Creator) (res : UpdateResult)
    (h : md.update cmd creator = Run.ok res) :
    ∃ dst_info, md.m_infos.allocateBytes 24 4 = Run.ok (dst_info, res.self.m_infos) ∧
      res.handle = dst_info.offset % 2 ^ 32 := by
  unfold MeshData.update LinearAllocator.allocate at h
  have e24 : mul64 1 sizeof_MeshInfo = 24 := by decide
  have e4 : alignof_MeshInfo = 4 := rfl
  rw [e24, e4] at h
  cases h1 : md.m_positions.allocateBytes creator.src_positions.size 0 with
  | fault f => simp [h1] at h
  | ok p1 =>
    obtain ⟨r1, s1⟩ := p1
    simp only [h1] at h
    cases h2 : md.m_attribs.allocateBytes creator.src_attribs.size 0 with
    | fault f => simp [h2] at h
    | ok p2 =>
      obtain ⟨r2, s2⟩ := p2
      simp only [h2] at h
      cases h3 : md.m_indices.allocateBytes creator.src_indices.size 0 with
      | fault f => simp [h3] at h
      | ok p3 =>
        obtain ⟨r3, s3⟩ := p3
        simp only [h3] at h
        cases h4 : md.m_infos.allocateBytes 24 4 with
        | fault f => simp [h4] at h
        | ok p4 =>
          obtain ⟨r4, s4⟩ := p4
          simp only [h4] at h
          cases h5 : md.m_staging.allocateBytes 24 4 with
          | fault f => simp [h5] at h
          | ok p5 =>
            obtain ⟨r5, s5⟩ := p5
            simp only [h5] at h
            by_cases hm : r5.mapped_ptr = 0
            · simp [hm] at h
            · simp only [hm, if_false, Run.ok.injEq] at h
              subst h
              exact ⟨r4, rfl, rfl⟩

/-- `create` does not touch `m_infos`. -/
theorem create_infos (md : MeshData) (sP aP sA aA V I : Nat) (creator : Creator)
    (md1 : MeshData) (hc : md.create sP aP sA aA V I = Run.ok (creator, md1)) :
    md1.m_infos = md.m_infos := by
  have h := (create_inv md sP aP sA aA V I creator md1 hc).2.2.2.2.2.2.2
  rw [h]

/-- The `n`-th allocation of a `MeshInfo` from the info allocator: while `n` is
below 1024 it is issued at `37748736 + 24 * n`; the cursor counts the
allocations up to 1024. -/
theorem infos_allocate_nth (a : LinearAllocator) (n : Nat) (r : BufferSubAllocation)
    (a1 : LinearAllocator) (hal : a.m_min_alignment = 4) (hend : a.m_end = 37773312)
    (hcur : a.m_cur = 37748736 + 24 * min n 1024)
    (h : a.allocateBytes 24 4 = Run.ok (r, a1)) :
    (n < 1024 → r.offset = 37748736 + 24 * n) ∧ a1.m_min_alignment = 4 ∧
      a1.m_end = 37773312 ∧ a1.m_cur = 37748736 + 24 * min (n + 1) 1024 := by
  have heff : a.effectiveAlignment 4 = 4 := by simp [LinearAllocator.effectiveAlignment]
  have hexact : alignUpExact a.m_cur 4 = a.m_cur := by
    unfold alignUpExact
    have : a.m_cur % 4 = 0 := by omega
    simp [this]
  have hno : a.exactEnd 24 4 < 2 ^ 64 := by
    unfold LinearAllocator.exactEnd
    rw [heff, hexact]
    omega
  obtain ⟨hex, hadd⟩ := alignUp_cur_of_exactEnd_lt a 24 4 (by rw [heff]; omega) hno
  unfold LinearAllocator.exactEnd at hadd
  rw [heff, hexact] at hex hadd
  obtain ⟨offset, ho, hcase⟩ := allocateBytes_cases a 24 4 r a1 h
  rw [heff, hex] at ho
  injection ho with ho
  subst ho
  rw [hadd] at hcase
  rcases hcase with ⟨_, hle, hr, ha1⟩ | ⟨_, hgt, hr, ha1⟩
  · subst hr ha1
    refine ⟨fun hn => ?_, hal, hend, ?_⟩
    · show a.m_cur = _
      omega
    · show a.m_cur + 24 = _
      omega
  · subst hr ha1
    refine ⟨fun hn => ?_, hal, hend, ?_⟩
    · omega
    · omega

/-- The handles of a run of `create` and `update` calls that starts after `n`
updates. -/
theorem runOps_handles (ops : List MeshOp) :
    ∀ (md : MeshData) (n : Nat) (handles : List Nat) (md1 : MeshData),
      md.m_infos.m_min_alignment = 4 → md.m_infos.m_end = 37773312 →
      md.m_infos.m_cur = 37748736 + 24 * min n 1024 →
      md.runOps ops = Run.ok (handles, md1) →
      ∀ k, k < handles.length → n + k < 1024 →
        handles[k]? = some (37748736 + 24 * (n + k)) := by
  induction ops with
  | nil =>
    intro md n handles md1 _ _ _ h k hk _
    simp only [MeshData.runOps, Run.ok.injEq, Prod.mk.injEq] at h
    rw [← h.1] at hk
    simp at hk
  | cons op ops ih =>
    intro md n handles md1 hal hend hcur h k hk hn
    cases op with
    | create sp ap sa aa v i =>
      simp only [MeshData.runOps] at h
      cases hc : md.create sp ap sa aa v i with
      | fault f => simp [hc] at h
      | ok p =>
        obtain ⟨c, md2⟩ := p
        simp only [hc] at h
        have hi := create_infos md sp ap sa aa v i c md2 hc
        exact ih md2 n handles md1 (by rw [hi]; exact hal) (by rw [hi]; exact hend)
          (by rw [hi]; exact hcur) h k hk hn
    | update cmd creator =>
      simp only [MeshData.runOps] at h
      cases hu : md.update cmd creator with
      | fault f => simp [hu] at h
      | ok res =>
        simp only [hu] at h
        cases hr : res.self.runOps ops with
        | fault f => simp [hr] at h
        | ok q =>
          obtain ⟨hs, mdq⟩ := q
          simp only [hr, Run.ok.injEq, Prod.mk.injEq] at h
          obtain ⟨hh, _⟩ := h
          subst hh
          obtain ⟨dinfo, hd, hres⟩ := update_handle md cmd creator res hu
          obtain ⟨ho, a1, a2, a3⟩ :=
            infos_allocate_nth md.m_infos n dinfo res.self.m_infos hal hend hcur hd
          cases k with
          | zero =>
            have hoff := ho (by omega)
            simp only [List.getElem?_cons_zero, Option.some.injEq, Nat.add_zero]
            rw [hres, hoff]
            exact Nat.mod_eq_of_lt (by omega)
          | succ k =>
            simp only [List.length_cons] at hk
            have := ih res.self (n + 1) hs mdq a1 a2 a3 hr k (by omega) (by omega)
            simp only [List.getElem?_cons_succ]
            rw [this]
            congr 1
            omega

/-- C17: mesh descriptor records are stored contiguously. On a freshly
constructed `MeshData`, in every run of `create` and `update` calls that
returns, the k-th call of `update` (k = 0, ..., 1023) returns the handle
`PositionBufferSize + AttribBufferSize + IndexBufferSize + 24 * k
= 37748736 + 24 * k`; so consecutive handles are `sizeof(MeshInfo) = 24` bytes
apart and every record lies in the info region `[37748736, 37773312)`. -/
theorem update_handles_contiguous (staging_buffer mapped buffer : Nat) (ops : List MeshOp)
    (handles : List Nat) (md : MeshData)
    (hrun : (MeshData.constructed staging_buffer mapped buffer).runOps ops
      = Run.ok (handles, md)) :
    MeshData.PositionBufferSize + MeshData.AttribBufferSize + MeshData.IndexBufferSize
        = 37748736 ∧
    ∀ k, k < handles.length → k < 1024 →
      handles[k]? = some (37748736 + 24 * k) ∧
      (MeshData.constructed staging_buffer mapped buffer).m_infos.m_start ≤ 37748736 + 24 * k ∧
      37748736 + 24 * k + sizeof_MeshInfo
        ≤ (MeshData.constructed staging_buffer mapped buffer).m_infos.m_end := by
  refine ⟨by decide, ?_⟩
  intro k hk hlt
  have h := runOps_handles ops (MeshData.constructed staging_buffer mapped buffer) 0 handles md
    rfl rfl rfl hrun k hk (by omega)
  rw [Nat.zero_add] at h
  refine ⟨h, ?_, ?_⟩
  · show 37748736 ≤ _
    omega
  · show _ + 24 ≤ 37773312
    omega

/-- Witness of C17: the triangle, the disk and the tetrahedron of
`populateWorld` get the handles 37748736, 37748760 and 37748784. -/
theorem update_handles_contiguous_witness :
    (MeshData.constructed 7 4096 9).runOps populateWorldOps
      = Run.ok ([37748736, 37748760, 37748784],
          exampleMeshData 1956 672 16777888 33554972 37748808) ∧
    [37748736, 37748760, 37748784][0]? = some (37748736 + 24 * 0) ∧
    [37748736, 37748760, 37748784][1]? = some (37748736 + 24 * 1) ∧
    [37748736, 37748760, 37748784][2]? = some (37748736 + 24 * 2) :=
  ⟨by decide,
   ((update_handles_contiguous 7 4096 9 populateWorldOps [37748736, 37748760, 37748784]
      (exampleMeshData 1956 672 16777888 33554972 37748808) (by decide)).2 0
      (by decide) (by decide)).1,
   ((update_handles_contiguous 7 4096 9 populateWorldOps [37748736, 37748760, 37748784]
      (exampleMeshData 1956 672 16777888 33554972 37748808) (by decide)).2 1
      (by decide) (by decide)).1,
   ((update_handles_contiguous 7 4096 9 populateWorldOps [37748736, 37748760, 37748784]
      (exampleMeshData 1956 672 16777888 33554972 37748808) (by decide)).2 2
      (by decide) (by decide)).1⟩

/-! ## `World` -/

/-- C20: `World::addInstance(transform, mesh)` is append-only: the number of
instances grows by exactly one, the new last record has `mesh_info_ptr = mesh`
and `transform` equal to the transpose of the argument, every previously stored
record keeps its position and contents, and `m_view_proj` is untouched. -/
theorem addInstance_appends (w : World) (transform : M44f) (mesh : Nat) :
    (w.addInstance transform mesh).m_instances.length = w.m_instances.length + 1 ∧
    (w.addInstance transform mesh).m_instances.getLast?
      = some { transform := transpose transform, mesh_info_ptr := mesh } ∧
    (∀ i, i < w.m_instances.length →
      (w.addInstance transform mesh).m_instances[i]? = w.m_instances[i]?) ∧
    (w.addInstance transform mesh).m_instances
      = w.m_instances ++ [{ transform := transpose transform, mesh_info_ptr := mesh }] ∧
    (w.addInstance transform mesh).m_view_proj = w.m_view_proj := by
  refine ⟨?_, ?_, ?_, rfl, rfl⟩
  · simp [World.addInstance]
  · simp [World.addInstance]
  · intro i hi
    simp only [World.addInstance]
    exact List.getElem?_append_left hi

/-- Witness of C20: adding an instance of mesh 37748784 to a world that holds
one instance. -/
theorem addInstance_appends_witness :
    (World.addInstance
        { m_view_proj := { i := { x := 1, y := 0, z := 0, w := 0 },
                           j := { x := 0, y := 1, z := 0, w := 0 },
                           k := { x := 0, y := 0, z := 1, w := 0 },
                           l := { x := 0, y := 0, z := 0, w := 1 } },
          m_instances := [{ transform := { i := { x := 1, y := 2, z := 3, w := 4 },
                                           j := { x := 5, y := 6, z := 7, w := 8 },
                                           k := { x := 9, y := 10, z := 11, w := 12 },
                                           l := { x := 13, y := 14, z := 15, w := 16 } },
                            mesh_info_ptr := 37748736 }] }
        { i := { x := 1, y := 2, z := 3, w := 0 },
          j := { x := 4, y := 5, z := 6, w := 0 },
          k := { x := 7, y := 8, z := 9, w := 0 },
          l := { x := 10, y := 11, z := 12, w := 1 } }
        37748784).m_instances[0]?
      = some { transform := { i := { x := 1, y := 2, z := 3, w := 4 },
                              j := { x := 5, y := 6, z := 7, w := 8 },
                              k := { x := 9, y := 10, z := 11, w := 12 },
                              l := { x := 13, y := 14, z := 15, w := 16 } },
               mesh_info_ptr := 37748736 } :=
  (addInstance_appends _ _ 37748784).2.2.1 0 (by decide)

/-! ## `DrawWorldPipeline::execute` and the ring of frame slots -/

/-- The readback pointer of slot `i` set up by the constructor is the byte
offset `16 * i` of the readback mapping. -/
theorem frameAt_setup_readback (p : DrawWorldPipeline) (a : Nat) (sets : List Nat) (i : Nat)
    (hframes : p.m_frames = DrawWorldPipeline.setupFrames a sets) (hi : i < 3) :
    (p.frameAt i).draw_cmd_readback = 16 * i := by
  unfold DrawWorldPipeline.frameAt
  rw [hframes]
  have h3 : DrawWorldPipeline.setupFrames a sets
      = [DrawWorldPipeline.frameSetup a sets 0, DrawWorldPipeline.frameSetup a sets 1,
         DrawWorldPipeline.frameSetup a sets 2] := rfl
  rw [h3]
  rcases (by omega : i = 0 ∨ i = 1 ∨ i = 2) with h | h | h <;> subst h <;> rfl

/-- The object after `execute`: only the frame counter changes, by one modulo
`2 ^ 32`. -/
theorem execute_self (p : DrawWorldPipeline) (world : World) (cmd : Nat) (rt : RenderTarget)
    (readback : Mem) :
    (p.execute world cmd rt readback).self
      = { p with m_frame_index := (p.m_frame_index + 1) % 2 ^ 32 } := rfl

/-- The frame counter after `n` calls of `execute`. -/
theorem afterCalls_eq (p : DrawWorldPipeline) (world : World) (n : Nat)
    (h : p.m_frame_index < 2 ^ 32) :
    p.afterCalls world n = { p with m_frame_index := (p.m_frame_index + n) % 2 ^ 32 } := by
  induction n with
  | zero =>
    simp only [DrawWorldPipeline.afterCalls, Nat.add_zero]
    rw [Nat.mod_eq_of_lt h]
  | succ n ih =>
    simp only [DrawWorldPipeline.afterCalls, ih, execute_self]
    congr 1
    omega

/-- Below the wrap of the frame counter, a call records against slot
`m_frame_index % 3` and returns the `instanceCount` stored in the readback
region of the next slot `(m_frame_index + 1) % 3`, which is a different slot. -/
theorem execute_below_wrap (p : DrawWorldPipeline) (a : Nat) (sets : List Nat) (world : World)
    (cmd : Nat) (rt : RenderTarget) (readback : Mem)
    (hframes : p.m_frames = DrawWorldPipeline.setupFrames a sets)
    (h : p.m_frame_index + 1 < 2 ^ 32) :
    (p.execute world cmd rt readback).ret
      = readU32 readback (16 * ((p.m_frame_index + 1) % 3) + 4) ∧
    GpuCmd.vkCmdCopyBuffer p.m_draw_cmds.handle p.m_readback.handle
        [{ srcOffset := 16 * (p.m_frame_index % 3), dstOffset := 16 * (p.m_frame_index % 3),
           size := 16 }] ∈ (p.execute world cmd rt readback).cmds ∧
    (p.m_frame_index + 1) % 3 ≠ p.m_frame_index % 3 ∧
    (p.execute world cmd rt readback).self.buffer_index = (p.buffer_index + 1) % 3 := by
  have hm : (p.m_frame_index + 1) % 2 ^ 32 = p.m_frame_index + 1 := Nat.mod_eq_of_lt h
  have hmul : mul64 (p.m_frame_index % 3) sizeof_VkDrawIndirectCommand
      = 16 * (p.m_frame_index % 3) := by
    unfold mul64 sizeof_VkDrawIndirectCommand
    rw [Nat.mod_eq_of_lt (by omega)]
    omega
  refine ⟨?_, ?_, by omega, ?_⟩
  · show readU32 readback ((p.frameAt (((p.m_frame_index + 1) % 2 ^ 32) % 3)).draw_cmd_readback
        + offsetof_instanceCount) = _
    rw [hm, frameAt_setup_readback p a sets _ hframes (by omega)]
    rfl
  · simp only [DrawWorldPipeline.execute, hmul, List.mem_cons]
    simp [sizeof_VkDrawIndirectCommand]
  · simp only [execute_self, DrawWorldPipeline.buffer_index, hm]
    omega

/-- C13 (evaluation at the failing input): the pipeline reaches
`m_frame_index = 4294967295` after 4294967295 calls (K = 4294967295, counted
from 0). That call records against slot 0 (its readback copy goes to readback
offset 0), the increment wraps the 32-bit counter to 0, and the call returns the
`instanceCount` of the readback region of slot 0, the slot it has just recorded
into (100 here), not that of slot (K + 1) mod 3 = 1 (101 here). -/
theorem execute_returns_own_slot_at_wrap :
    (examplePipeline 0).afterCalls emptyWorld 4294967295 = examplePipeline 4294967295 ∧
    (examplePipeline 4294967295).buffer_index = 0 ∧
    GpuCmd.vkCmdCopyBuffer 5 7 [{ srcOffset := 0, dstOffset := 0, size := 16 }]
      ∈ ((examplePipeline 4294967295).execute emptyWorld 1 exampleRenderTarget
          (fun a => if a = 4 then 100 else if a = 20 then 101 else if a = 36 then 102 else 0)).cmds ∧
    ((examplePipeline 4294967295).execute emptyWorld 1 exampleRenderTarget
        (fun a => if a = 4 then 100 else if a = 20 then 101 else if a = 36 then 102 else 0)).ret
      = 100 ∧
    (4294967295 + 1) % 3 = 1 := by
  refine ⟨?_, by decide, by decide, by decide, by decide⟩
  rw [afterCalls_eq _ _ _ (by decide)]
  rfl

/-- C15 (evaluation at the failing input): with `m_frame_index = 4294967295` a
call uses ring slot 0, the increment wraps the 32-bit counter to 0, and the next
call uses slot 0 again; and a call with `m_frame_index = 4294967293` uses slot 1
while the call three calls later uses slot 0. -/
theorem ring_slot_repeats_at_wrap :
    (examplePipeline 4294967295).buffer_index = 0 ∧
    ((examplePipeline 4294967295).execute emptyWorld 1 exampleRenderTarget
      (fun _ => 0)).self.buffer_index = 0 ∧
    (examplePipeline 4294967293).buffer_index = 1 ∧
    ((examplePipeline 4294967293).afterCalls emptyWorld 3).buffer_index = 0 := by
  decide

/-! ## Ring lag -/

/-- What the GPU stores when it has executed the commands of one `execute`
call: the `instanceCount` word of the readback region of slot
`m_frame_index % 3`. -/
theorem gpuCompleteFrame_execute (p : DrawWorldPipeline) (world : World) (cmd : Nat)
    (rt : RenderTarget) (readback mem : Mem) (count : Nat) :
    gpuCompleteFrame p.m_readback.handle count (p.execute world cmd rt readback).cmds mem
      = writeU32 mem (16 * (p.m_frame_index % 3) + 4) count := by
  have hmul : mul64 (p.m_frame_index % 3) sizeof_VkDrawIndirectCommand
      = 16 * (p.m_frame_index % 3) := by
    unfold mul64 sizeof_VkDrawIndirectCommand
    rw [Nat.mod_eq_of_lt (by omega)]
    omega
  simp [gpuCompleteFrame, DrawWorldPipeline.execute, DrawWorldPipeline.buffer_index, hmul,
    offsetof_instanceCount]

/-- The values returned by a run of frames that stays below the wrap of the
frame counter: the two words initially in the readback regions of the next two
slots, then the counts of the frames in order. -/
theorem runFrames_below_wrap (a : Nat) (sets : List Nat) (world : World) (cmd : Nat)
    (rt : RenderTarget) (counts : List Nat) :
    ∀ (p : DrawWorldPipeline) (mem : Mem),
      p.m_frames = DrawWorldPipeline.setupFrames a sets →
      p.m_frame_index + counts.length < 2 ^ 32 →
      (∀ c ∈ counts, c < 2 ^ 32) →
      runFrames world cmd rt p mem counts
        = (readU32 mem (16 * ((p.m_frame_index + 1) % 3) + 4) ::
            readU32 mem (16 * ((p.m_frame_index + 2) % 3) + 4) :: counts).take counts.length := by
  induction counts with
  | nil => intro p mem _ _ _; rfl
  | cons c cs ih =>
    intro p mem hframes hlen hc
    simp only [List.length_cons] at hlen
    have hm : (p.m_frame_index + 1) % 2 ^ 32 = p.m_frame_index + 1 :=
      Nat.mod_eq_of_lt (by omega)
    have hret := (execute_below_wrap p a sets world cmd rt mem hframes (by omega)).1
    have hc0 : c < 2 ^ 32 := hc c (List.mem_cons_self _ _)
    have hcs : ∀ x ∈ cs, x < 2 ^ 32 := fun x hx => hc x (List.mem_cons_of_mem _ hx)
    have hstep := ih (p.execute world cmd rt mem).self
      (gpuCompleteFrame p.m_readback.handle c (p.execute world cmd rt mem).cmds mem)
      (by rw [execute_self]; exact hframes)
      (by rw [execute_self]; show (p.m_frame_index + 1) % 2 ^ 32 + cs.length < 2 ^ 32; omega)
      hcs
    have hidx : (p.execute world cmd rt mem).self.m_frame_index = p.m_frame_index + 1 := by
      rw [execute_self]; exact hm
    rw [hidx, gpuCompleteFrame_execute] at hstep
    have h1 : readU32 (writeU32 mem (16 * (p.m_frame_index % 3) + 4) c)
        (16 * ((p.m_frame_index + 1 + 1) % 3) + 4)
        = readU32 mem (16 * ((p.m_frame_index + 2) % 3) + 4) := by
      rw [readU32_writeU32_other _ _ _ _ (by omega)]
    have h2 : readU32 (writeU32 mem (16 * (p.m_frame_index % 3) + 4) c)
        (16 * ((p.m_frame_index + 1 + 2) % 3) + 4) = c := by
      have e : (p.m_frame_index + 1 + 2) % 3 = p.m_frame_index % 3 := by omega
      rw [e, readU32_writeU32_same _ _ _ hc0]
    rw [h1, h2] at hstep
    show (p.execute world cmd rt mem).ret ::
        runFrames world cmd rt (p.execute world cmd rt mem).self
          (gpuCompleteFrame p.m_readback.handle c (p.execute world cmd rt mem).cmds mem) cs = _
    rw [gpuCompleteFrame_execute, hstep, hret]
    simp [List.take_succ_cons]

/-- C14 (counterexample): with the counts 100, 101, ... of frames 0, 1, ... and
a GPU that completes each frame before the next call, `execute` returns 103 at
frame 5: the count of frame 3, neither the count 102 of frame 5 - 3 nor the
count 104 of frame 5 - 1. -/
theorem ring_lag_is_two_frames_example :
    (runFrames emptyWorld 1 exampleRenderTarget (examplePipeline 0) (fun _ => 0)
        [100, 101, 102, 103, 104, 105])[5]? = some 103 ∧
    [100, 101, 102, 103, 104, 105][5 - 3]? = some 102 ∧
    [100, 101, 102, 103, 104, 105][5 - 1]? = some 104 ∧
    [100, 101, 102, 103, 104, 105][5 - 2]? = some 103 := by
  decide

/-- C14 (amended): for a pipeline with the constructor's frame slots and frame
counter 0, and a GPU that completes each frame before the next call, the value
`execute` returns at frame `K`, for `2 ≤ K` below the wrap of the frame
counter, is the count computed by the GPU for frame `K - 2` (ring depth minus
one); it does not depend on the counts of frame `K - 1` or of frame `K`. -/
theorem ring_lag_two_frames (p : DrawWorldPipeline) (a : Nat) (sets : List Nat) (world : World)
    (cmd : Nat) (rt : RenderTarget) (mem : Mem) (counts : List Nat) (K : Nat)
    (hframes : p.m_frames = DrawWorldPipeline.setupFrames a sets)
    (hindex : p.m_frame_index = 0)
    (hlen : counts.length < 2 ^ 32)
    (hcounts : ∀ c ∈ counts, c < 2 ^ 32)
    (h2 : 2 ≤ K) (hK : K < counts.length) :
    (runFrames world cmd rt p mem counts)[K]? = counts[K - 2]? := by
  rw [runFrames_below_wrap a sets world cmd rt counts p mem hframes (by omega) hcounts]
  obtain ⟨k, rfl⟩ : ∃ k, K = k + 2 := ⟨K - 2, by omega⟩
  rw [List.getElem?_take_of_lt hK]
  simp

/-- Witness for `ring_lag_two_frames` at the example pipeline, six frames with
counts 100 to 105, and frame 5. -/
theorem ring_lag_two_frames_witness :
    (runFrames emptyWorld 1 exampleRenderTarget (examplePipeline 0) (fun _ => 0)
        [100, 101, 102, 103, 104, 105])[5]? = [100, 101, 102, 103, 104, 105][5 - 2]? :=
  ring_lag_two_frames (examplePipeline 0) 256 [10, 11, 12, 13, 14, 15, 16] emptyWorld 1
    exampleRenderTarget (fun _ => 0) [100, 101, 102, 103, 104, 105] 5 rfl rfl (by decide)
    (by decide) (by decide) (by decide)

/-! ## The Cull pass -/

/-- The instance count after the threads of `schedule` have taken effect: the
count before plus the number of threads whose instance is visible, as a
`uint32_t`. -/
theorem cullPass_instanceCount (visible : Instance → Bool) (schedule : List (Nat × Instance)) :
    ∀ s : CullState, s.draw_cmd.instanceCount < 2 ^ 32 →
      (cullPass visible schedule s).draw_cmd.instanceCount
        = (s.draw_cmd.instanceCount + schedule.countP (fun t => visible t.2)) % 2 ^ 32 := by
  induction schedule with
  | nil =>
    intro s hs
    simp only [cullPass, List.foldl_nil, List.countP_nil, Nat.add_zero]
    exact (Nat.mod_eq_of_lt hs).symm
  | cons t ts ih =>
    intro s hs
    show (cullPass visible ts (cullThread visible s t)).draw_cmd.instanceCount = _
    by_cases hv : visible t.2 = true
    · have hthread : (cullThread visible s t).draw_cmd.instanceCount
          = (s.draw_cmd.instanceCount + 1) % 2 ^ 32 := by
        simp [cullThread, hv]
      have hcount : (t :: ts).countP (fun t => visible t.2)
          = ts.countP (fun t => visible t.2) + 1 :=
        List.countP_cons_of_pos (fun t => visible t.2) ts hv
      rw [ih _ (by rw [hthread]; omega), hthread, hcount]
      omega
    · have hthread : cullThread visible s t = s := by
        simp [cullThread, hv]
      have hcount : (t :: ts).countP (fun t => visible t.2)
          = ts.countP (fun t => visible t.2) :=
        List.countP_cons_of_neg (fun t => visible t.2) ts hv
      rw [hthread, ih s hs, hcount]

/-- The threads of one pass, one per instance, number the visible instances
exactly as the instance list does. -/
theorem countP_enum_visible (visible : Instance → Bool) (instances : List Instance) :
    instances.enum.countP (fun t => visible t.2) = instances.countP visible := by
  have h : instances.enum.countP (visible ∘ Prod.snd)
      = (instances.enum.map Prod.snd).countP visible := (List.countP_map _ _ _).symm
  rw [List.enum_map_snd] at h
  exact h

/-- C19: one Cull pass over a cleared slot, with one thread per instance whose
atomic steps take effect in any order (`schedule1`, and `schedule2` for a second
run on the same inputs), leaves in the slot's indirect draw-command record an
instance count equal to the number of instances that satisfy the visibility
predicate, the same on both runs. -/
theorem cull_count_conservation (visible : Instance → Bool) (instances : List Instance)
    (schedule1 schedule2 : List (Nat × Instance)) (s1 s2 : CullState)
    (hlen : instances.length < 2 ^ 32)
    (h1 : schedule1.Perm instances.enum) (h2 : schedule2.Perm instances.enum) :
    (cullPass visible schedule1 (clearStage s1)).draw_cmd.instanceCount
      = instances.countP visible ∧
    (cullPass visible schedule2 (clearStage s2)).draw_cmd.instanceCount
      = (cullPass visible schedule1 (clearStage s1)).draw_cmd.instanceCount := by
  have key : ∀ (schedule : List (Nat × Instance)) (s : CullState),
      schedule.Perm instances.enum →
      (cullPass visible schedule (clearStage s)).draw_cmd.instanceCount
        = instances.countP visible := by
    intro schedule s h
    rw [cullPass_instanceCount visible schedule (clearStage s) (by simp [clearStage]),
      h.countP_eq, countP_enum_visible]
    have hle : instances.countP visible ≤ instances.length := List.countP_le_length _
    simp only [clearStage, Nat.zero_add]
    exact Nat.mod_eq_of_lt (by omega)
  exact ⟨key schedule1 s1 h1, by rw [key schedule2 s2 h2, key schedule1 s1 h1]⟩

/-- Witness of C19: three instances, those of the mesh at 37748736 visible, the
threads taking effect in the orders 2, 0, 1 and 0, 1, 2, on slots that hold
stale data. -/
theorem cull_count_conservation_witness :
    (cullPass (fun i => decide (i.mesh_info_ptr = 37748736))
        [(2, { transform := emptyWorld.m_view_proj, mesh_info_ptr := 37748736 }),
         (0, { transform := emptyWorld.m_view_proj, mesh_info_ptr := 37748736 }),
         (1, { transform := emptyWorld.m_view_proj, mesh_info_ptr := 37748760 })]
        (clearStage
          { draw_cmd := { vertexCount := 3, instanceCount := 7, firstVertex := 0,
                          firstInstance := 0 },
            visible_instances := [] })).draw_cmd.instanceCount = 2 :=
  (cull_count_conservation (fun i => decide (i.mesh_info_ptr = 37748736))
    [{ transform := emptyWorld.m_view_proj, mesh_info_ptr := 37748736 },
     { transform := emptyWorld.m_view_proj, mesh_info_ptr := 37748760 },
     { transform := emptyWorld.m_view_proj, mesh_info_ptr := 37748736 }]
    [(2, { transform := emptyWorld.m_view_proj, mesh_info_ptr := 37748736 }),
     (0, { transform := emptyWorld.m_view_proj, mesh_info_ptr := 37748736 }),
     (1, { transform := emptyWorld.m_view_proj, mesh_info_ptr := 37748760 })]
    [(0, { transform := emptyWorld.m_view_proj, mesh_info_ptr := 37748736 }),
     (1, { transform := emptyWorld.m_view_proj, mesh_info_ptr := 37748760 }),
     (2, { transform := emptyWorld.m_view_proj, mesh_info_ptr := 37748736 })]
    { draw_cmd := { vertexCount := 3, instanceCount := 7, firstVertex := 0, firstInstance := 0 },
      visible_instances := [] }
    { draw_cmd := { vertexCount := 3, instanceCount := 9, firstVertex := 0, firstInstance := 0 },
      visible_instances := [5] }
    (by decide) (by decide) (by decide)).1

/-! ## The commands recorded by `execute` -/

/-- The casts `(float)` at some integers: 800 and 600 are exact, 16777217
rounds to `16777216.0f`, 16777219 to `16777220.0f`, 4294967295 to
`4294967296.0f`, and `-1` is `-1.0f`. -/
theorem float_cast_examples :
    floatOfUInt32 800 = 0x44480000 ∧ floatOfUInt32 600 = 0x44160000 ∧
    floatOfUInt32 0 = 0 ∧ floatOfUInt32 16777216 = 0x4B800000 ∧
    floatOfUInt32 16777217 = 0x4B800000 ∧ floatOfUInt32 16777219 = 0x4B800002 ∧
    floatOfUInt32 4294967295 = 0x4F800000 ∧
    floatOfInt32 (-1) = 0xBF800000 ∧ floatOfInt32 (-2147483648) = 0xCF000000 := by
  decide

/-- C21: every `execute` call records, in this order, the Clear (fill of the
slot's draw-command record with 0), the barrier from transfer write to shader
read/write, the Cull dispatch, the barrier from shader write to indirect-command
read and shader read, the indirect Draw and the Readback copy; the fill, the
indirect draw and the source and destination of the readback copy all use the
byte offset `buffer_index * sizeof(VkDrawIndirectCommand) = 16 * (m_frame_index % 3)`
for the `m_frame_index` at entry. The viewport is the render area with its
fields cast to `float`, with depth range `0.0f` to `1.0f`. -/
theorem execute_records_stages_in_order (p : DrawWorldPipeline) (world : World) (cmd : Nat)
    (rt : RenderTarget) (readback : Mem) :
    ∃ groups : Nat,
      (p.execute world cmd rt readback).cmds =
        [GpuCmd.vkCmdFillBuffer p.m_draw_cmds.handle (16 * (p.m_frame_index % 3)) 16 0,
         GpuCmd.vkCmdPipelineBarrier VK_PIPELINE_STAGE_TRANSFER_BIT
           VK_PIPELINE_STAGE_COMPUTE_SHADER_BIT VK_ACCESS_TRANSFER_WRITE_BIT
           (VK_ACCESS_SHADER_READ_BIT ||| VK_ACCESS_SHADER_WRITE_BIT),
         GpuCmd.vkCmdBindPipeline VK_PIPELINE_BIND_POINT_COMPUTE p.m_cull_pipeline,
         GpuCmd.vkCmdBindDescriptorSets VK_PIPELINE_BIND_POINT_COMPUTE p.m_cull_pipeline_layout 0
           [p.m_mesh_data_descriptor_set, (p.frameAt p.buffer_index).descriptor_set,
            (p.frameAt p.buffer_index).cull_descriptor_set],
         GpuCmd.vkCmdDispatch groups 1 1,
         GpuCmd.vkCmdPipelineBarrier VK_PIPELINE_STAGE_COMPUTE_SHADER_BIT
           (VK_PIPELINE_STAGE_DRAW_INDIRECT_BIT ||| VK_PIPELINE_STAGE_VERTEX_SHADER_BIT)
           VK_ACCESS_SHADER_WRITE_BIT
           (VK_ACCESS_INDIRECT_COMMAND_READ_BIT ||| VK_ACCESS_SHADER_READ_BIT),
         GpuCmd.vkCmdBindPipeline VK_PIPELINE_BIND_POINT_GRAPHICS p.m_draw_pipeline,
         GpuCmd.vkCmdBeginRendering rt.color_view rt.resolve_view rt.depth_view rt.area,
         GpuCmd.vkCmdSetViewport 0
           [{ x := floatOfInt32 rt.area.offset_x, y := floatOfInt32 rt.area.offset_y,
              width := floatOfUInt32 rt.area.extent_width,
              height := floatOfUInt32 rt.area.extent_height,
              minDepth := 0x00000000, maxDepth := 0x3F800000 }],
         GpuCmd.vkCmdSetScissor rt.area,
         GpuCmd.vkCmdBindDescriptorSets VK_PIPELINE_BIND_POINT_GRAPHICS p.m_draw_pipeline_layout 0
           [p.m_mesh_data_descriptor_set, (p.frameAt p.buffer_index).descriptor_set],
         GpuCmd.vkCmdDrawIndirect p.m_draw_cmds.handle (16 * (p.m_frame_index % 3)) 1 16,
         GpuCmd.vkCmdEndRendering,
         GpuCmd.vkCmdCopyBuffer p.m_draw_cmds.handle p.m_readback.handle
           [{ srcOffset := 16 * (p.m_frame_index % 3), dstOffset := 16 * (p.m_frame_index % 3),
              size := 16 }]] ∧
      p.buffer_index = p.m_frame_index % 3 ∧
      16 * (p.m_frame_index % 3) = p.buffer_index * sizeof_VkDrawIndirectCommand := by
  have hmul : mul64 (p.m_frame_index % 3) 16 = 16 * (p.m_frame_index % 3) := by
    unfold mul64
    rw [Nat.mod_eq_of_lt (by omega)]
    omega
  refine ⟨(sub64 (add64 world.m_instances.length 256) 1 / 256) % 2 ^ 32, ?_, rfl, ?_⟩
  · simp only [DrawWorldPipeline.execute, DrawCmdBufferSize, sizeof_VkDrawIndirectCommand,
      DrawWorldPipeline.buffer_index, hmul]
  · simp only [DrawWorldPipeline.buffer_index, sizeof_VkDrawIndirectCommand]
    omega

/-- C22: the cull dispatch covers every instance with one thread. For every
instance count `n <= InstanceCountMax` the thread-group count that `execute`
passes to `vkCmdDispatch` is `ceil(n / 256)`: `256 * count >= n`, for `n >= 1`
`256 * (count - 1) < n`, `count = 0` for `n = 0`, and 3907 groups for
`n = 1000000`. -/
theorem dispatch_covers_instances (p : DrawWorldPipeline) (world : World) (cmd : Nat)
    (rt : RenderTarget) (readback : Mem)
    (hn : world.m_instances.length ≤ InstanceCountMax) :
    ∃ count : Nat,
      (p.execute world cmd rt readback).cmds[4]? = some (GpuCmd.vkCmdDispatch count 1 1) ∧
      (∀ c, c ∈ (p.execute world cmd rt readback).cmds →
        ∀ x y z, c = GpuCmd.vkCmdDispatch x y z → x = count) ∧
      count = (world.m_instances.length + 255) / 256 ∧
      world.m_instances.length ≤ 256 * count ∧
      (1 ≤ world.m_instances.length → 256 * (count - 1) < world.m_instances.length) ∧
      (world.m_instances.length = 0 → count = 0) ∧
      (world.m_instances.length = 1000000 → count = 3907) := by
  have hlen : world.m_instances.length ≤ 1000000 := hn
  have hcount : (sub64 (add64 world.m_instances.length 256) 1 / 256) % 2 ^ 32
      = (world.m_instances.length + 255) / 256 := by
    unfold sub64 add64
    omega
  refine ⟨(world.m_instances.length + 255) / 256, ?_, ?_, rfl, by omega, by omega, by omega,
    by omega⟩
  · simp only [DrawWorldPipeline.execute, hcount]
    rfl
  · intro c hc x y z hxyz
    subst hxyz
    simp only [DrawWorldPipeline.execute, hcount] at hc
    simp at hc
    exact hc.1

/-- Witness of C22: a world with one instance gets one thread group. -/
theorem dispatch_covers_instances_witness :
    ((examplePipeline 0).execute
        { emptyWorld with
          m_instances := [{ transform := emptyWorld.m_view_proj, mesh_info_ptr := 37748736 }] }
        1 exampleRenderTarget (fun _ => 0)).cmds[4]?
      = some (GpuCmd.vkCmdDispatch 1 1 1) := by
  obtain ⟨count, h1, _, h3, _⟩ := dispatch_covers_instances (examplePipeline 0)
    { emptyWorld with
      m_instances := [{ transform := emptyWorld.m_view_proj, mesh_info_ptr := 37748736 }] }
    1 exampleRenderTarget (fun _ => 0) (by decide)
  rw [h1, h3]
  rfl

/-! ## `alignUp`: least multiple and division by zero -/

/-- On a multiple of the alignment `alignUp` returns its argument. -/
theorem alignUp_of_mod_zero (x alignment : Nat) (h0 : alignment ≠ 0) (hr : x % alignment = 0) :
    alignUp x alignment = Run.ok x := by
  unfold alignUp
  simp [h0, hr]

/-- C25: for every `x` and every `alignment > 0` with `x + alignment <= 2^64`,
`alignUp(x, alignment)` returns (its `BRTOY_ASSERT(result % alignment == 0)`
does not fail) the least multiple of `alignment` that is `>= x`; so
`x <= result < x + alignment`, and `alignUp` is idempotent in `x`. -/
theorem alignUp_least_multiple (x alignment : Nat) (h0 : 0 < alignment)
    (hsum : x + alignment ≤ 2 ^ 64) :
    ∃ result, alignUp x alignment = Run.ok result ∧
      result % alignment = 0 ∧ x ≤ result ∧ result < x + alignment ∧
      (∀ m, m % alignment = 0 → x ≤ m → result ≤ m) ∧
      alignUp result alignment = Run.ok result := by
  have hne : alignment ≠ 0 := by omega
  have hexact : alignUp x alignment = Run.ok (alignUpExact x alignment) := by
    by_cases hr : x % alignment = 0
    · rw [alignUp_of_mod_zero x alignment hne hr]
      simp [alignUpExact, hr]
    · have hx0 : x ≠ 0 := by
        intro hx; apply hr; rw [hx]; exact Nat.zero_mod _
      have hlt : x % alignment < alignment := Nat.mod_lt _ h0
      have hex : alignUpExact x alignment = x + alignment - x % alignment := by
        simp [alignUpExact, hr]
      exact alignUp_eq_exact x alignment (by omega) (by omega) hne (by rw [hex]; omega)
  refine ⟨alignUpExact x alignment, hexact, alignUpExact_mod x alignment,
    le_alignUpExact x alignment hne, alignUpExact_lt x alignment hne, ?_,
    alignUp_of_mod_zero _ _ hne (alignUpExact_mod x alignment)⟩
  intro m hm hxm
  by_cases hr : x % alignment = 0
  · simp only [alignUpExact, hr, if_true]
    exact hxm
  · have hex : alignUpExact x alignment = alignment * (x / alignment + 1) := by
      have hdm : alignment * (x / alignment) + x % alignment = x := Nat.div_add_mod x alignment
      have hlt : x % alignment < alignment := Nat.mod_lt _ h0
      simp only [alignUpExact, hr, if_false]
      rw [Nat.mul_add, Nat.mul_one]
      omega
    have hmk : alignment * (m / alignment) = m := by
      have := Nat.div_add_mod m alignment
      omega
    have hne2 : x ≠ m := by
      intro h; apply hr; rw [h]; exact hm
    have hlt2 : x / alignment < m / alignment := by
      apply Nat.div_lt_of_lt_mul
      rw [hmk]
      omega
    rw [hex, ← hmk]
    exact Nat.mul_le_mul_left _ hlt2

/-- Witness of C25: `alignUp(13, 4) = 16`. -/
theorem alignUp_least_multiple_witness :
    ∃ result, alignUp 13 4 = Run.ok result ∧
      result % 4 = 0 ∧ 13 ≤ result ∧ result < 13 + 4 ∧
      (∀ m, m % 4 = 0 → 13 ≤ m → result ≤ m) ∧
      alignUp result 4 = Run.ok result :=
  alignUp_least_multiple 13 4 (by decide) (by decide)

/-- The run of `allocateBytes` ends in a division by zero exactly when the
effective alignment is zero. -/
theorem allocateBytes_divideByZero_iff (a : LinearAllocator) (size alignment : Nat) :
    a.allocateBytes size alignment = Run.fault Fault.divideByZero
      ↔ a.effectiveAlignment alignment = 0 := by
  unfold LinearAllocator.allocateBytes LinearAllocator.effectiveAlignment
  generalize (if alignment = 0 then a.m_min_alignment else alignment) = al
  constructor
  · intro h
    by_contra h0
    dsimp only at h
    cases hal : alignUp a.m_cur al with
    | fault f =>
      rw [hal] at h
      simp only [Run.fault.injEq] at h
      subst h
      unfold alignUp at hal
      rw [if_neg h0] at hal
      dsimp only at hal
      generalize (if a.m_cur % al ≠ 0 then sub64 (add64 a.m_cur al) (a.m_cur % al)
        else a.m_cur) = result at hal
      by_cases hm : result % al = 0
      · rw [if_pos hm] at hal
        cases hal
      · rw [if_neg hm] at hal
        cases hal
    | ok offset =>
      rw [hal] at h
      dsimp only at h
      split at h <;> cases h
  · intro h
    subst h
    simp [alignUp]

/-- C26 (evaluation at the failing inputs): on a default-constructed
`LinearAllocator`, and on one constructed with `min_alignment` 0, the call
`allocateBytes(16)` with the default alignment 0 takes `m_min_alignment = 0` as
the alignment and `alignUp` evaluates `m_cur % 0`. -/
theorem allocateBytes_divides_by_zero :
    LinearAllocator.mkDefault.effectiveAlignment 0 = 0 ∧
    LinearAllocator.mkDefault.allocateBytes 16 0 = Run.fault Fault.divideByZero ∧
    (LinearAllocator.mk4 1 0 1024 0).effectiveAlignment 0 = 0 ∧
    (LinearAllocator.mk4 1 0 1024 0).allocateBytes 16 0 = Run.fault Fault.divideByZero := by
  decide

/-! ## Iterating a `StackVector` -/

/-- From an iterator at `k <= Capacity` the loop of the range-for statement
visits `Capacity - k` further elements. -/
theorem rangeForLoop_length {T : Type} [Inhabited T] {N : Nat} (v : StackVector T N) :
    ∀ (fuel k : Nat) (visited : List T), k ≤ N → N - k < fuel →
      ∃ l, v.rangeForLoop fuel { m_cur := k } visited = some l ∧
        l.length = visited.length + (N - k) := by
  intro fuel
  induction fuel with
  | zero => intro k visited _ h; omega
  | succ fuel ih =>
    intro k visited hk hfuel
    by_cases hend : k = N
    · refine ⟨visited, ?_, by omega⟩
      simp [StackVector.rangeForLoop, StackVector.«end», hend]
    · obtain ⟨l, hl, hlen⟩ := ih (k + 1) (visited ++ [v.deref { m_cur := k }]) (by omega)
        (by omega)
      refine ⟨l, ?_, ?_⟩
      · simp only [StackVector.rangeForLoop, StackVector.«end», ne_eq,
          StackVector.iterator.mk.injEq, hend, not_false_eq_true, if_true,
          StackVector.iterator.next]
        exact hl
      · rw [hlen, List.length_append, List.length_singleton]
        omega

/-- The range-for statement over a `StackVector` ends and visits `Capacity`
elements, whatever `size()` is. -/
theorem rangeFor_visits_capacity {T : Type} [Inhabited T] {N : Nat} (v : StackVector T N) :
    ∃ l, v.rangeFor = some l ∧ l.length = N := by
  obtain ⟨l, hl, hlen⟩ := rangeForLoop_length v (N + 1) 0 [] (by omega) (by omega)
  exact ⟨l, hl, by simpa using hlen⟩

/-- C29 (evaluation at the failing input): a `StackVector<uint64_t, 3>` built by
`push_back(7)` and `push_back(9)` has `size() = 2 <= Capacity`, and iterating it
from `begin()` to `end()` visits three elements, 7, 9 and the value-initialised
element 0 of the unused slot: `end()` is at `Capacity`, not at `size()`. -/
theorem rangeFor_visits_unused_slots :
    let v : StackVector Nat 3 := StackVector.pushAll 3 [7, 9]
    v.size = 2 ∧ v.capacity = 3 ∧ v.«end» = { m_cur := 3 } ∧
      v.rangeFor = some [7, 9, 0] := by
  decide

/-! ## Unary minus on `V3f` -/

/-- What `operator-(V3f)` returns: `x` is the negated `z`, `y` is negated, `z`
is unchanged. -/
theorem operator_minus_eq (u : V3f) :
    u.operator_minus = { x := negFloat u.z, y := negFloat u.y, z := u.z } := rfl

/-- C30 (evaluation at the failing input): for `u = (1.0f, 2.0f, 3.0f)` (bit
patterns 0x3F800000, 0x40000000, 0x40400000) `operator-(u)` returns
`(-3.0f, -2.0f, 3.0f)` (0xC0400000, 0xC0000000, 0x40400000), not
`(-1.0f, -2.0f, -3.0f)`: the third statement assigns `u.x = -u.z`. -/
theorem operator_minus_wrong_components :
    V3f.operator_minus { x := 0x3F800000, y := 0x40000000, z := 0x40400000 }
      = { x := 0xC0400000, y := 0xC0000000, z := 0x40400000 } ∧
    negFloat 0x3F800000 = 0xBF800000 ∧ negFloat 0x40400000 = 0xC0400000 ∧
    V3f.operator_minus { x := 0x3F800000, y := 0x40000000, z := 0x40400000 }
      ≠ { x := negFloat 0x3F800000, y := negFloat 0x40000000, z := negFloat 0x40400000 } := by
  decide

/-! ## Disjointness of issued sub-allocations -/

/-- One call whose success branch does not overflow: the cursor does not move
back, and a successful call issues an offset at or after the old cursor and
leaves the cursor at the exact end `offset + size` of the issued range. -/
theorem allocateBytes_step_noWrap (a : LinearAllocator) (size alignment : Nat)
    (r : BufferSubAllocation) (a1 : LinearAllocator)
    (h : a.allocateBytes size alignment = Run.ok (r, a1))
    (hno : a.succeeds size alignment = true → a.exactEnd size alignment < 2 ^ 64) :
    a.m_cur ≤ a1.m_cur ∧
      (a.succeeds size alignment = true →
        a.m_cur ≤ r.offset ∧ r.offset + r.size = a1.m_cur) := by
  obtain ⟨offset, hal, hcase⟩ := allocateBytes_cases a size alignment r a1 h
  have h0 := (alignUp_ok_mod _ _ _ hal).1
  rcases hcase with ⟨hs, _, hr, ha1⟩ | ⟨hs, _, _, ha1⟩
  · obtain ⟨hex, hend⟩ := alignUp_cur_of_exactEnd_lt a size alignment h0 (hno hs)
    rw [hex] at hal
    injection hal with hoff
    have hle := le_alignUpExact a.m_cur (a.effectiveAlignment alignment) h0
    have hcur : a1.m_cur = alignUpExact a.m_cur (a.effectiveAlignment alignment) + size := by
      rw [ha1, ← hoff]
      show add64 _ size = _
      rw [hend]
      rfl
    have hroff : r.offset = alignUpExact a.m_cur (a.effectiveAlignment alignment) := by
      rw [hr, ← hoff]
    have hrsize : r.size = size := by rw [hr]
    refine ⟨by omega, fun _ => ⟨by omega, by omega⟩⟩
  · subst ha1
    exact ⟨Nat.le_refl _, fun hs2 => by rw [hs] at hs2; cases hs2⟩

/-- The two parts of a trace that starts with one call. -/
theorem allocTrace_cons (a : LinearAllocator) (req : Request) (rest : List Request)
    (tr : List AllocEvent) (h : allocTrace a (req :: rest) = Run.ok tr) :
    ∃ r a1 tr1, a.allocateBytes req.1 req.2 = Run.ok (r, a1) ∧
      allocTrace a1 rest = Run.ok tr1 ∧
      tr = { result := r, success := a.succeeds req.1 req.2, after := a1 } :: tr1 := by
  unfold allocTrace at h
  cases hal : a.allocateBytes req.1 req.2 with
  | fault f => rw [hal] at h; cases h
  | ok p =>
    obtain ⟨r, a1⟩ := p
    rw [hal] at h
    dsimp only at h
    cases htr : allocTrace a1 rest with
    | fault f => rw [htr] at h; cases h
    | ok tr1 =>
      rw [htr] at h
      injection h with h
      exact ⟨r, a1, tr1, rfl, htr, h.symm⟩

/-- Without overflow every successful call of a trace issues an offset at or
after the cursor the trace started from. -/
theorem allocTrace_offsets_ge_cursor (reqs : List Request) :
    ∀ (a : LinearAllocator) (tr : List AllocEvent),
      allocTrace a reqs = Run.ok tr → a.noWrap reqs = true →
      ∀ e ∈ tr, e.success = true → a.m_cur ≤ e.result.offset := by
  induction reqs with
  | nil =>
    intro a tr h _ e he
    simp only [allocTrace, Run.ok.injEq] at h
    subst h
    cases he
  | cons req rest ih =>
    intro a tr h hno e he hes
    obtain ⟨r, a1, tr1, hal, htr1, htr⟩ := allocTrace_cons a req rest tr h
    simp only [LinearAllocator.noWrap, hal, Bool.and_eq_true, Bool.or_eq_true,
      Bool.not_eq_true', decide_eq_true_eq] at hno
    obtain ⟨hhead, htail⟩ := hno
    have hstep := allocateBytes_step_noWrap a req.1 req.2 r a1 hal (by
      intro hs
      rcases hhead with hf | hlt
      · rw [hs] at hf; cases hf
      · exact hlt)
    subst htr
    rcases List.mem_cons.mp he with rfl | hmem
    · exact (hstep.2 hes).1
    · have := ih a1 tr1 htr1 htail e hmem hes
      omega

/-- C24: any two sub-allocations successfully issued by the same
`LinearAllocator` with no `reset` between them occupy disjoint byte ranges: if
`A` was issued by an earlier call than `B`, then `A.offset + A.size <= B.offset`,
provided no successful call of the sequence overflows 64 bits. -/
theorem issued_ranges_disjoint (reqs : List Request) :
    ∀ (a : LinearAllocator) (tr : List AllocEvent) (i j : Nat) (A B : AllocEvent),
      allocTrace a reqs = Run.ok tr → a.noWrap reqs = true → i < j →
      tr[i]? = some A → tr[j]? = some B → A.success = true → B.success = true →
      A.result.offset + A.result.size ≤ B.result.offset := by
  induction reqs with
  | nil =>
    intro a tr i j A B h _ _ hA
    simp only [allocTrace, Run.ok.injEq] at h
    subst h
    simp at hA
  | cons req rest ih =>
    intro a tr i j A B h hno hij hA hB hAs hBs
    obtain ⟨r, a1, tr1, hal, htr1, htr⟩ := allocTrace_cons a req rest tr h
    have hno2 := hno
    simp only [LinearAllocator.noWrap, hal, Bool.and_eq_true, Bool.or_eq_true,
      Bool.not_eq_true', decide_eq_true_eq] at hno2
    obtain ⟨hhead, htail⟩ := hno2
    subst htr
    obtain ⟨j1, rfl⟩ : ∃ j1, j = j1 + 1 := ⟨j - 1, by omega⟩
    rw [List.getElem?_cons_succ] at hB
    cases i with
    | zero =>
      rw [List.getElem?_cons_zero] at hA
      injection hA with hA
      subst hA
      have hstep := allocateBytes_step_noWrap a req.1 req.2 r a1 hal (by
        intro hs
        rcases hhead with hf | hlt
        · rw [hs] at hf; cases hf
        · exact hlt)
      have hB2 := allocTrace_offsets_ge_cursor rest a1 tr1 htr1 htail B
        (List.getElem?_mem hB) hBs
      have := (hstep.2 hAs).2
      show r.offset + r.size ≤ B.result.offset
      omega
    | succ i1 =>
      rw [List.getElem?_cons_succ] at hA
      exact ih a1 tr1 i1 j1 A B htr1 htail (by omega) hA hB hAs hBs

/-- Witness of C24: three calls on a region of 100 bytes from offset 16, the
second of which fails; the first and the third issue `[16, 26)` and `[28, 48)`. -/
theorem issued_ranges_disjoint_witness :
    allocTrace (LinearAllocator.mk4 1 16 84 4) [(10, 0), (200, 0), (20, 0)]
      = Run.ok
        [{ result := { buffer := 1, offset := 16, size := 10, mapped_ptr := 0 }, success := true,
           after := { LinearAllocator.mk4 1 16 84 4 with m_cur := 26 } },
         { result := BufferSubAllocation.empty, success := false,
           after := { LinearAllocator.mk4 1 16 84 4 with m_cur := 26 } },
         { result := { buffer := 1, offset := 28, size := 20, mapped_ptr := 0 }, success := true,
           after := { LinearAllocator.mk4 1 16 84 4 with m_cur := 48 } }] ∧
    (LinearAllocator.mk4 1 16 84 4).noWrap [(10, 0), (200, 0), (20, 0)] = true ∧
    (16 : Nat) + 10 ≤ 28 :=
  ⟨by decide, by decide,
   issued_ranges_disjoint [(10, 0), (200, 0), (20, 0)] (LinearAllocator.mk4 1 16 84 4)
    [{ result := { buffer := 1, offset := 16, size := 10, mapped_ptr := 0 }, success := true,
       after := { LinearAllocator.mk4 1 16 84 4 with m_cur := 26 } },
     { result := BufferSubAllocation.empty, success := false,
       after := { LinearAllocator.mk4 1 16 84 4 with m_cur := 26 } },
     { result := { buffer := 1, offset := 28, size := 20, mapped_ptr := 0 }, success := true,
       after := { LinearAllocator.mk4 1 16 84 4 with m_cur := 48 } }]
    0 2
    { result := { buffer := 1, offset := 16, size := 10, mapped_ptr := 0 }, success := true,
      after := { LinearAllocator.mk4 1 16 84 4 with m_cur := 26 } }
    { result := { buffer := 1, offset := 28, size := 20, mapped_ptr := 0 }, success := true,
      after := { LinearAllocator.mk4 1 16 84 4 with m_cur := 48 } }
    (by decide) (by decide) (by decide) (by decide) (by decide) rfl rfl⟩

/-! ## The allocators of a laid-out `MeshData` -/

/-- A call with effective alignment 4 on an allocator whose region ends at a
multiple of 4 below `2 ^ 32` returns: the round-up of the cursor does not pass
the end, a failed call returns the empty handle for a non-zero size, and the
allocator changes in its cursor only. -/
theorem allocateBytes_align4 (a : LinearAllocator) (size alignment : Nat)
    (hal : a.effectiveAlignment alignment = 4) (hcur : a.m_cur ≤ a.m_end)
    (hend : a.m_end ≤ 2 ^ 32) (hmod : a.m_end % 4 = 0) :
    ∃ r a1, a.allocateBytes size alignment = Run.ok (r, a1) ∧
      a1.reset = a.reset ∧ a1.m_cur ≤ a1.m_end ∧ r.offset ≤ a.m_end ∧
      (a.succeeds size alignment = true →
        r = { buffer := a.m_buffer, offset := alignUpExact a.m_cur 4, size := size,
              mapped_ptr := a.m_mapped_ptr } ∧
        a1 = { a with m_cur := add64 (alignUpExact a.m_cur 4) size } ∧
        add64 (alignUpExact a.m_cur 4) size ≤ a.m_end) ∧
      (a.succeeds size alignment = false →
        r = BufferSubAllocation.empty ∧ a1 = a ∧ size % 2 ^ 64 ≠ 0) := by
  have hle : alignUpExact a.m_cur 4 ≤ a.m_end := by
    unfold alignUpExact
    split <;> omega
  have halign : alignUp a.m_cur 4 = Run.ok (alignUpExact a.m_cur 4) :=
    alignUp_eq_exact a.m_cur 4 (by omega) (by decide) (by decide) (by omega)
  have heff : (if alignment = 0 then a.m_min_alignment else alignment) = 4 := hal
  by_cases hfit : add64 (alignUpExact a.m_cur 4) size ≤ a.m_end
  · have hs : a.succeeds size alignment = true := by
      simp [LinearAllocator.succeeds, LinearAllocator.newCur, heff, halign, hfit]
    refine ⟨{ buffer := a.m_buffer, offset := alignUpExact a.m_cur 4, size := size,
              mapped_ptr := a.m_mapped_ptr },
            { a with m_cur := add64 (alignUpExact a.m_cur 4) size }, ?_, rfl, hfit, hle,
            fun _ => ⟨rfl, rfl, hfit⟩, fun h => by rw [hs] at h; cases h⟩
    simp [LinearAllocator.allocateBytes, heff, halign, hfit]
  · have hs : a.succeeds size alignment = false := by
      simp [LinearAllocator.succeeds, LinearAllocator.newCur, heff, halign, hfit]
    refine ⟨BufferSubAllocation.empty, a, ?_, rfl, hcur, Nat.zero_le a.m_end,
      (fun h => by rw [hs] at h; cases h), fun _ => ⟨rfl, rfl, ?_⟩⟩
    · simp [LinearAllocator.allocateBytes, heff, halign, hfit]
    · intro h0
      apply hfit
      unfold add64
      rw [Nat.add_mod, h0, Nat.add_zero, Nat.mod_mod, Nat.mod_eq_of_lt (by omega)]
      exact hle

/-- Any returning call leaves buffer, region, alignment and mapping unchanged
and keeps the cursor at or before the end of the region. -/
theorem allocateBytes_keeps_region (a : LinearAllocator) (size alignment : Nat)
    (r : BufferSubAllocation) (a1 : LinearAllocator)
    (h : a.allocateBytes size alignment = Run.ok (r, a1)) (hcur : a.m_cur ≤ a.m_end) :
    a1.reset = a.reset ∧ a1.m_cur ≤ a1.m_end ∧
      (r.mapped_ptr ≠ 0 → a.succeeds size alignment = true) := by
  obtain ⟨offset, _, hcase⟩ := allocateBytes_cases a size alignment r a1 h
  rcases hcase with ⟨hs, hle, _, ha1⟩ | ⟨_, _, hr, ha1⟩
  · subst ha1
    exact ⟨rfl, hle, fun _ => hs⟩
  · subst ha1
    subst hr
    exact ⟨rfl, hcur, fun h0 => absurd rfl h0⟩

/-- The members of a laid-out `MeshData`. -/
theorem meshData_laidOut_fields (md : MeshData) (h : md.laidOut) :
    (md.m_staging.m_min_alignment = 4 ∧ md.m_staging.m_start = 0 ∧
      md.m_staging.m_end = 8388608 ∧ md.m_staging.m_cur ≤ 8388608) ∧
    (md.m_positions.m_min_alignment = 4 ∧ md.m_positions.m_end = 16777216 ∧
      md.m_positions.m_cur ≤ 16777216) ∧
    (md.m_attribs.m_min_alignment = 4 ∧ md.m_attribs.m_end = 33554432 ∧
      md.m_attribs.m_cur ≤ 33554432) ∧
    (md.m_indices.m_min_alignment = 4 ∧ md.m_indices.m_end = 37748736 ∧
      md.m_indices.m_cur ≤ 37748736) ∧
    (md.m_infos.m_min_alignment = 4 ∧ md.m_infos.m_end = 37773312 ∧
      md.m_infos.m_cur ≤ 37773312) := by
  obtain ⟨⟨h1, c1⟩, ⟨h2, c2⟩, ⟨h3, c3⟩, ⟨h4, c4⟩, ⟨h5, c5⟩⟩ := h
  have e1 : md.m_staging.m_end = 8388608 := congrArg LinearAllocator.m_end h1
  have e2 : md.m_positions.m_end = 16777216 := congrArg LinearAllocator.m_end h2
  have e3 : md.m_attribs.m_end = 33554432 := congrArg LinearAllocator.m_end h3
  have e4 : md.m_indices.m_end = 37748736 := congrArg LinearAllocator.m_end h4
  have e5 : md.m_infos.m_end = 37773312 := congrArg LinearAllocator.m_end h5
  refine ⟨⟨congrArg LinearAllocator.m_min_alignment h1, congrArg LinearAllocator.m_start h1,
      e1, by omega⟩,
    ⟨congrArg LinearAllocator.m_min_alignment h2, e2, by omega⟩,
    ⟨congrArg LinearAllocator.m_min_alignment h3, e3, by omega⟩,
    ⟨congrArg LinearAllocator.m_min_alignment h4, e4, by omega⟩,
    ⟨congrArg LinearAllocator.m_min_alignment h5, e5, by omega⟩⟩

/-- The object built by the constructor is laid out. -/
theorem constructed_laidOut (staging_buffer mapped buffer : Nat) :
    (MeshData.constructed staging_buffer mapped buffer).laidOut := by
  unfold MeshData.laidOut MeshData.constructed LinearAllocator.reset LinearAllocator.mk4
    LinearAllocator.mk5
  refine ⟨⟨rfl, ?_⟩, ⟨rfl, ?_⟩, ⟨rfl, ?_⟩, ⟨rfl, ?_⟩, ⟨rfl, ?_⟩⟩ <;> dsimp only <;> decide

/-- The allocations behind a returning `update` and what it returns. -/
theorem update_ok_cases (md : MeshData) (cmd : Nat) (creator : Creator) (res : UpdateResult)
    (h : md.update cmd creator = Run.ok res) :
    ∃ dst_positions dst_attribs dst_indices dst_info src_info,
      md.m_positions.allocateBytes creator.src_positions.size 0
        = Run.ok (dst_positions, res.self.m_positions) ∧
      md.m_attribs.allocateBytes creator.src_attribs.size 0
        = Run.ok (dst_attribs, res.self.m_attribs) ∧
      md.m_indices.allocateBytes creator.src_indices.size 0
        = Run.ok (dst_indices, res.self.m_indices) ∧
      md.m_infos.allocateBytes 24 4 = Run.ok (dst_info, res.self.m_infos) ∧
      md.m_staging.allocateBytes 24 4 = Run.ok (src_info, res.self.m_staging) ∧
      src_info.mapped_ptr ≠ 0 ∧
      res.self.m_staging_buffer = md.m_staging_buffer ∧ res.self.m_buffer = md.m_buffer ∧
      res.handle = dst_info.offset % 2 ^ 32 ∧
      res.info.index_data_ptr = dst_indices.offset % 2 ^ 32 ∧
      res.info.pos_data_ptr = dst_positions.offset % 2 ^ 32 ∧
      res.info.attrib_data_ptr = dst_attribs.offset % 2 ^ 32 ∧
      res.cmds =
        [GpuCmd.vkCmdPipelineBarrier
           (VK_PIPELINE_STAGE_VERTEX_INPUT_BIT ||| VK_PIPELINE_STAGE_VERTEX_SHADER_BIT)
           VK_PIPELINE_STAGE_TRANSFER_BIT VK_ACCESS_NONE VK_ACCESS_TRANSFER_WRITE_BIT,
         GpuCmd.vkCmdCopyBuffer md.m_staging_buffer md.m_buffer
           [{ srcOffset := creator.src_positions.offset, dstOffset := dst_positions.offset,
              size := creator.src_positions.size },
            { srcOffset := creator.src_attribs.offset, dstOffset := dst_attribs.offset,
              size := creator.src_attribs.size },
            { srcOffset := creator.src_indices.offset, dstOffset := dst_indices.offset,
              size := creator.src_indices.size },
            { srcOffset := src_info.offset, dstOffset := dst_info.offset,
              size := src_info.size }],
         GpuCmd.vkCmdPipelineBarrier VK_PIPELINE_STAGE_TRANSFER_BIT
           (VK_PIPELINE_STAGE_VERTEX_INPUT_BIT ||| VK_PIPELINE_STAGE_VERTEX_SHADER_BIT)
           VK_ACCESS_TRANSFER_WRITE_BIT VK_ACCESS_SHADER_READ_BIT] := by
  unfold MeshData.update LinearAllocator.allocate at h
  have e24 : mul64 1 sizeof_MeshInfo = 24 := by decide
  have e4 : alignof_MeshInfo = 4 := rfl
  rw [e24, e4] at h
  cases h1 : md.m_positions.allocateBytes creator.src_positions.size 0 with
  | fault f => simp [h1] at h
  | ok p1 =>
    obtain ⟨r1, s1⟩ := p1
    simp only [h1] at h
    cases h2 : md.m_attribs.allocateBytes creator.src_attribs.size 0 with
    | fault f => simp [h2] at h
    | ok p2 =>
      obtain ⟨r2, s2⟩ := p2
      simp only [h2] at h
      cases h3 : md.m_indices.allocateBytes creator.src_indices.size 0 with
      | fault f => simp [h3] at h
      | ok p3 =>
        obtain ⟨r3, s3⟩ := p3
        simp only [h3] at h
        cases h4 : md.m_infos.allocateBytes 24 4 with
        | fault f => simp [h4] at h
        | ok p4 =>
          obtain ⟨r4, s4⟩ := p4
          simp only [h4] at h
          cases h5 : md.m_staging.allocateBytes 24 4 with
          | fault f => simp [h5] at h
          | ok p5 =>
            obtain ⟨r5, s5⟩ := p5
            simp only [h5] at h
            by_cases hm : r5.mapped_ptr = 0
            · simp [hm] at h
            · simp only [hm, if_false, Run.ok.injEq] at h
              subst h
              exact ⟨r1, r2, r3, r4, r5, rfl, rfl, rfl, rfl, rfl, hm, rfl, rfl, rfl, rfl, rfl,
                rfl, rfl⟩

/-- The three staging allocations behind a returning `create`. -/
theorem create_ok_cases (md : MeshData) (sP aP sA aA V I : Nat) (creator : Creator)
    (md1 : MeshData) (h : md.create sP aP sA aA V I = Run.ok (creator, md1)) :
    ∃ s1 s2,
      md.m_staging.allocateBytes (mul64 V sP) aP = Run.ok (creator.src_positions, s1) ∧
      s1.allocateBytes (mul64 V sA) aA = Run.ok (creator.src_attribs, s2) ∧
      s2.allocateBytes (mul64 I 4) 4 = Run.ok (creator.src_indices, md1.m_staging) ∧
      md1 = { md with m_staging := md1.m_staging } := by
  unfold MeshData.create LinearAllocator.allocate at h
  have e4 : MeshData.sizeof_Index = 4 := rfl
  have e5 : MeshData.alignof_Index = 4 := rfl
  rw [e4, e5] at h
  cases h1 : md.m_staging.allocateBytes (mul64 V sP) aP with
  | fault f => simp [h1] at h
  | ok p1 =>
    obtain ⟨r1, s1⟩ := p1
    simp only [h1] at h
    cases h2 : s1.allocateBytes (mul64 V sA) aA with
    | fault f => simp [h2] at h
    | ok p2 =>
      obtain ⟨r2, s2⟩ := p2
      simp only [h2] at h
      cases h3 : s2.allocateBytes (mul64 I 4) 4 with
      | fault f => simp [h3] at h
      | ok p3 =>
        obtain ⟨r3, s3⟩ := p3
        simp only [h3, Run.ok.injEq, Prod.mk.injEq] at h
        obtain ⟨hc, hmd⟩ := h
        subst hc
        subst hmd
        exact ⟨s1, s2, rfl, h2, h3, rfl⟩

/-- Being laid out, stated through the unchanged parts of each allocator. -/
theorem laidOut_of_reset (md md1 : MeshData) (h : md.laidOut)
    (hsb : md1.m_staging_buffer = md.m_staging_buffer) (hb : md1.m_buffer = md.m_buffer)
    (h1 : md1.m_staging.reset = md.m_staging.reset ∧ md1.m_staging.m_cur ≤ md1.m_staging.m_end)
    (h2 : md1.m_positions.reset = md.m_positions.reset ∧
      md1.m_positions.m_cur ≤ md1.m_positions.m_end)
    (h3 : md1.m_attribs.reset = md.m_attribs.reset ∧ md1.m_attribs.m_cur ≤ md1.m_attribs.m_end)
    (h4 : md1.m_indices.reset = md.m_indices.reset ∧ md1.m_indices.m_cur ≤ md1.m_indices.m_end)
    (h5 : md1.m_infos.reset = md.m_infos.reset ∧ md1.m_infos.m_cur ≤ md1.m_infos.m_end) :
    md1.laidOut := by
  obtain ⟨⟨g1, _⟩, ⟨g2, _⟩, ⟨g3, _⟩, ⟨g4, _⟩, ⟨g5, _⟩⟩ := h
  have hm : md1.m_staging.m_mapped_ptr = md.m_staging.m_mapped_ptr := by
    have := congrArg LinearAllocator.m_mapped_ptr h1.1
    exact this
  unfold MeshData.laidOut
  rw [hsb, hb, hm, h1.1, h2.1, h3.1, h4.1, h5.1]
  exact ⟨⟨g1, h1.2⟩, ⟨g2, h2.2⟩, ⟨g3, h3.2⟩, ⟨g4, h4.2⟩, ⟨g5, h5.2⟩⟩

/-- A returning `update` keeps the `MeshData` laid out. -/
theorem update_laidOut (md : MeshData) (cmd : Nat) (creator : Creator) (res : UpdateResult)
    (hl : md.laidOut) (h : md.update cmd creator = Run.ok res) : res.self.laidOut := by
  obtain ⟨dp, da, di, dinfo, sinfo, h1, h2, h3, h4, h5, _, hsb, hb, _⟩ :=
    update_ok_cases md cmd creator res h
  have k1 := allocateBytes_keeps_region _ _ _ _ _ h1 hl.2.1.2
  have k2 := allocateBytes_keeps_region _ _ _ _ _ h2 hl.2.2.1.2
  have k3 := allocateBytes_keeps_region _ _ _ _ _ h3 hl.2.2.2.1.2
  have k4 := allocateBytes_keeps_region _ _ _ _ _ h4 hl.2.2.2.2.2
  have k5 := allocateBytes_keeps_region _ _ _ _ _ h5 hl.1.2
  exact laidOut_of_reset md res.self hl hsb hb ⟨k5.1, k5.2.1⟩ ⟨k1.1, k1.2.1⟩ ⟨k2.1, k2.2.1⟩
    ⟨k3.1, k3.2.1⟩ ⟨k4.1, k4.2.1⟩

/-- A returning `create` keeps the `MeshData` laid out. -/
theorem create_laidOut (md : MeshData) (sP aP sA aA V I : Nat) (creator : Creator)
    (md1 : MeshData) (hl : md.laidOut) (h : md.create sP aP sA aA V I = Run.ok (creator, md1)) :
    md1.laidOut := by
  obtain ⟨s1, s2, h1, h2, h3, hmd⟩ := create_ok_cases md sP aP sA aA V I creator md1 h
  have k1 := allocateBytes_keeps_region _ _ _ _ _ h1 hl.1.2
  have k2 := allocateBytes_keeps_region _ _ _ _ _ h2 k1.2.1
  have k3 := allocateBytes_keeps_region _ _ _ _ _ h3 k2.2.1
  have hreset : md1.m_staging.reset = md.m_staging.reset := by rw [k3.1, k2.1, k1.1]
  have e2 : md1.m_positions = md.m_positions := by rw [hmd]
  have e3 : md1.m_attribs = md.m_attribs := by rw [hmd]
  have e4 : md1.m_indices = md.m_indices := by rw [hmd]
  have e5 : md1.m_infos = md.m_infos := by rw [hmd]
  refine laidOut_of_reset md md1 hl (by rw [hmd]) (by rw [hmd]) ⟨hreset, k3.2.1⟩ ?_ ?_ ?_ ?_
  · rw [e2]; exact ⟨rfl, hl.2.1.2⟩
  · rw [e3]; exact ⟨rfl, hl.2.2.1.2⟩
  · rw [e4]; exact ⟨rfl, hl.2.2.2.1.2⟩
  · rw [e5]; exact ⟨rfl, hl.2.2.2.2.2⟩

/-- Every `MeshData` reached from a laid-out one by `create` and `update` calls
is laid out. -/
theorem runOps_laidOut (ops : List MeshOp) :
    ∀ (md : MeshData) (handles : List Nat) (md1 : MeshData),
      md.laidOut → md.runOps ops = Run.ok (handles, md1) → md1.laidOut := by
  induction ops with
  | nil =>
    intro md handles md1 hl h
    simp only [MeshData.runOps, Run.ok.injEq, Prod.mk.injEq] at h
    rw [← h.2]; exact hl
  | cons op ops ih =>
    intro md handles md1 hl h
    cases op with
    | create sp ap sa aa v i =>
      simp only [MeshData.runOps] at h
      cases hc : md.create sp ap sa aa v i with
      | fault f => simp [hc] at h
      | ok p =>
        obtain ⟨c, md2⟩ := p
        simp only [hc] at h
        exact ih md2 handles md1 (create_laidOut md sp ap sa aa v i c md2 hl hc) h
    | update cmd creator =>
      simp only [MeshData.runOps] at h
      cases hu : md.update cmd creator with
      | fault f => simp [hu] at h
      | ok res =>
        simp only [hu] at h
        cases hr : res.self.runOps ops with
        | fault f => simp [hr] at h
        | ok q =>
          obtain ⟨hs, md2⟩ := q
          simp only [hr, Run.ok.injEq, Prod.mk.injEq] at h
          rw [← h.2]
          exact ih res.self hs md2 (update_laidOut md cmd creator res hl hu) hr

/-- The offset returned by a call with effective alignment 4 on an allocator
whose region ends at a multiple of 4 below `2 ^ 32`: at most the end of the
region, and below it for a request of 24 bytes. -/
theorem allocateBytes_offset_le_end (a : LinearAllocator) (size alignment : Nat)
    (r : BufferSubAllocation) (a1 : LinearAllocator)
    (hal : a.effectiveAlignment alignment = 4) (hcur : a.m_cur ≤ a.m_end)
    (hend : a.m_end ≤ 2 ^ 32) (hmod : a.m_end % 4 = 0)
    (h : a.allocateBytes size alignment = Run.ok (r, a1)) :
    r.offset ≤ a.m_end ∧ (size = 24 → 24 ≤ a.m_end → r.offset < a.m_end) := by
  obtain ⟨r2, a2, h2, _, _, hle, hsucc, hfail⟩ :=
    allocateBytes_align4 a size alignment hal hcur hend hmod
  rw [h] at h2
  simp only [Run.ok.injEq, Prod.mk.injEq] at h2
  obtain ⟨hr, _⟩ := h2
  subst hr
  refine ⟨hle, ?_⟩
  intro hsize h24
  subst hsize
  cases hs : a.succeeds 24 alignment with
  | true =>
    obtain ⟨hr, _, hfit⟩ := hsucc hs
    have hoff : r.offset = alignUpExact a.m_cur 4 := by rw [hr]
    rw [hoff] at hle ⊢
    unfold add64 at hfit
    rw [Nat.mod_eq_of_lt (by omega)] at hfit
    omega
  | false =>
    obtain ⟨hr, _, _⟩ := hfail hs
    rw [hr]
    show 0 < a.m_end
    omega

/-- C28: every offset that the four device-local allocators of a `MeshData`
(`m_positions`, `m_attribs`, `m_indices`, `m_infos`) issue, in any `update` of
any run of `create` and `update` calls on the constructed object, is below the
device buffer size `37773312 < 2^32`; so the conversions of the 64-bit offsets
to the 32-bit `MeshInfo` fields and to the `uint32_t` mesh handle lose nothing. -/
theorem device_offsets_fit_32_bits (staging_buffer mapped buffer : Nat) (ops : List MeshOp)
    (handles : List Nat) (md : MeshData) (cmd : Nat) (creator : Creator) (res : UpdateResult)
    (hrun : (MeshData.constructed staging_buffer mapped buffer).runOps ops
      = Run.ok (handles, md))
    (hupd : md.update cmd creator = Run.ok res) :
    MeshData.PositionBufferSize + MeshData.AttribBufferSize + MeshData.IndexBufferSize
        + MeshData.InfoBufferSize = 37773312 ∧
    37773312 < 2 ^ 32 ∧
    ∃ dst_positions dst_attribs dst_indices dst_info,
      md.m_positions.allocateBytes creator.src_positions.size 0
        = Run.ok (dst_positions, res.self.m_positions) ∧
      md.m_attribs.allocateBytes creator.src_attribs.size 0
        = Run.ok (dst_attribs, res.self.m_attribs) ∧
      md.m_indices.allocateBytes creator.src_indices.size 0
        = Run.ok (dst_indices, res.self.m_indices) ∧
      md.m_infos.allocate sizeof_MeshInfo alignof_MeshInfo 1
        = Run.ok (dst_info, res.self.m_infos) ∧
      dst_positions.offset < 37773312 ∧ dst_attribs.offset < 37773312 ∧
      dst_indices.offset < 37773312 ∧ dst_info.offset < 37773312 ∧
      res.info.pos_data_ptr = dst_positions.offset ∧
      res.info.attrib_data_ptr = dst_attribs.offset ∧
      res.info.index_data_ptr = dst_indices.offset ∧
      res.handle = dst_info.offset := by
  have hl : md.laidOut :=
    runOps_laidOut ops _ handles md (constructed_laidOut staging_buffer mapped buffer) hrun
  obtain ⟨⟨_, _, _, _⟩, ⟨p1, p2, p3⟩, ⟨a1, a2, a3⟩, ⟨i1, i2, i3⟩, ⟨n1, n2, n3⟩⟩ :=
    meshData_laidOut_fields md hl
  obtain ⟨dp, da, di, dinfo, sinfo, h1, h2, h3, h4, _, _, _, _, hh, hi, hp, ha, _⟩ :=
    update_ok_cases md cmd creator res hupd
  have o1 := (allocateBytes_offset_le_end _ _ _ _ _
    (by simp [LinearAllocator.effectiveAlignment, p1]) (by omega) (by omega) (by omega) h1).1
  have o2 := (allocateBytes_offset_le_end _ _ _ _ _
    (by simp [LinearAllocator.effectiveAlignment, a1]) (by omega) (by omega) (by omega) h2).1
  have o3 := (allocateBytes_offset_le_end _ _ _ _ _
    (by simp [LinearAllocator.effectiveAlignment, i1]) (by omega) (by omega) (by omega) h3).1
  have o4 := (allocateBytes_offset_le_end _ _ _ _ _
    (by simp [LinearAllocator.effectiveAlignment]) (by omega) (by omega) (by omega) h4).2 rfl
    (by omega)
  refine ⟨by decide, by decide, dp, da, di, dinfo, h1, h2, h3, h4, by omega, by omega,
    by omega, by omega, ?_, ?_, ?_, ?_⟩
  · rw [hp]; exact Nat.mod_eq_of_lt (by omega)
  · rw [ha]; exact Nat.mod_eq_of_lt (by omega)
  · rw [hi]; exact Nat.mod_eq_of_lt (by omega)
  · rw [hh]; exact Nat.mod_eq_of_lt (by omega)

/-- Witness of C28: the `update` of the triangle mesh after its `create` in
`populateWorld`. -/
theorem device_offsets_fit_32_bits_witness :
    ∃ res, (exampleMeshData 84 0 16777216 33554432 37748736).update 1 triangleCreator
        = Run.ok res ∧
      res.handle < 37773312 ∧ res.info.pos_data_ptr < 37773312 ∧
      res.info.attrib_data_ptr < 37773312 ∧ res.info.index_data_ptr < 37773312 := by
  obtain ⟨res, hres⟩ : ∃ res,
      (exampleMeshData 84 0 16777216 33554432 37748736).update 1 triangleCreator = Run.ok res :=
    ⟨_, rfl⟩
  obtain ⟨_, _, dp, da, di, dinfo, _, _, _, _, o1, o2, o3, o4, e1, e2, e3, e4⟩ :=
    device_offsets_fit_32_bits 7 4096 9 [MeshOp.create 12 4 12 4 3 3] []
      (exampleMeshData 84 0 16777216 33554432 37748736) 1 triangleCreator res (by decide) hres
  exact ⟨res, hres, by omega, by omega, by omega, by omega⟩

/-! ## `update` with exhausted device-local allocators -/

/-- C23: `update` does not validate exhausted allocators. On a laid-out
`MeshData` whose staging allocation for the record succeeds, `update` returns
normally and records the copy of four regions whatever the device-local
allocators do; if the allocation from `m_positions` (respectively `m_attribs`,
`m_indices`) fails, the failed destination contributes offset 0 to the
`MeshInfo` field and to its copy region while the length of the region stays the
staging length, which is non-zero; and if the `m_infos` allocation fails the
record's region has destination 0 and length 24 and the returned handle is 0. -/
theorem update_does_not_validate (md : MeshData) (cmd : Nat) (creator : Creator)
    (hl : md.laidOut) (hmap : md.m_staging.m_mapped_ptr ≠ 0)
    (hstaging : md.m_staging.succeeds 24 4 = true) :
    ∃ (res : UpdateResult) (r1 r2 r3 r4 : VkBufferCopy),
      md.update cmd creator = Run.ok res ∧
      res.cmds =
        [GpuCmd.vkCmdPipelineBarrier
           (VK_PIPELINE_STAGE_VERTEX_INPUT_BIT ||| VK_PIPELINE_STAGE_VERTEX_SHADER_BIT)
           VK_PIPELINE_STAGE_TRANSFER_BIT VK_ACCESS_NONE VK_ACCESS_TRANSFER_WRITE_BIT,
         GpuCmd.vkCmdCopyBuffer md.m_staging_buffer md.m_buffer [r1, r2, r3, r4],
         GpuCmd.vkCmdPipelineBarrier VK_PIPELINE_STAGE_TRANSFER_BIT
           (VK_PIPELINE_STAGE_VERTEX_INPUT_BIT ||| VK_PIPELINE_STAGE_VERTEX_SHADER_BIT)
           VK_ACCESS_TRANSFER_WRITE_BIT VK_ACCESS_SHADER_READ_BIT] ∧
      (r1.srcOffset = creator.src_positions.offset ∧ r1.size = creator.src_positions.size) ∧
      (r2.srcOffset = creator.src_attribs.offset ∧ r2.size = creator.src_attribs.size) ∧
      (r3.srcOffset = creator.src_indices.offset ∧ r3.size = creator.src_indices.size) ∧
      r4.size = 24 ∧
      (md.m_positions.succeeds creator.src_positions.size 0 = false →
        r1.dstOffset = 0 ∧ res.info.pos_data_ptr = 0 ∧ r1.size ≠ 0) ∧
      (md.m_attribs.succeeds creator.src_attribs.size 0 = false →
        r2.dstOffset = 0 ∧ res.info.attrib_data_ptr = 0 ∧ r2.size ≠ 0) ∧
      (md.m_indices.succeeds creator.src_indices.size 0 = false →
        r3.dstOffset = 0 ∧ res.info.index_data_ptr = 0 ∧ r3.size ≠ 0) ∧
      (md.m_infos.succeeds 24 4 = false → r4.dstOffset = 0 ∧ res.handle = 0) := by
  obtain ⟨⟨_, _, _, _⟩, ⟨p1, p2, p3⟩, ⟨a1, a2, a3⟩, ⟨i1, i2, i3⟩, ⟨n1, n2, n3⟩⟩ :=
    meshData_laidOut_fields md hl
  obtain ⟨dp, sp, h1, _, _, _, _, f1⟩ := allocateBytes_align4 md.m_positions
    creator.src_positions.size 0 (by simp [LinearAllocator.effectiveAlignment, p1])
    (by omega) (by omega) (by omega)
  obtain ⟨da, sa, h2, _, _, _, _, f2⟩ := allocateBytes_align4 md.m_attribs
    creator.src_attribs.size 0 (by simp [LinearAllocator.effectiveAlignment, a1])
    (by omega) (by omega) (by omega)
  obtain ⟨di, si, h3, _, _, _, _, f3⟩ := allocateBytes_align4 md.m_indices
    creator.src_indices.size 0 (by simp [LinearAllocator.effectiveAlignment, i1])
    (by omega) (by omega) (by omega)
  obtain ⟨dinfo, sn, h4, _, _, _, _, f4⟩ := allocateBytes_align4 md.m_infos 24 4
    (by simp [LinearAllocator.effectiveAlignment]) (by omega) (by omega) (by omega)
  obtain ⟨osrc, _, _, h5⟩ := allocateBytes_of_succeeds md.m_staging 24 4 hstaging
  have e24 : mul64 1 sizeof_MeshInfo = 24 := by decide
  have e4 : alignof_MeshInfo = 4 := rfl
  obtain ⟨res, hupd⟩ : ∃ res, md.update cmd creator = Run.ok res := by
    unfold MeshData.update LinearAllocator.allocate
    rw [e24, e4]
    simp only [h1, h2, h3, h4, h5, hmap, if_false]
    exact ⟨_, rfl⟩
  obtain ⟨dp1, da1, di1, dinfo1, sinfo1, g1, g2, g3, g4, g5, _, _, _, hh, hi, hp, ha, hcmds⟩ :=
    update_ok_cases md cmd creator res hupd
  rw [h1] at g1
  rw [h2] at g2
  rw [h3] at g3
  rw [h4] at g4
  rw [h5] at g5
  simp only [Run.ok.injEq, Prod.mk.injEq] at g1 g2 g3 g4 g5
  obtain ⟨g1, _⟩ := g1
  obtain ⟨g2, _⟩ := g2
  obtain ⟨g3, _⟩ := g3
  obtain ⟨g4, _⟩ := g4
  obtain ⟨g5, _⟩ := g5
  subst g1 g2 g3 g4 g5
  have nz : ∀ n : Nat, n % 2 ^ 64 ≠ 0 → n ≠ 0 := by
    intro n hn h0
    subst h0
    exact hn rfl
  refine ⟨res, _, _, _, _, hupd, hcmds, ⟨rfl, rfl⟩, ⟨rfl, rfl⟩, ⟨rfl, rfl⟩, rfl, ?_, ?_, ?_, ?_⟩
  · intro hs
    obtain ⟨hr, _, hz⟩ := f1 hs
    rw [hp, hr]
    exact ⟨rfl, rfl, nz _ hz⟩
  · intro hs
    obtain ⟨hr, _, hz⟩ := f2 hs
    rw [ha, hr]
    exact ⟨rfl, rfl, nz _ hz⟩
  · intro hs
    obtain ⟨hr, _, hz⟩ := f3 hs
    rw [hi, hr]
    exact ⟨rfl, rfl, nz _ hz⟩
  · intro hs
    obtain ⟨hr, _, _⟩ := f4 hs
    rw [hh, hr]
    exact ⟨rfl, rfl⟩

/-- Witness of C23: the `update` of the triangle mesh on a `MeshData` whose
position store and record store are full. -/
theorem update_does_not_validate_witness :
    ∃ res, (exampleMeshData 84 16777216 16777216 33554432 37773312).update 1 triangleCreator
        = Run.ok res ∧
      res.info.pos_data_ptr = 0 ∧ res.handle = 0 := by
  obtain ⟨res, r1, r2, r3, r4, hupd, _, _, _, _, _, f1, _, _, f4⟩ :=
    update_does_not_validate (exampleMeshData 84 16777216 16777216 33554432 37773312) 1
      triangleCreator (by decide) (by decide) (by decide)
  exact ⟨res, hupd, (f1 (by decide)).2.1, (f4 (by decide)).2⟩

/-! ## The staging allocator of `MeshData` -/

/-- A product of two 32-bit values, computed in 64 bits, is exact and leaves
room for an offset below `2 ^ 33 - 1`. -/
theorem mul64_u32 (count size : Nat) (hc : count < 2 ^ 32) (hs : size < 2 ^ 32) :
    mul64 count size = count * size ∧ count * size ≤ 2 ^ 64 - 2 ^ 33 + 1 := by
  have h1 : count * size ≤ (2 ^ 32 - 1) * (2 ^ 32 - 1) :=
    Nat.mul_le_mul (by omega) (by omega)
  norm_num at h1
  refine ⟨Nat.mod_eq_of_lt (by omega), by omega⟩

/-- A returning call with a 32-bit alignment on an allocator whose region ends
below `2 ^ 32`, for a size that leaves room for the offset: the cursor does not
move back, and it advances by at least the size when the call succeeds. -/
theorem allocateBytes_advance (a : LinearAllocator) (size alignment : Nat)
    (r : BufferSubAllocation) (a1 : LinearAllocator)
    (h : a.allocateBytes size alignment = Run.ok (r, a1))
    (hcur : a.m_cur ≤ a.m_end) (hend : a.m_end ≤ 2 ^ 32)
    (hal : a.effectiveAlignment alignment < 2 ^ 32) (hsize : size ≤ 2 ^ 64 - 2 ^ 33 + 1) :
    a.m_cur ≤ a1.m_cur ∧ (a.succeeds size alignment = true → a.m_cur + size ≤ a1.m_cur) := by
  obtain ⟨offset, halign, hcase⟩ := allocateBytes_cases a size alignment r a1 h
  have h0 := (alignUp_ok_mod _ _ _ halign).1
  have hlt := alignUpExact_lt a.m_cur (a.effectiveAlignment alignment) h0
  have hstep := allocateBytes_step_noWrap a size alignment r a1 h (by
    intro _
    unfold LinearAllocator.exactEnd
    omega)
  refine ⟨hstep.1, ?_⟩
  intro hs
  obtain ⟨hoff, hsum⟩ := hstep.2 hs
  rcases hcase with ⟨_, _, hr, _⟩ | ⟨hf, _, _, _⟩
  · have hrsize : r.size = size := by rw [hr]
    omega
  · rw [hs] at hf; cases hf

/-- A typed `create` on a laid-out `MeshData` does not move the staging cursor
back, and advances it by at least the bytes of the mesh when its three
allocations succeed. -/
theorem create_advances_staging (md : MeshData) (sP aP sA aA V I : Nat) (creator : Creator)
    (md1 : MeshData) (hl : md.laidOut) (ht : (MeshOp.create sP aP sA aA V I).typed)
    (h : md.create sP aP sA aA V I = Run.ok (creator, md1)) :
    md.m_staging.m_cur ≤ md1.m_staging.m_cur ∧
      (md.createSucceeds sP aP sA aA V I = true →
        md.m_staging.m_cur + (V * sP + V * sA + 4 * I) ≤ md1.m_staging.m_cur) := by
  obtain ⟨hsP, haP, hsA, haA, hV, hI⟩ := ht
  obtain ⟨⟨m1, _, m3, m4⟩, _⟩ := meshData_laidOut_fields md hl
  obtain ⟨s1, s2, h1, h2, h3, _⟩ := create_ok_cases md sP aP sA aA V I creator md1 h
  have k1 := allocateBytes_keeps_region _ _ _ _ _ h1 (by omega)
  have k2 := allocateBytes_keeps_region _ _ _ _ _ h2 k1.2.1
  have e1 : s1.m_end = 8388608 := by
    have := congrArg LinearAllocator.m_end k1.1
    exact this.trans m3
  have a1 : s1.m_min_alignment = 4 := by
    have := congrArg LinearAllocator.m_min_alignment k1.1
    exact this.trans m1
  have e2 : s2.m_end = 8388608 := by
    have := congrArg LinearAllocator.m_end k2.1
    exact this.trans e1
  have a2 : s2.m_min_alignment = 4 := by
    have := congrArg LinearAllocator.m_min_alignment k2.1
    exact this.trans a1
  obtain ⟨p1, p2⟩ := mul64_u32 V sP hV hsP
  obtain ⟨q1, q2⟩ := mul64_u32 V sA hV hsA
  obtain ⟨i1, i2⟩ := mul64_u32 I 4 hI (by decide)
  have eff : ∀ (a : LinearAllocator) (al : Nat), a.m_min_alignment = 4 → al < 2 ^ 32 →
      a.effectiveAlignment al < 2 ^ 32 := by
    intro a al ha hal
    unfold LinearAllocator.effectiveAlignment
    split <;> omega
  have g1 := allocateBytes_advance _ _ _ _ _ h1 (by omega) (by omega) (eff _ _ m1 haP)
    (by omega)
  have g2 := allocateBytes_advance _ _ _ _ _ h2 (by have := k1.2.1; omega) (by omega)
    (eff _ _ a1 haA) (by omega)
  have g3 := allocateBytes_advance _ _ _ _ _ h3 (by have := k2.2.1; omega) (by omega)
    (eff _ _ a2 (by decide)) (by omega)
  refine ⟨by omega, ?_⟩
  intro hs
  unfold MeshData.createSucceeds LinearAllocator.allocate at hs
  have e4 : MeshData.sizeof_Index = 4 := rfl
  have e5 : MeshData.alignof_Index = 4 := rfl
  rw [e4, e5] at hs
  simp only [h1, h2, Bool.and_eq_true] at hs
  obtain ⟨u1, u2, u3⟩ := hs
  have := g1.2 u1
  have := g2.2 u2
  have := g3.2 u3
  omega

/-- A returning `update` on a laid-out `MeshData` advances the staging cursor by
at least `sizeof(MeshInfo) = 24`. -/
theorem update_advances_staging (md : MeshData) (cmd : Nat) (creator : Creator)
    (res : UpdateResult) (hl : md.laidOut) (h : md.update cmd creator = Run.ok res) :
    md.m_staging.m_cur + 24 ≤ res.self.m_staging.m_cur := by
  obtain ⟨⟨m1, _, m3, m4⟩, _⟩ := meshData_laidOut_fields md hl
  obtain ⟨_, _, _, _, sinfo, _, _, _, _, h5, hm, _⟩ := update_ok_cases md cmd creator res h
  have k := allocateBytes_keeps_region _ _ _ _ _ h5 (by omega)
  have g := allocateBytes_advance _ _ _ _ _ h5 (by omega) (by omega)
    (by simp [LinearAllocator.effectiveAlignment]) (by decide)
  exact g.2 (k.2.2 hm)

/-- A run of calls splits at every point into the run of the calls before it
and the run of the calls after it. -/
theorem runOps_append (pre post : List MeshOp) :
    ∀ (md : MeshData) (handles : List Nat) (md2 : MeshData),
      md.runOps (pre ++ post) = Run.ok (handles, md2) →
      ∃ h1 md1 h2, md.runOps pre = Run.ok (h1, md1) ∧ md1.runOps post = Run.ok (h2, md2) := by
  induction pre with
  | nil =>
    intro md handles md2 h
    exact ⟨[], md, handles, rfl, h⟩
  | cons op pre ih =>
    intro md handles md2 h
    cases op with
    | create sp ap sa aa v i =>
      simp only [List.cons_append, MeshData.runOps] at h ⊢
      cases hc : md.create sp ap sa aa v i with
      | fault f => simp [hc] at h
      | ok p =>
        obtain ⟨c, md3⟩ := p
        simp only [hc] at h ⊢
        exact ih md3 handles md2 h
    | update cmd creator =>
      simp only [List.cons_append, MeshData.runOps] at h ⊢
      cases hu : md.update cmd creator with
      | fault f => simp [hu] at h
      | ok res =>
        simp only [hu] at h ⊢
        cases hr : res.self.runOps (pre ++ post) with
        | fault f => simp [hr] at h
        | ok q =>
          obtain ⟨hs, md3⟩ := q
          have hr2 : res.self.runOps (pre.append post) = Run.ok (hs, md3) := hr
          simp only [hr2, Run.ok.injEq, Prod.mk.injEq] at h
          obtain ⟨_, hmd⟩ := h
          subst hmd
          obtain ⟨h1, md1, h2, e1, e2⟩ := ih res.self hs md3 hr
          exact ⟨res.handle :: h1, md1, h2, by simp [e1], e2⟩

/-- Over a run of typed calls on a laid-out `MeshData` the staging cursor
advances by at least the staged bytes of the run. -/
theorem runOps_staged (ops : List MeshOp) :
    ∀ (md : MeshData) (handles : List Nat) (md1 : MeshData),
      md.laidOut → (∀ op ∈ ops, op.typed) → md.runOps ops = Run.ok (handles, md1) →
      md.m_staging.m_cur + md.stagedBytes ops ≤ md1.m_staging.m_cur := by
  induction ops with
  | nil =>
    intro md handles md1 _ _ h
    simp only [MeshData.runOps, Run.ok.injEq, Prod.mk.injEq] at h
    rw [← h.2]
    simp [MeshData.stagedBytes]
  | cons op ops ih =>
    intro md handles md1 hl ht h
    have ht1 : op.typed := ht op (List.mem_cons_self _ _)
    have ht2 : ∀ o ∈ ops, o.typed := fun o ho => ht o (List.mem_cons_of_mem _ ho)
    cases op with
    | create sp ap sa aa v i =>
      simp only [MeshData.runOps] at h
      cases hc : md.create sp ap sa aa v i with
      | fault f => simp [hc] at h
      | ok p =>
        obtain ⟨c, md2⟩ := p
        simp only [hc] at h
        have hadv := create_advances_staging md sp ap sa aa v i c md2 hl ht1 hc
        have hrest := ih md2 handles md1 (create_laidOut md sp ap sa aa v i c md2 hl hc) ht2 h
        simp only [MeshData.stagedBytes, hc]
        by_cases hs : md.createSucceeds sp ap sa aa v i = true
        · have := hadv.2 hs
          simp only [hs, if_true]
          omega
        · have := hadv.1
          simp only [hs]
          simp only [Bool.false_eq_true, if_false]
          omega
    | update cmd creator =>
      simp only [MeshData.runOps] at h
      cases hu : md.update cmd creator with
      | fault f => simp [hu] at h
      | ok res =>
        simp only [hu] at h
        cases hr : res.self.runOps ops with
        | fault f => simp [hr] at h
        | ok q =>
          obtain ⟨hs, md2⟩ := q
          simp only [hr, Run.ok.injEq, Prod.mk.injEq] at h
          obtain ⟨_, hmd⟩ := h
          subst hmd
          have hadv := update_advances_staging md cmd creator res hl hu
          have hrest := ih res.self hs md2 (update_laidOut md cmd creator res hl hu) ht2 hr
          simp only [MeshData.stagedBytes, hu]
          omega

/-- C27: the staging allocator of `MeshData` is never reset. Over every run of
`create` and `update` calls (arguments of `create` within their types) on the
constructed object, the cursor of `m_staging` after any part of the run is at
most the cursor at the end; each `create<PosT, AttribT>(V, I)` whose allocations
succeed advances it by at least `V * sizeof(PosT) + V * sizeof(AttribT) + 4 * I`
and each returning `update` by at least 24; so the total bytes of all meshes
created is bounded by `StagingBufferSize` (8 MiB), whatever space is free in the
device-local stores. -/
theorem staging_never_reset (staging_buffer mapped buffer : Nat) (ops : List MeshOp)
    (handles : List Nat) (md : MeshData)
    (htyped : ∀ op ∈ ops, op.typed)
    (hrun : (MeshData.constructed staging_buffer mapped buffer).runOps ops
      = Run.ok (handles, md)) :
    (∀ pre post, ops = pre ++ post →
      ∃ h1 md1, (MeshData.constructed staging_buffer mapped buffer).runOps pre
          = Run.ok (h1, md1) ∧
        md1.m_staging.m_cur ≤ md.m_staging.m_cur ∧
        md1.m_staging.m_cur + md1.stagedBytes post ≤ md.m_staging.m_cur) ∧
    (MeshData.constructed staging_buffer mapped buffer).stagedBytes ops
      ≤ md.m_staging.m_cur ∧
    md.m_staging.m_cur ≤ MeshData.StagingBufferSize ∧
    (MeshData.constructed staging_buffer mapped buffer).stagedBytes ops
      ≤ MeshData.StagingBufferSize ∧
    MeshData.StagingBufferSize = 8388608 := by
  have hl0 := constructed_laidOut staging_buffer mapped buffer
  have hl := runOps_laidOut ops _ handles md hl0 hrun
  obtain ⟨⟨_, _, m3, m4⟩, _⟩ := meshData_laidOut_fields md hl
  have htotal := runOps_staged ops _ handles md hl0 htyped hrun
  have h0 : (MeshData.constructed staging_buffer mapped buffer).m_staging.m_cur = 0 := rfl
  have hsize : MeshData.StagingBufferSize = 8388608 := by decide
  refine ⟨?_, by omega, by omega, by omega, hsize⟩
  intro pre post hsplit
  subst hsplit
  obtain ⟨h1, md1, h2, e1, e2⟩ := runOps_append pre post _ handles md hrun
  have hl1 := runOps_laidOut pre _ h1 md1 hl0 e1
  have hpost := runOps_staged post md1 h2 md hl1
    (fun o ho => htyped o (List.mem_append_right _ ho)) e2
  exact ⟨h1, md1, e1, by omega, hpost⟩

/-- Witness of C27: the calls of `populateWorld` stage
`84 + 24 + 1464 + 24 + 336 + 24 = 1956` bytes and leave the staging cursor at
1956. -/
theorem staging_never_reset_witness :
    (MeshData.constructed 7 4096 9).stagedBytes populateWorldOps = 1956 ∧
    (MeshData.constructed 7 4096 9).runOps populateWorldOps
      = Run.ok ([37748736, 37748760, 37748784],
          exampleMeshData 1956 672 16777888 33554972 37748808) ∧
    (MeshData.constructed 7 4096 9).stagedBytes populateWorldOps
      ≤ (exampleMeshData 1956 672 16777888 33554972 37748808).m_staging.m_cur :=
  ⟨by decide, by decide,
   (staging_never_reset 7 4096 9 populateWorldOps [37748736, 37748760, 37748784]
      (exampleMeshData 1956 672 16777888 33554972 37748808) (by decide) (by decide)).2.1⟩

end brtoy
